import Mathlib

/-!
Shallow embedding of the core of the acorn ECMAScript parser
(`src/acorn/src/scope.js` and the small companion files), used to check the
claims of the specification against the code.

Modelling conventions:
* JavaScript strings are sequences of UTF-16 code units, modelled as `List Nat`
  (`JStr`).  `String.charCodeAt(i)` out of range yields NaN in JavaScript; it is
  modelled as `Option Nat` with `none` for NaN, and every comparison site
  translates `x === c` to `= some c` (NaN compares false with everything).
* The parser object is a single mutable record; it is modelled as the state `P`
  of a state-plus-exceptions monad `Eff`.  A thrown `SyntaxError` carries the
  state at the throw point, because JavaScript mutations performed before a
  `throw` persist on the parser object.
* `DestructuringErrors` records are mutable objects passed by reference; they
  are modelled as indices into a heap (`deHeap`) stored in the state.
* Stacks (`context`, `scopeStack`, `labels`) grow at the head of the list
  (JavaScript pushes at the end of the array); `curContext()` is the head.
* Recursive functions are defined through fuel so that every definition is a
  plain computable `def` that the kernel can evaluate; running out of fuel
  produces the distinguished error `Err.outOfFuel`, never a wrong answer.
* Code of the repository that sits in modules not included in the given sources
  (`tokentype.js`, `tokencontext.js`, `whitespace.js`, `identifier.js`,
  `scopeflags.js`, `options.js`, `locutil.js`) is modelled from the
  specification; each such definition is marked `Modelled from the spec`.
-/

namespace Acorn

/-- JavaScript string: a sequence of UTF-16 code units. -/
abbrev JStr := List Nat

/-- Encode a Lean string as a JavaScript (UTF-16) string. -/
def jstr (s : String) : JStr :=
  s.data.bind (fun c =>
    let n := c.toNat
    if n < 0x10000 then [n]
    else [0xd800 + (n - 0x10000) / 1024, 0xdc00 + (n - 0x10000) % 1024])

/-- Decode a UTF-16 code-unit sequence back to a Lean string (used only for
stating theorems readably; lone surrogates are mapped to U+FFFD). -/
def uStr : JStr → String
  | [] => ""
  | u :: rest =>
    let cont := uStr rest
    if u < 0xd800 ∨ (0xe000 ≤ u ∧ u < 0x110000) then
      (String.mk [Char.ofNat u]) ++ cont
    else
      match rest with
      | u2 :: rest2 =>
        if 0xd800 ≤ u ∧ u < 0xdc00 ∧ 0xdc00 ≤ u2 ∧ u2 < 0xe000 then
          (String.mk [Char.ofNat (0x10000 + (u - 0xd800) * 1024 + (u2 - 0xdc00))]) ++ uStr rest2
        else (String.mk ['�']) ++ cont
      | [] => String.mk ['�']

/-- Decimal representation of a natural number as a JavaScript string. -/
def natStr (n : Nat) : JStr := jstr (toString n)

/-- JavaScript `str.charCodeAt(i)`; `none` models NaN (index out of range). -/
def charCodeAt (s : JStr) (i : Nat) : Option Nat := s.get? i

/-- JavaScript `str.slice(a, b)` for `0 ≤ a ≤ b` (the only uses in the code). -/
def jslice (s : JStr) (a b : Nat) : JStr := (s.drop a).take (b - a)

/-- JavaScript `str.indexOf(c, from)` for a single code unit, as used by
`validateRegExpFlags`; returns `-1` when absent, modelled as `Option Nat`. -/
def jindexOfFrom (s : JStr) (c : Nat) (from_ : Nat) : Option Nat :=
  match (s.drop from_).findIdx? (· = c) with
  | some i => some (from_ + i)
  | none => none

/-- Modelled from the spec: the `lineBreak` regular expression of
`whitespace.js` matches CR, LF, U+2028 and U+2029; `lineBreak.test(str)`
holds when the string contains a line terminator. -/
def isNewLineCode (c : Nat) : Bool :=
  c = 10 || c = 13 || c = 0x2028 || c = 0x2029

/-- Modelled from the spec: `lineBreak.test`. -/
def lineBreakTest (s : JStr) : Bool := s.any isNewLineCode

/-- Modelled from the spec: the `nonASCIIwhitespace` character set of
`whitespace.js` (non-breaking space is handled separately by `skipSpace`). -/
def nonASCIIwhitespaceTest (c : Nat) : Bool :=
  c = 0x1680 || (0x2000 ≤ c && c ≤ 0x200a) || c = 0x202f || c = 0x205f ||
  c = 0x3000 || c = 0xfeff

/-- Modelled from the spec: a code unit matched by the `\s` class of the
`skipWhiteSpace` regular expression of `whitespace.js`. -/
def isWsCode (c : Nat) : Bool :=
  c = 32 || (9 ≤ c && c ≤ 13) || c = 160 || c = 0x2028 || c = 0x2029 ||
  nonASCIIwhitespaceTest c

/-- Modelled from the spec: the loop of `getLineInfo` of `locutil.js`: find the
successive `lineBreakG` matches whose index is `< offset` (CRLF is one match);
each bumps the line and moves the current line start past the break. -/
def getLineInfoGo (offset : Nat) : JStr → Nat → Nat → Nat → Nat × Nat
  | [], _, line, cur => (line, offset - cur)
  | 13 :: 10 :: rest2, i, line, cur =>
    if i < offset then getLineInfoGo offset rest2 (i + 2) (line + 1) (i + 2)
    else (line, offset - cur)
  | c :: rest, i, line, cur =>
    if i < offset then
      if isNewLineCode c then getLineInfoGo offset rest (i + 1) (line + 1) (i + 1)
      else getLineInfoGo offset rest (i + 1) line cur
    else (line, offset - cur)

/-- Line/column of an offset, per `getLineInfo` (line 1-based, column 0-based). -/
def getLineInfo (input : JStr) (offset : Nat) : Nat × Nat :=
  getLineInfoGo offset input 0 1 0

/-- Modelled from the spec: the ASCII part of `isIdentifierStart` of
`identifier.js` (`$`, `_`, letters).  The Unicode tables are external
collaborators treated as opaque predicates; the model makes non-ASCII
code points non-identifier characters, which is exact on ASCII sources. -/
def isIdentifierStart (c : Option Nat) : Bool :=
  match c with
  | some c => c = 36 || c = 95 || (65 ≤ c && c ≤ 90) || (97 ≤ c && c ≤ 122)
  | none => false

/-- Modelled from the spec: the ASCII part of `isIdentifierChar` of
`identifier.js` (identifier start plus digits). -/
def isIdentifierChar (c : Option Nat) : Bool :=
  isIdentifierStart c || (match c with | some c => 48 ≤ c && c ≤ 57 | none => false)

/-- Modelled from the spec: the `keywords` word list of `identifier.js` for
`ecmaVersion ≥ 6` (one keyword token per reserved word, §6 of the spec). -/
def keywordList : List String :=
  ["break", "case", "catch", "continue", "debugger", "default", "do", "else",
   "finally", "for", "function", "if", "return", "switch", "throw", "try",
   "var", "const", "while", "with", "new", "this", "super", "class", "extends",
   "export", "import", "null", "true", "false", "in", "instanceof", "typeof",
   "void", "delete"]

/-- Modelled from the spec: `reservedWords[6]` of `identifier.js`. -/
def reservedWords6 : List String := ["enum"]

/-- Modelled from the spec: `reservedWords.strict` of `identifier.js`. -/
def reservedWordsStrictList : List String :=
  ["implements", "interface", "let", "package", "private", "protected",
   "public", "static", "yield"] ++ reservedWords6

/-- Modelled from the spec: `reservedWords.strictBind` of `identifier.js`. -/
def reservedWordsStrictBindList : List String :=
  ["eval", "arguments"] ++ reservedWordsStrictList

/-- Membership test playing the role of `wordsRegexp(list).test(word)`. -/
def wordsTest (l : List String) (w : JStr) : Bool := l.any (fun k => jstr k = w)

end Acorn

namespace Acorn

/-- Modelled from the spec: the closed set of token types of `tokentype.js`
(§6 of the spec lists them; §4.4 gives the binary-operator precedences). -/
inductive TokType where
  | num | regexp | string | name | eof
  | bracketL | bracketR | braceL | braceR | parenL | parenR
  | comma | semi | colon | dot | question | questionDot | arrow
  | template | invalidTemplate | ellipsis | backQuote | dollarBraceL
  | eq | assign | incDec | prefixOp
  | logicalOR | logicalAND | bitwiseOR | bitwiseXOR | bitwiseAND
  | equality | relational | bitShift | plusMin | modulo | star | slash
  | starstar | coalesce
  | _break | _case | _catch | _continue | _debugger | _default | _do | _else
  | _finally | _for | _function | _if | _return | _switch | _throw | _try
  | _var | _const | _while | _with | _new | _this | _super | _class | _extends
  | _export | _import | _null | _true | _false | _in | _instanceof
  | _typeof | _void | _delete
  deriving DecidableEq, Repr

/-- Modelled from the spec: the per-token-type properties carried by
`TokenType` objects (`beforeExpr`, `startsExpr`, `isLoop`, `isAssign`,
prefix/postfix operator flags, binary precedence, keyword lexeme). -/
structure TTProps where
  keyword : Option String := none
  beforeExpr : Bool := false
  startsExpr : Bool := false
  isLoop : Bool := false
  isAssign : Bool := false
  preOp : Bool := false
  postOp : Bool := false
  binop : Option Nat := none
  deriving Repr

/-- Modelled from the spec: the token-type property table of `tokentype.js`. -/
def tprops : TokType → TTProps
  | .num => { startsExpr := true }
  | .regexp => { startsExpr := true }
  | .string => { startsExpr := true }
  | .name => { startsExpr := true }
  | .eof => {}
  | .bracketL => { beforeExpr := true, startsExpr := true }
  | .bracketR => {}
  | .braceL => { beforeExpr := true, startsExpr := true }
  | .braceR => {}
  | .parenL => { beforeExpr := true, startsExpr := true }
  | .parenR => {}
  | .comma => { beforeExpr := true }
  | .semi => { beforeExpr := true }
  | .colon => { beforeExpr := true }
  | .dot => {}
  | .question => { beforeExpr := true }
  | .questionDot => {}
  | .arrow => { beforeExpr := true }
  | .template => {}
  | .invalidTemplate => {}
  | .ellipsis => { beforeExpr := true }
  | .backQuote => { startsExpr := true }
  | .dollarBraceL => { beforeExpr := true, startsExpr := true }
  | .eq => { beforeExpr := true, isAssign := true }
  | .assign => { beforeExpr := true, isAssign := true }
  | .incDec => { preOp := true, postOp := true, startsExpr := true }
  | .prefixOp => { beforeExpr := true, preOp := true, startsExpr := true }
  | .logicalOR => { beforeExpr := true, binop := some 1 }
  | .logicalAND => { beforeExpr := true, binop := some 2 }
  | .bitwiseOR => { beforeExpr := true, binop := some 3 }
  | .bitwiseXOR => { beforeExpr := true, binop := some 4 }
  | .bitwiseAND => { beforeExpr := true, binop := some 5 }
  | .equality => { beforeExpr := true, binop := some 6 }
  | .relational => { beforeExpr := true, binop := some 7 }
  | .bitShift => { beforeExpr := true, binop := some 8 }
  | .plusMin => { beforeExpr := true, binop := some 9, preOp := true, startsExpr := true }
  | .modulo => { beforeExpr := true, binop := some 10 }
  | .star => { beforeExpr := true, binop := some 10 }
  | .slash => { beforeExpr := true, binop := some 10 }
  | .starstar => { beforeExpr := true }
  | .coalesce => { beforeExpr := true, binop := some 1 }
  | ._break => { keyword := some "break" }
  | ._case => { keyword := some "case", beforeExpr := true }
  | ._catch => { keyword := some "catch" }
  | ._continue => { keyword := some "continue" }
  | ._debugger => { keyword := some "debugger" }
  | ._default => { keyword := some "default", beforeExpr := true }
  | ._do => { keyword := some "do", isLoop := true, beforeExpr := true }
  | ._else => { keyword := some "else", beforeExpr := true }
  | ._finally => { keyword := some "finally" }
  | ._for => { keyword := some "for", isLoop := true }
  | ._function => { keyword := some "function", startsExpr := true }
  | ._if => { keyword := some "if" }
  | ._return => { keyword := some "return", beforeExpr := true }
  | ._switch => { keyword := some "switch" }
  | ._throw => { keyword := some "throw", beforeExpr := true }
  | ._try => { keyword := some "try" }
  | ._var => { keyword := some "var" }
  | ._const => { keyword := some "const" }
  | ._while => { keyword := some "while", isLoop := true }
  | ._with => { keyword := some "with" }
  | ._new => { keyword := some "new", beforeExpr := true, startsExpr := true }
  | ._this => { keyword := some "this", startsExpr := true }
  | ._super => { keyword := some "super", startsExpr := true }
  | ._class => { keyword := some "class", startsExpr := true }
  | ._extends => { keyword := some "extends", beforeExpr := true }
  | ._export => { keyword := some "export" }
  | ._import => { keyword := some "import", startsExpr := true }
  | ._null => { keyword := some "null", startsExpr := true }
  | ._true => { keyword := some "true", startsExpr := true }
  | ._false => { keyword := some "false", startsExpr := true }
  | ._in => { keyword := some "in", beforeExpr := true, binop := some 7 }
  | ._instanceof => { keyword := some "instanceof", beforeExpr := true, binop := some 7 }
  | ._typeof => { keyword := some "typeof", beforeExpr := true, preOp := true, startsExpr := true }
  | ._void => { keyword := some "void", beforeExpr := true, preOp := true, startsExpr := true }
  | ._delete => { keyword := some "delete", beforeExpr := true, preOp := true, startsExpr := true }

/-- Modelled from the spec: `keywordTypes[word]` of `tokentype.js`. -/
def keywordTypes (w : JStr) : Option TokType :=
  (keywordList.zip
    [TokType._break, ._case, ._catch, ._continue, ._debugger, ._default, ._do,
     ._else, ._finally, ._for, ._function, ._if, ._return, ._switch, ._throw,
     ._try, ._var, ._const, ._while, ._with, ._new, ._this, ._super, ._class,
     ._extends, ._export, ._import, ._null, ._true, ._false, ._in,
     ._instanceof, ._typeof, ._void, ._delete]).lookup (uStr w)

/-- Modelled from the spec: the syntactic-context descriptors of
`tokencontext.js` (§4.2 of the spec lists them). -/
inductive Ctx where
  | b_stat | b_expr | b_tmpl
  | p_stat | p_expr
  | q_tmpl
  | f_stat | f_expr | f_expr_gen | f_gen
  deriving DecidableEq, Repr

/-- Modelled from the spec: `isExpr` of a context descriptor. -/
def Ctx.isExpr : Ctx → Bool
  | .b_expr | .b_tmpl | .p_expr | .f_expr | .f_expr_gen | .q_tmpl => true
  | _ => false

/-- Modelled from the spec: `preserveSpace` of a context descriptor (true only
inside templates). -/
def Ctx.preserveSpace : Ctx → Bool
  | .q_tmpl => true
  | _ => false

/-- Modelled from the spec: the `token` string of a context descriptor. -/
def Ctx.token : Ctx → String
  | .b_stat | .b_expr | .b_tmpl => "\x7b"
  | .p_stat | .p_expr => "("
  | .q_tmpl => "`"
  | .f_stat | .f_expr | .f_expr_gen | .f_gen => "function"

/-- Modelled from the spec: the `generator` flag of a context descriptor. -/
def Ctx.generator : Ctx → Bool
  | .f_expr_gen | .f_gen => true
  | _ => false

/-- Modelled from the spec: only the template context carries an `override`
scanner (`readTmplToken`). -/
def Ctx.hasOverride : Ctx → Bool
  | .q_tmpl => true
  | _ => false

end Acorn

namespace Acorn

/-- Modelled from the spec: the scope-flag bit masks of `scopeflags.js`
(§3 of the spec lists the kinds: VAR, FUNCTION, ASYNC, GENERATOR, ARROW,
SIMPLE_CATCH, SUPER, DIRECT_SUPER, TOP; VAR marks the var-hoisting scopes,
i.e. top level and functions). -/
def SCOPE_TOP : Nat := 1
def SCOPE_FUNCTION : Nat := 2
def SCOPE_VAR : Nat := SCOPE_TOP ||| SCOPE_FUNCTION
def SCOPE_ASYNC : Nat := 4
def SCOPE_GENERATOR : Nat := 8
def SCOPE_ARROW : Nat := 16
def SCOPE_SIMPLE_CATCH : Nat := 32
def SCOPE_SUPER : Nat := 64
def SCOPE_DIRECT_SUPER : Nat := 128

/-- Modelled from the spec: `functionFlags(async, generator)` of
`scopeflags.js`. -/
def functionFlags (async generator : Bool) : Nat :=
  SCOPE_FUNCTION ||| (if async then SCOPE_ASYNC else 0) |||
    (if generator then SCOPE_GENERATOR else 0)

/-- Modelled from the spec: the binding kinds of `scopeflags.js`. -/
def BIND_NONE : Nat := 0
def BIND_VAR : Nat := 1
def BIND_LEXICAL : Nat := 2
def BIND_FUNCTION : Nat := 3
def BIND_SIMPLE_CATCH : Nat := 4
def BIND_OUTSIDE : Nat := 5

/-- Bit test `a & b` used as a truthy value in the code. -/
def flagTest (a b : Nat) : Bool := a &&& b ≠ 0

/-- JavaScript values as they appear in token values and node fields. -/
inductive JsVal where
  | undef
  | null
  | bool (b : Bool)
  | str (s : JStr)
  /-- The numeric value of a literal.  The embedding keeps the exact natural
  value of plain decimal integer literals (the only values the claims touch);
  other numeric shapes stop at an explicit `unsupported` boundary. -/
  | num (n : Nat)
  /-- The `{pattern, flags, value}` record carried by a `regexp` token. -/
  | regexRecord (pattern flags : JStr) (value : JsVal)
  /-- A host regular-expression object (`new RegExp(pattern, flags)`).  The
  model treats the host as always able to compile the pattern. -/
  | regexObj (pattern flags : JStr)
  deriving DecidableEq, Repr

/-- The `Scope` class of `scope.js`: flags plus the three name lists. -/
structure ScopeR where
  flags : Nat
  var : List JStr := []
  lexical : List JStr := []
  functions : List JStr := []
  deriving DecidableEq, Repr

/-- The `DestructuringErrors` record of `parseutil.js`: five offsets, −1 when
unset. -/
structure DE where
  shorthandAssign : Int := -1
  trailingComma : Int := -1
  parenthesizedAssign : Int := -1
  parenthesizedBind : Int := -1
  doubleProto : Int := -1
  deriving DecidableEq, Repr

/-- Reference to a `DestructuringErrors` object: an index into `deHeap`. -/
abbrev DERef := Nat

/-- A label entry as pushed on `this.labels`. -/
structure LabelR where
  name : Option JStr := none
  kind : Option String := none
  statementStart : Option Nat := none
  deriving DecidableEq, Repr

/-- The `RegExpValidationState` of `regexp.js` (the parser back-pointer is
implicit: validator functions run in the same monad). -/
structure RState where
  validFlags : JStr := []
  source : JStr := []
  flags : JStr := []
  start : Nat := 0
  switchU : Bool := false
  switchN : Bool := false
  pos : Nat := 0
  lastIntValue : Int := 0
  lastStringValue : JStr := []
  lastAssertionIsQuantifiable : Bool := false
  numCapturingParens : Nat := 0
  maxBackReference : Nat := 0
  groupNames : List JStr := []
  backReferenceNames : List JStr := []
  deriving DecidableEq, Repr

/-- Modelled from the spec: the option record produced by `getOptions` of
`options.js` (§6 of the spec), restricted to the options the embedded slice
reads; callbacks (`onToken`, `onComment`, …) are absent, i.e. not provided.
`ecmaVersion` defaults to 12 (ES2021, the newest edition the spec covers). -/
structure Options where
  ecmaVersion : Nat := 12
  sourceType : String := "script"
  allowReserved : Bool := false
  allowReturnOutsideFunction : Bool := false
  allowImportExportEverywhere : Bool := false
  allowAwaitOutsideFunction : Bool := false
  allowHashBang : Bool := false
  locations : Bool := false
  ranges : Bool := false
  preserveParens : Bool := false
  deriving DecidableEq, Repr

/-- The mutable parser object (`Parser` of `scope.js`), as a state record.
`endPos` is the `end` property (a Lean keyword).  Location bookkeeping
(`startLoc` …) is omitted because the modelled options set
`locations = false`, making all of it `undefined` in the code. -/
structure P where
  options : Options := {}
  input : JStr := []
  containsEsc : Bool := false
  pos : Nat := 0
  lineStart : Nat := 0
  curLine : Nat := 1
  type : TokType := .eof
  value : JsVal := .null
  start : Nat := 0
  endPos : Nat := 0
  lastTokStart : Nat := 0
  lastTokEnd : Nat := 0
  context : List Ctx := [.b_stat]
  exprAllowed : Bool := true
  inModule : Bool := false
  strict : Bool := false
  potentialArrowAt : Int := -1
  yieldPos : Nat := 0
  awaitPos : Nat := 0
  awaitIdentPos : Nat := 0
  labels : List LabelR := []
  undefinedExports : List (JStr × Nat) := []
  scopeStack : List ScopeR := []
  regexpState : Option RState := none
  deHeap : List DE := []
  clashHeap : List (List JStr) := []
  deriving Repr

/-- Errors: a thrown `SyntaxError` (with the formatted message, `pos`, `loc`
and `raisedAt` of `raise`), the explicit boundary of the embedded slice, and
fuel exhaustion. -/
inductive Err where
  | jsError (msg : JStr) (pos : Nat) (line col : Nat) (raisedAt : Nat)
  | unsupported (what : String)
  | outOfFuel
  deriving DecidableEq, Repr

/-- Result of running a step: JavaScript exceptions leave the mutations made
before the `throw` in place, so the error case also carries the state. -/
inductive Res (α : Type) where
  | ok (a : α) (s : P)
  | err (e : Err) (s : P)

/-- The effect monad: state (the parser object) plus exceptions. -/
def Eff (α : Type) : Type := P → Res α

instance : Monad Eff where
  pure a := fun s => .ok a s
  bind m k := fun s =>
    match m s with
    | .ok a s' => k a s'
    | .err e s' => .err e s'

def getP : Eff P := fun s => .ok s s

def setP (s : P) : Eff Unit := fun _ => .ok () s

def modifyP (f : P → P) : Eff Unit := fun s => .ok () (f s)

def throwE {α : Type} (e : Err) : Eff α := fun s => .err e s

/-- Explicit boundary of the embedded slice. -/
def unsupported {α : Type} (what : String) : Eff α := throwE (.unsupported what)

end Acorn

namespace Acorn

/-- The fields of an AST node (`Node` of `node.js`), parameterized by the node
type to allow recursion.  JavaScript stores differently-typed data in one
property when the node kinds differ; such properties are split here
(`value`/`valueN`, `expression`/`expressionB`, `body`/`bodyList`) with the
JavaScript property named in a comment. -/
structure NodeF (N : Type) where
  ty : String := ""
  start : Nat := 0
  endPos : Nat := 0
  name : JStr := []
  /-- `value` when it holds a plain JavaScript value (literals). -/
  value : JsVal := (.undef)
  /-- `value` when it holds a child node (`Property`). -/
  valueN : Option N := none
  raw : JStr := []
  bigint : JStr := []
  regex : Option (JStr × JStr) := none
  operator : JStr := []
  left : Option N := none
  right : Option N := none
  id : Option N := none
  init : Option N := none
  argument : Option N := none
  /-- `expression` when it holds a child node. -/
  expression : Option N := none
  /-- `expression` when it holds a boolean (function nodes). -/
  expressionB : Bool := false
  callee : Option N := none
  object : Option N := none
  property : Option N := none
  label : Option N := none
  meta : Option N := none
  tag : Option N := none
  quasi : Option N := none
  test : Option N := none
  consequent : Option N := none
  alternate : Option N := none
  /-- `body` when it holds a single child node (functions, labeled…). -/
  body : Option N := none
  /-- `body` when it holds an array (`Program`, `BlockStatement`). -/
  bodyList : List N := []
  declarations : List N := []
  params : List (Option N) := []
  expressions : List N := []
  properties : List N := []
  /-- `elements` and `arguments` may hold `null` entries. -/
  elements : List (Option N) := []
  argumentsL : List (Option N) := []
  kind : JStr := []
  computed : Bool := false
  optional : Bool := false
  generator : Bool := false
  async : Bool := false
  method : Bool := false
  shorthand : Bool := false
  /-- The `prefix` property of unary/update expressions. -/
  preOpB : Bool := false
  delegate : Bool := false
  tail : Bool := false
  sourceType : String := ""
  directive : Option JStr := none
  await_ : Bool := false

/-- An AST node. -/
inductive Node where
  | mk (f : NodeF Node)

/-- Field record of a node. -/
def Node.f : Node → NodeF Node
  | .mk f => f

/-- Functional update of a node's fields (JavaScript mutates the object; in
the embedded slice no node is mutated after being shared, so the functional
update is observationally the same). -/
def Node.upd (n : Node) (g : NodeF Node → NodeF Node) : Node := .mk (g n.f)

/-- The `Node` constructor of `node.js`: a fresh node at `pos` with every
field at its documented default. -/
def newNode (pos : Nat) : Node := .mk { start := pos }

/-- The `Token` class of `tokenize.js` (no `loc`/`range`: the modelled options
disable them). -/
structure TokenR where
  type : TokType
  value : JsVal
  start : Nat
  endPos : Nat
  deriving DecidableEq, Repr

/-- Token snapshot of the current-token fields of the parser, as built by
`new Token(p)`. -/
def TokenR.ofP (p : P) : TokenR :=
  { type := p.type, value := p.value, start := p.start, endPos := p.endPos }

/-- The `raise` method: format `"<reason> (<line>:<column>)"` and throw. -/
def raise {α : Type} (pos : Nat) (message : JStr) : Eff α := do
  let s ← getP
  let li := getLineInfo s.input pos
  throwE (.jsError
    (message ++ jstr " (" ++ natStr li.1 ++ jstr ":" ++ natStr li.2 ++ jstr ")")
    pos li.1 li.2 s.pos)

/-- The `raiseRecoverable` method (identical to `raise` in the base parser). -/
def raiseRecoverable {α : Type} (pos : Nat) (message : JStr) : Eff α :=
  raise pos message

/-- The `unexpected` method: `raise` an "Unexpected token" error at `pos`
(or at the current token start). -/
def unexpectedAt {α : Type} (pos : Option Nat) : Eff α := do
  let s ← getP
  raise (pos.getD s.start) (jstr "Unexpected token")

/-- The `curContext` method (`undefined` on an empty stack is `none`). -/
def curContext : Eff (Option Ctx) := fun s => .ok s.context.head? s

/-- The `fullCharCodeAtPos` method: combine a surrogate pair into one code
point; `none` models the NaN results of out-of-range reads (NaN propagates
through the arithmetic and compares false everywhere). -/
def fullCharCodeAtPos : Eff (Option Nat) := fun s =>
  match charCodeAt s.input s.pos with
  | none => .ok none s
  | some code =>
    if code ≤ 0xd7ff || code ≥ 0xe000 then .ok (some code) s
    else
      match charCodeAt s.input (s.pos + 1) with
      | some next => .ok (some ((code <<< 10) + next - 0x35fdc00)) s
      | none => .ok none s

end Acorn

namespace Acorn

/-- The `braceIsBlock` method of `scope.js`: decide whether a `{` after a token
of type `prevType` opens a statement block. -/
def braceIsBlock (prevType : TokType) : Eff Bool := do
  let s ← getP
  let parent := s.context.head?
  if parent = some .f_expr || parent = some .f_stat then pure true
  else if prevType = .colon && (parent = some .b_stat || parent = some .b_expr) then
    pure (!(parent.elim false Ctx.isExpr))
  else if prevType = ._return || (prevType = .name && s.exprAllowed) then
    pure (lineBreakTest (jslice s.input s.lastTokEnd s.start))
  else if prevType = ._else || prevType = .semi || prevType = .eof ||
      prevType = .parenR || prevType = .arrow then
    pure true
  else if prevType = .braceL then pure (parent = some .b_stat)
  else if prevType = ._var || prevType = ._const || prevType = .name then pure false
  else pure (!s.exprAllowed)

/-- The `inGeneratorContext` method of `scope.js`: walk the context stack from
the top down to index 1 looking for the innermost function context. -/
def inGeneratorContextGo : List Ctx → Bool
  | [] => false
  | [_] => false
  | c :: rest => if c.token = "function" then c.generator else inGeneratorContextGo rest

/-- The `inGeneratorContext` method. -/
def inGeneratorContext : Eff Bool := fun s => .ok (inGeneratorContextGo s.context) s

/-- Modelled from the spec: which token types carry an `updateContext`
function in `tokencontext.js` (§4.2 "each token type may carry an
`updateContext` function"). -/
def hasUpdateContext : TokType → Bool
  | .parenR | .braceR | .braceL | .dollarBraceL | .parenL | .incDec
  | ._function | ._class | .backQuote | .star | .name => true
  | _ => false

/-- Modelled from the spec: `updateContext` of `)` and `}` — pop the context;
closing a function body additionally pops the function context; on underflow
only set `exprAllowed` (§4.2 "`}` pops"). -/
def updateCtx_parenR_braceR : Eff Unit := do
  let s ← getP
  if s.context.length = 1 then
    modifyP (fun s => { s with exprAllowed := true })
  else
    match s.context with
    | out :: rest =>
      let (out, rest) :=
        match out, rest with
        | .b_stat, c :: rest2 => if c.token = "function" then (c, rest2) else (out, rest)
        | _, _ => (out, rest)
      modifyP (fun s => { s with context := rest, exprAllowed := !out.isExpr })
    | [] => pure ()

/-- Modelled from the spec: `updateContext` of `{` — push `b_stat` or `b_expr`
per `braceIsBlock` (§4.2). -/
def updateCtx_braceL (prevType : TokType) : Eff Unit := do
  let b ← braceIsBlock prevType
  modifyP (fun s =>
    { s with context := (if b then Ctx.b_stat else Ctx.b_expr) :: s.context,
             exprAllowed := true })

/-- Modelled from the spec: `updateContext` of `${` — push `b_tmpl` (§4.2). -/
def updateCtx_dollarBraceL : Eff Unit :=
  modifyP (fun s => { s with context := Ctx.b_tmpl :: s.context, exprAllowed := true })

/-- Modelled from the spec: `updateContext` of `(` — push `p_stat` after
`if`/`for`/`with`/`while`, else `p_expr` (§4.2 "parentheses in statement vs.
expression position"). -/
def updateCtx_parenL (prevType : TokType) : Eff Unit := do
  let statementParens :=
    prevType = ._if || prevType = ._for || prevType = ._with || prevType = ._while
  modifyP (fun s =>
    { s with context := (if statementParens then Ctx.p_stat else Ctx.p_expr) :: s.context,
             exprAllowed := true })

/-- Modelled from the spec: `updateContext` of `++`/`--` — keep `exprAllowed`
unchanged. -/
def updateCtx_incDec : Eff Unit := pure ()

/-- Modelled from the spec: `updateContext` of the `function`/`class` keywords
— push `f_expr` in expression position, else `f_stat` (§4.2). -/
def updateCtx_function_class (prevType : TokType) : Eff Unit := do
  let s ← getP
  let cur := s.context.head?
  let pushExpr :=
    (tprops prevType).beforeExpr && prevType ≠ ._else &&
    !(prevType = .semi && cur ≠ some .p_stat) &&
    !(prevType = ._return && lineBreakTest (jslice s.input s.lastTokEnd s.start)) &&
    !((prevType = .colon || prevType = .braceL) && cur = some .b_stat)
  modifyP (fun s =>
    { s with context := (if pushExpr then Ctx.f_expr else Ctx.f_stat) :: s.context,
             exprAllowed := false })

/-- Modelled from the spec: `updateContext` of `` ` `` — push `q_tmpl` on
entry, pop it on the closing backtick (§4.2). -/
def updateCtx_backQuote : Eff Unit := do
  let s ← getP
  if s.context.head? = some .q_tmpl then
    modifyP (fun s => { s with context := s.context.tail, exprAllowed := false })
  else
    modifyP (fun s => { s with context := Ctx.q_tmpl :: s.context, exprAllowed := false })

/-- Modelled from the spec: `updateContext` of `*` — after the `function`
keyword, turn the function context into its generator variant (§4.2). -/
def updateCtx_star (prevType : TokType) : Eff Unit := do
  if prevType = ._function then
    modifyP (fun s =>
      { s with context :=
          match s.context with
          | .f_expr :: rest => Ctx.f_expr_gen :: rest
          | _ :: rest => Ctx.f_gen :: rest
          | [] => [] })
  modifyP (fun s => { s with exprAllowed := true })

/-- Modelled from the spec: `updateContext` of `name` — `exprAllowed` becomes
false except after contextual `of` (in non-expression position) or `yield`
inside a generator (the comment in `braceIsBlock` describes this rule). -/
def updateCtx_name (prevType : TokType) : Eff Unit := do
  let s ← getP
  let gen ← inGeneratorContext
  let allowed :=
    s.options.ecmaVersion ≥ 6 && prevType ≠ .dot &&
    ((s.value = .str (jstr "of") && !s.exprAllowed) ||
     (s.value = .str (jstr "yield") && gen))
  modifyP (fun s => { s with exprAllowed := allowed })

/-- The `updateContext` dispatcher of `scope.js`: keyword after `.` clears
`exprAllowed`; a token type's own update function runs if present; otherwise
`exprAllowed := type.beforeExpr`. -/
def updateContext (prevType : TokType) : Eff Unit := do
  let s ← getP
  let type := s.type
  if (tprops type).keyword.isSome && prevType = .dot then
    modifyP (fun s => { s with exprAllowed := false })
  else if hasUpdateContext type then
    match type with
    | .parenR | .braceR => updateCtx_parenR_braceR
    | .braceL => updateCtx_braceL prevType
    | .dollarBraceL => updateCtx_dollarBraceL
    | .parenL => updateCtx_parenL prevType
    | .incDec => updateCtx_incDec
    | ._function | ._class => updateCtx_function_class prevType
    | .backQuote => updateCtx_backQuote
    | .star => updateCtx_star prevType
    | .name => updateCtx_name prevType
    | _ => pure ()
  else
    modifyP (fun s => { s with exprAllowed := (tprops type).beforeExpr })

/-- The `finishToken` method of `scope.js`: set `end`, the token type and
value, and run `updateContext` with the previous type. -/
def finishToken (type : TokType) (val : JsVal := .undef) : Eff Unit := do
  modifyP (fun s => { s with endPos := s.pos })
  let s ← getP
  let prevType := s.type
  setP { s with type := type, value := val }
  updateContext prevType

end Acorn

namespace Acorn

/-- JavaScript `input.indexOf("*/", from)` specialized helper: index of the
first occurrence of `*/`. -/
def indexOfStarSlash : JStr → Nat → Option Nat
  | [], _ => none
  | [_], _ => none
  | 42 :: 47 :: _, i => some i
  | _ :: rest, i => indexOfStarSlash rest (i + 1)

/-- The `skipBlockComment` method (`onComment` and `locations` are off in the
modelled options, so their bookkeeping vanishes). -/
def skipBlockComment : Eff Unit := do
  modifyP (fun s => { s with pos := s.pos + 2 })
  let s ← getP
  match (indexOfStarSlash (s.input.drop s.pos) 0).map (· + s.pos) with
  | none => raise (s.pos - 2) (jstr "Unterminated comment")
  | some e => modifyP (fun s => { s with pos := e + 2 })

/-- Loop of `skipLineComment`: advance while the character at `pos` is not a
line terminator. -/
def skipLineCommentGo : Nat → Eff Unit
  | 0 => throwE .outOfFuel
  | fuel + 1 => do
    let s ← getP
    if s.pos < s.input.length then
      match charCodeAt s.input s.pos with
      | some ch =>
        if !isNewLineCode ch then do
          modifyP (fun s => { s with pos := s.pos + 1 })
          skipLineCommentGo fuel
        else pure ()
      | none => pure ()
    else pure ()

/-- The `skipLineComment` method. -/
def skipLineComment (startSkip : Nat) : Eff Unit := do
  modifyP (fun s => { s with pos := s.pos + startSkip })
  let s ← getP
  skipLineCommentGo (s.input.length + 2)

/-- Loop of `skipSpace`: consume whitespace and comments between tokens. -/
def skipSpaceGo : Nat → Eff Unit
  | 0 => throwE .outOfFuel
  | fuel + 1 => do
    let s ← getP
    if s.pos < s.input.length then
      match charCodeAt s.input s.pos with
      | none => pure ()
      | some ch =>
        if ch = 32 || ch = 160 then do
          modifyP (fun s => { s with pos := s.pos + 1 })
          skipSpaceGo fuel
        else if ch = 13 then do
          modifyP (fun s =>
            { s with pos := s.pos + (if charCodeAt s.input (s.pos + 1) = some 10 then 2 else 1) })
          skipSpaceGo fuel
        else if ch = 10 || ch = 8232 || ch = 8233 then do
          modifyP (fun s => { s with pos := s.pos + 1 })
          skipSpaceGo fuel
        else if ch = 47 then
          match charCodeAt s.input (s.pos + 1) with
          | some 42 => do skipBlockComment; skipSpaceGo fuel
          | some 47 => do skipLineComment 2; skipSpaceGo fuel
          | _ => pure ()
        else if (ch > 8 && ch < 14) || (ch ≥ 5760 && nonASCIIwhitespaceTest ch) then do
          modifyP (fun s => { s with pos := s.pos + 1 })
          skipSpaceGo fuel
        else pure ()
    else pure ()

/-- The `skipSpace` method. -/
def skipSpace : Eff Unit := do
  let s ← getP
  skipSpaceGo (s.input.length + 2)

end Acorn

namespace Acorn

/-- The character-code predicates of `regexp.js` (source lines around
107–175); the validator works with `-1` standing for end of input, hence
`Int`. `codePointToString` is the UTF-16 encoder. -/
def codePointToString (ch : Nat) : JStr :=
  if ch ≤ 0xFFFF then [ch]
  else [((ch - 0x10000) >>> 10) + 0xD800, ((ch - 0x10000) &&& 0x03FF) + 0xDC00]

/-- `isSyntaxCharacter` of `regexp.js`. -/
def isSyntaxCharacter (ch : Int) : Bool :=
  ch = 0x24 || (0x28 ≤ ch && ch ≤ 0x2B) || ch = 0x2E || ch = 0x3F ||
  (0x5B ≤ ch && ch ≤ 0x5E) || (0x7B ≤ ch && ch ≤ 0x7D)

/-- `isControlLetter` of `regexp.js`. -/
def isControlLetter (ch : Int) : Bool :=
  (0x41 ≤ ch && ch ≤ 0x5A) || (0x61 ≤ ch && ch ≤ 0x7A)

/-- `isDecimalDigit` of `regexp.js`. -/
def isDecimalDigit (ch : Int) : Bool := 0x30 ≤ ch && ch ≤ 0x39

/-- `isHexDigit` of `regexp.js`. -/
def isHexDigit (ch : Int) : Bool :=
  (0x30 ≤ ch && ch ≤ 0x39) || (0x41 ≤ ch && ch ≤ 0x46) || (0x61 ≤ ch && ch ≤ 0x66)

/-- `isOctalDigit` of `regexp.js`. -/
def isOctalDigit (ch : Int) : Bool := 0x30 ≤ ch && ch ≤ 0x37

/-- `isCharacterClassEscape` of `regexp.js` (`d D s S w W`). -/
def isCharacterClassEscape (ch : Int) : Bool :=
  ch = 0x64 || ch = 0x44 || ch = 0x73 || ch = 0x53 || ch = 0x77 || ch = 0x57

/-- `isRegExpIdentifierStart` of `regexp.js` restricted to its ASCII part
(the Unicode tables are opaque external collaborators, see
`isIdentifierStart`). -/
def isRegExpIdentifierStart (ch : Int) : Bool :=
  (0 ≤ ch && isIdentifierStart (some ch.toNat)) || ch = 0x24 || ch = 0x5F

/-- `isRegExpIdentifierPart` of `regexp.js` restricted to its ASCII part
(adds `$`, `_`, ZWNJ, ZWJ). -/
def isRegExpIdentifierPart (ch : Int) : Bool :=
  (0 ≤ ch && isIdentifierChar (some ch.toNat)) || ch = 0x24 || ch = 0x5F ||
  ch = 0x200C || ch = 0x200D

/-- The `at` method of `RegExpValidationState`: code point (combining a
surrogate pair when in Unicode mode) or `-1` past the end. -/
def rstAt (st : RState) (i : Nat) (forceU : Bool) : Int :=
  let s := st.source
  let l := s.length
  if i ≥ l then -1
  else
    match charCodeAt s i with
    | none => -1
    | some c =>
      if !(forceU || st.switchU) || c ≤ 0xD7FF || c ≥ 0xE000 || i + 1 ≥ l then (c : Int)
      else
        match charCodeAt s (i + 1) with
        | some next =>
          if 0xDC00 ≤ next && next ≤ 0xDFFF then ((c <<< 10) + next : Int) - 0x35FDC00
          else (c : Int)
        | none => (c : Int)

/-- The `nextIndex` method of `RegExpValidationState`. -/
def rstNextIndex (st : RState) (i : Nat) (forceU : Bool) : Nat :=
  let s := st.source
  let l := s.length
  if i ≥ l then l
  else
    match charCodeAt s i, charCodeAt s (i + 1) with
    | some c, some next =>
      if !(forceU || st.switchU) || c ≤ 0xD7FF || c ≥ 0xE000 || i + 1 ≥ l ||
          next < 0xDC00 || next > 0xDFFF then i + 1
      else i + 2
    | _, _ => i + 1

def getRS : Eff RState := fun s =>
  match s.regexpState with
  | some r => .ok r s
  | none => .err (.unsupported "regexpState is null") s

def modRS (f : RState → RState) : Eff Unit :=
  modifyP (fun s => { s with regexpState := s.regexpState.map f })

/-- The `current` method of `RegExpValidationState`. -/
def reg_current (forceU : Bool := false) : Eff Int := do
  let st ← getRS
  pure (rstAt st st.pos forceU)

/-- The `lookahead` method of `RegExpValidationState`. -/
def reg_lookahead (forceU : Bool := false) : Eff Int := do
  let st ← getRS
  pure (rstAt st (rstNextIndex st st.pos forceU) forceU)

/-- The `advance` method of `RegExpValidationState`. -/
def reg_advance (forceU : Bool := false) : Eff Unit := do
  modRS (fun st => { st with pos := rstNextIndex st st.pos forceU })

/-- The `eat` method of `RegExpValidationState`. -/
def reg_eat (ch : Int) (forceU : Bool := false) : Eff Bool := do
  let cur ← reg_current forceU
  if cur = ch then do
    reg_advance forceU
    pure true
  else pure false

/-- The `raise` method of `RegExpValidationState`: report through the
parser's `raiseRecoverable` at the literal's start offset. -/
def reg_raise {α : Type} (message : String) : Eff α := do
  let st ← getRS
  raiseRecoverable st.start
    (jstr "Invalid regular expression: /" ++ st.source ++ jstr "/: " ++ jstr message)

/-- The `reset` method of `RegExpValidationState`. -/
def reg_reset (start : Nat) (pattern flags : JStr) : Eff Unit := do
  let s ← getP
  let unicode := flags.contains 117
  modRS (fun st =>
    { st with start := start, source := pattern, flags := flags,
              switchU := unicode && s.options.ecmaVersion ≥ 6,
              switchN := unicode && s.options.ecmaVersion ≥ 9 })

end Acorn

namespace Acorn

/-- Knot for the mutually recursive part of the regexp validator: everything
recurses through `regexp_disjunction` (groups contain disjunctions). -/
structure VRec where
  disjunction : Eff Unit

/-- `regexp_eatDecimalDigits`: the while-loop is translated as a take-and-fold
over the decimal digits at the cursor (`current`/`advance` step one code unit
on ASCII digits). -/
def regexp_eatDecimalDigits : Eff Bool := do
  let st ← getRS
  let ds := (st.source.drop st.pos).takeWhile (fun c => 48 ≤ c && c ≤ 57)
  modRS (fun st =>
    { st with lastIntValue := ds.foldl (fun a c => 10 * a + ((c : Int) - 48)) 0,
              pos := st.pos + ds.length })
  pure (ds.length ≠ 0)

/-- `regexp_eatBracedQuantifier` (source lines 561–585). -/
def regexp_eatBracedQuantifier (noError : Bool) : Eff Bool := do
  let st ← getRS
  let start := st.pos
  let brace ← reg_eat 0x7b
  if brace then do
    let d1 ← regexp_eatDecimalDigits
    let closed ← (do
      if d1 then do
        let stMin ← getRS
        let min := stMin.lastIntValue
        let comma ← reg_eat 0x2c
        let d2 ← if comma then regexp_eatDecimalDigits else pure false
        let max ← (do
          if d2 then do
            let stMax ← getRS
            pure stMax.lastIntValue
          else pure (-1 : Int))
        let rb ← reg_eat 0x7d
        if rb then do
          if max ≠ -1 && max < min && !noError then
            (reg_raise "numbers out of order in \x7b\x7d quantifier" : Eff Unit)
          else pure ()
          pure true
        else pure false
      else pure false)
    if closed then pure true
    else do
      let st2 ← getRS
      if st2.switchU && !noError then
        (reg_raise "Incomplete quantifier" : Eff Unit)
      else pure ()
      modRS (fun st => { st with pos := start })
      pure false
  else pure false

/-- `regexp_eatQuantifierPrefix`. -/
def regexp_eatQuantifierPrefix (noError : Bool) : Eff Bool := do
  if ← reg_eat 0x2a then pure true
  else if ← reg_eat 0x2b then pure true
  else if ← reg_eat 0x3f then pure true
  else regexp_eatBracedQuantifier noError

/-- `regexp_eatQuantifier`. -/
def regexp_eatQuantifier (noError : Bool := false) : Eff Bool := do
  if ← regexp_eatQuantifierPrefix noError then do
    let _ ← reg_eat 0x3f
    pure true
  else pure false

/-- `regexp_eatInvalidBracedQuantifier`. -/
def regexp_eatInvalidBracedQuantifier : Eff Bool := do
  if ← regexp_eatBracedQuantifier true then
    (reg_raise "Nothing to repeat" : Eff Unit)
  else pure ()
  pure false

/-- `regexp_eatSyntaxCharacter`. -/
def regexp_eatSyntaxCharacter : Eff Bool := do
  let ch ← reg_current
  if isSyntaxCharacter ch then do
    modRS (fun st => { st with lastIntValue := ch })
    reg_advance
    pure true
  else pure false

/-- Loop of `regexp_eatPatternCharacters`: advance while the current code
point exists and is not a syntax character. -/
def regexp_eatPatternCharactersGo : Nat → Eff Unit
  | 0 => throwE .outOfFuel
  | fuel + 1 => do
    let ch ← reg_current
    if ch ≠ -1 && !isSyntaxCharacter ch then do
      reg_advance
      regexp_eatPatternCharactersGo fuel
    else pure ()

/-- `regexp_eatPatternCharacters`. -/
def regexp_eatPatternCharacters : Eff Bool := do
  let st ← getRS
  let start := st.pos
  regexp_eatPatternCharactersGo (st.source.length + 2)
  let st2 ← getRS
  pure (st2.pos ≠ start)

/-- `regexp_eatExtendedPatternCharacter`. -/
def regexp_eatExtendedPatternCharacter : Eff Bool := do
  let ch ← reg_current
  if ch ≠ -1 && ch ≠ 0x24 && !(0x28 ≤ ch && ch ≤ 0x2b) && ch ≠ 0x2e &&
      ch ≠ 0x3f && ch ≠ 0x5b && ch ≠ 0x5e && ch ≠ 0x7c then do
    reg_advance
    pure true
  else pure false

/-- Boundary of the embedded slice: `regexp_eatAtomEscape` (the `\`-escape
subsystem).  It is reached only after a `\` has been consumed. -/
def regexp_eatAtomEscape : Eff Bool :=
  unsupported "regexp_eatAtomEscape"

/-- `regexp_eatReverseSolidusAtomEscape`. -/
def regexp_eatReverseSolidusAtomEscape : Eff Bool := do
  let st ← getRS
  let start := st.pos
  if ← reg_eat 0x5c then do
    if ← regexp_eatAtomEscape then pure true
    else do
      modRS (fun st => { st with pos := start })
      pure false
  else pure false

/-- Boundary of the embedded slice: `regexp_eatClassEscape` (escapes inside a
character class).  It is reached only after a `\` has been consumed. -/
def regexp_eatClassEscape : Eff Bool :=
  unsupported "regexp_eatClassEscape"

/-- `regexp_eatClassAtom`. -/
def regexp_eatClassAtom : Eff Bool := do
  let st ← getRS
  let start := st.pos
  if ← reg_eat 0x5c then do
    if ← regexp_eatClassEscape then pure true
    else do
      let st2 ← getRS
      if st2.switchU then do
        let ch ← reg_current
        if ch = 0x63 || isOctalDigit ch then
          (reg_raise "Invalid class escape" : Eff Unit)
        else pure ()
        (reg_raise "Invalid escape" : Eff Unit)
      else pure ()
      modRS (fun st => { st with pos := start })
      classAtomTail
  else classAtomTail
where
  classAtomTail : Eff Bool := do
    let ch ← reg_current
    if ch ≠ 0x5d then do
      modRS (fun st => { st with lastIntValue := ch })
      reg_advance
      pure true
    else pure false

/-- Loop of `regexp_classRanges` (source lines 1123–1136). -/
def regexp_classRangesGo : Nat → Eff Unit
  | 0 => throwE .outOfFuel
  | fuel + 1 => do
    if ← regexp_eatClassAtom then do
      let stL ← getRS
      let left := stL.lastIntValue
      let dash ← reg_eat 0x2d
      let atom2 ← if dash then regexp_eatClassAtom else pure false
      if atom2 then do
        let stR ← getRS
        let right := stR.lastIntValue
        if stR.switchU && (left = -1 || right = -1) then
          (reg_raise "Invalid character class" : Eff Unit)
        else pure ()
        if left ≠ -1 && right ≠ -1 && left > right then
          (reg_raise "Range out of order in character class" : Eff Unit)
        else pure ()
      else pure ()
      regexp_classRangesGo fuel
    else pure ()

/-- `regexp_classRanges`. -/
def regexp_classRanges : Eff Unit := do
  let st ← getRS
  regexp_classRangesGo (st.source.length + 2)

/-- `regexp_eatCharacterClass`. -/
def regexp_eatCharacterClass : Eff Bool := do
  if ← reg_eat 0x5b then do
    let _ ← reg_eat 0x5e
    regexp_classRanges
    if ← reg_eat 0x5d then pure true
    else do
      (reg_raise "Unterminated character class" : Eff Unit)
      pure false
  else pure false

/-- Boundary of the embedded slice: `regexp_eatRegExpUnicodeEscapeSequence`.
It is reached only after a `\` has been consumed inside a group name. -/
def regexp_eatRegExpUnicodeEscapeSequence (_forceU : Bool) : Eff Bool :=
  unsupported "regexp_eatRegExpUnicodeEscapeSequence"

/-- `regexp_eatRegExpIdentifierStart`. -/
def regexp_eatRegExpIdentifierStart : Eff Bool := do
  let st ← getRS
  let start := st.pos
  let s ← getP
  let forceU := s.options.ecmaVersion ≥ 11
  let ch0 ← reg_current forceU
  reg_advance forceU
  let ch ← (do
    if ch0 = 0x5c then do
      if ← regexp_eatRegExpUnicodeEscapeSequence forceU then do
        let st2 ← getRS
        pure st2.lastIntValue
      else pure ch0
    else pure ch0)
  if isRegExpIdentifierStart ch then do
    modRS (fun st => { st with lastIntValue := ch })
    pure true
  else do
    modRS (fun st => { st with pos := start })
    pure false

/-- `regexp_eatRegExpIdentifierPart`. -/
def regexp_eatRegExpIdentifierPart : Eff Bool := do
  let st ← getRS
  let start := st.pos
  let s ← getP
  let forceU := s.options.ecmaVersion ≥ 11
  let ch0 ← reg_current forceU
  reg_advance forceU
  let ch ← (do
    if ch0 = 0x5c then do
      if ← regexp_eatRegExpUnicodeEscapeSequence forceU then do
        let st2 ← getRS
        pure st2.lastIntValue
      else pure ch0
    else pure ch0)
  if isRegExpIdentifierPart ch then do
    modRS (fun st => { st with lastIntValue := ch })
    pure true
  else do
    modRS (fun st => { st with pos := start })
    pure false

/-- Loop of `regexp_eatRegExpIdentifierName`. -/
def regexp_eatRegExpIdentifierNameGo : Nat → Eff Unit
  | 0 => throwE .outOfFuel
  | fuel + 1 => do
    if ← regexp_eatRegExpIdentifierPart then do
      modRS (fun st =>
        { st with lastStringValue :=
            st.lastStringValue ++ codePointToString st.lastIntValue.toNat })
      regexp_eatRegExpIdentifierNameGo fuel
    else pure ()

/-- `regexp_eatRegExpIdentifierName`. -/
def regexp_eatRegExpIdentifierName : Eff Bool := do
  modRS (fun st => { st with lastStringValue := [] })
  if ← regexp_eatRegExpIdentifierStart then do
    modRS (fun st =>
      { st with lastStringValue :=
          st.lastStringValue ++ codePointToString st.lastIntValue.toNat })
    let st ← getRS
    regexp_eatRegExpIdentifierNameGo (st.source.length + 2)
    pure true
  else pure false

/-- `regexp_eatGroupName`. -/
def regexp_eatGroupName : Eff Bool := do
  modRS (fun st => { st with lastStringValue := [] })
  if ← reg_eat 0x3c then do
    let n ← regexp_eatRegExpIdentifierName
    let gt ← if n then reg_eat 0x3e else pure false
    if n && gt then pure true
    else (reg_raise "Invalid capture group name" : Eff Bool)
  else pure false

/-- `regexp_groupSpecifier`. -/
def regexp_groupSpecifier : Eff Unit := do
  if ← reg_eat 0x3f then do
    if ← regexp_eatGroupName then do
      let st ← getRS
      if st.groupNames.contains st.lastStringValue then
        (reg_raise "Duplicate capture group name" : Eff Unit)
      else pure ()
      modRS (fun st => { st with groupNames := st.groupNames ++ [st.lastStringValue] })
    else (reg_raise "Invalid group" : Eff Unit)
  else pure ()

/-- `regexp_eatUncapturingGroup`. -/
def regexp_eatUncapturingGroup (v : VRec) : Eff Bool := do
  let st ← getRS
  let start := st.pos
  if ← reg_eat 0x28 then do
    let q ← reg_eat 0x3f
    let c ← if q then reg_eat 0x3a else pure false
    if q && c then do
      v.disjunction
      if ← reg_eat 0x29 then pure true
      else (reg_raise "Unterminated group" : Eff Bool)
    else do
      modRS (fun st => { st with pos := start })
      pure false
  else pure false

/-- `regexp_eatCapturingGroup`. -/
def regexp_eatCapturingGroup (v : VRec) : Eff Bool := do
  if ← reg_eat 0x28 then do
    let s ← getP
    if s.options.ecmaVersion ≥ 9 then regexp_groupSpecifier
    else do
      let ch ← reg_current
      if ch = 0x3f then (reg_raise "Invalid group" : Eff Unit)
      else pure ()
    v.disjunction
    if ← reg_eat 0x29 then do
      modRS (fun st => { st with numCapturingParens := st.numCapturingParens + 1 })
      pure true
    else (reg_raise "Unterminated group" : Eff Bool)
  else pure false

/-- `regexp_eatAssertion` (source lines 506–541). -/
def regexp_eatAssertion (v : VRec) : Eff Bool := do
  let st ← getRS
  let start := st.pos
  modRS (fun st => { st with lastAssertionIsQuantifiable := false })
  if ← reg_eat 0x5e then pure true
  else if ← reg_eat 0x24 then pure true
  else do
    let bs ← reg_eat 0x5c
    let wordB ← (do
      if bs then do
        if ← reg_eat 0x42 then pure true
        else if ← reg_eat 0x62 then pure true
        else do
          modRS (fun st => { st with pos := start })
          pure false
      else pure false)
    if wordB then pure true
    else do
      let p ← reg_eat 0x28
      let q ← if p then reg_eat 0x3f else pure false
      if p && q then do
        let s ← getP
        let lookbehind ← if s.options.ecmaVersion ≥ 9 then reg_eat 0x3c else pure false
        let eqS ← reg_eat 0x3d
        let bang ← if eqS then pure false else reg_eat 0x21
        if eqS || bang then do
          v.disjunction
          if ← reg_eat 0x29 then pure ()
          else (reg_raise "Unterminated group" : Eff Unit)
          modRS (fun st => { st with lastAssertionIsQuantifiable := !lookbehind })
          pure true
        else do
          modRS (fun st => { st with pos := start })
          pure false
      else do
        modRS (fun st => { st with pos := start })
        pure false

/-- `regexp_eatAtom`. -/
def regexp_eatAtom (v : VRec) : Eff Bool := do
  if ← regexp_eatPatternCharacters then pure true
  else if ← reg_eat 0x2e then pure true
  else if ← regexp_eatReverseSolidusAtomEscape then pure true
  else if ← regexp_eatCharacterClass then pure true
  else if ← regexp_eatUncapturingGroup v then pure true
  else regexp_eatCapturingGroup v

/-- `regexp_eatExtendedAtom`. -/
def regexp_eatExtendedAtom (v : VRec) : Eff Bool := do
  if ← reg_eat 0x2e then pure true
  else if ← regexp_eatReverseSolidusAtomEscape then pure true
  else if ← regexp_eatCharacterClass then pure true
  else if ← regexp_eatUncapturingGroup v then pure true
  else if ← regexp_eatCapturingGroup v then pure true
  else if ← regexp_eatInvalidBracedQuantifier then pure true
  else regexp_eatExtendedPatternCharacter

/-- `regexp_eatTerm` (source lines 476–503). -/
def regexp_eatTerm (v : VRec) : Eff Bool := do
  if ← regexp_eatAssertion v then do
    let st ← getRS
    if st.lastAssertionIsQuantifiable then do
      if ← regexp_eatQuantifier then do
        let st2 ← getRS
        if st2.switchU then (reg_raise "Invalid quantifier" : Eff Unit)
        else pure ()
      else pure ()
    else pure ()
    pure true
  else do
    let st ← getRS
    let atom ← if st.switchU then regexp_eatAtom v else regexp_eatExtendedAtom v
    if atom then do
      let _ ← regexp_eatQuantifier
      pure true
    else pure false

/-- Loop of `regexp_alternative`: `while (pos < source.length && eatTerm)`. -/
def regexp_alternativeGo (v : VRec) : Nat → Eff Unit
  | 0 => throwE .outOfFuel
  | fuel + 1 => do
    let st ← getRS
    if st.pos < st.source.length then do
      if ← regexp_eatTerm v then regexp_alternativeGo v fuel
      else pure ()
    else pure ()

/-- `regexp_alternative`. -/
def regexp_alternative (v : VRec) : Eff Unit := do
  let st ← getRS
  regexp_alternativeGo v (st.source.length + 2)

/-- Loop of `regexp_disjunction`: `while (eat(0x7c)) alternative`. -/
def regexp_disjunctionGo (v : VRec) : Nat → Eff Unit
  | 0 => throwE .outOfFuel
  | fuel + 1 => do
    if ← reg_eat 0x7c then do
      regexp_alternative v
      regexp_disjunctionGo v fuel
    else pure ()

/-- `regexp_disjunction` (source lines 455–468), defined against the knot
one level down. -/
def regexp_disjunctionF (v : VRec) : Eff Unit := do
  regexp_alternative v
  let st ← getRS
  regexp_disjunctionGo v (st.source.length + 2)
  if ← regexp_eatQuantifier true then
    (reg_raise "Nothing to repeat" : Eff Unit)
  else pure ()
  if ← reg_eat 0x7b then
    (reg_raise "Lone quantifier brackets" : Eff Unit)
  else pure ()

/-- The fueled validator knot. -/
def vrecAt : Nat → VRec
  | 0 => ⟨throwE .outOfFuel⟩
  | n + 1 => ⟨regexp_disjunctionF (vrecAt n)⟩

/-- `regexp_disjunction` with fuel proportional to the pattern length (each
knot level consumes at least one `(` of the source). -/
def regexp_disjunction : Eff Unit := do
  let st ← getRS
  (vrecAt (st.source.length + 2)).disjunction

/-- `regexp_pattern` (source lines 423–452). -/
def regexp_pattern : Eff Unit := do
  modRS (fun st =>
    { st with pos := 0, lastIntValue := 0, lastStringValue := [],
              lastAssertionIsQuantifiable := false, numCapturingParens := 0,
              maxBackReference := 0, groupNames := [], backReferenceNames := [] })
  regexp_disjunction
  let st ← getRS
  if st.pos ≠ st.source.length then do
    if ← reg_eat 0x29 then (reg_raise "Unmatched ')'" : Eff Unit)
    else pure ()
    let rb ← reg_eat 0x5d
    let rc ← if rb then pure true else reg_eat 0x7d
    if rc then (reg_raise "Lone quantifier brackets" : Eff Unit)
    else pure ()
  else pure ()
  let st2 ← getRS
  if st2.maxBackReference > st2.numCapturingParens then
    (reg_raise "Invalid escape" : Eff Unit)
  else pure ()
  checkBackRefNames st2.backReferenceNames st2.groupNames
where
  checkBackRefNames : List JStr → List JStr → Eff Unit
    | [], _ => pure ()
    | n :: rest, groups => do
      if !groups.contains n then
        (reg_raise "Invalid named capture referenced" : Eff Unit)
      else pure ()
      checkBackRefNames rest groups

/-- `validateRegExpFlags` loop (source lines 383–396). -/
def validateRegExpFlagsGo : List Nat → Nat → JStr → JStr → Nat → Eff Unit
  | [], _, _, _, _ => pure ()
  | flag :: rest, i, flags, validFlags, st => do
    if (jindexOfFrom validFlags flag 0).isNone then
      (raise st (jstr "Invalid regular expression flag") : Eff Unit)
    else pure ()
    if (jindexOfFrom flags flag (i + 1)).isSome then
      (raise st (jstr "Duplicate regular expression flag") : Eff Unit)
    else pure ()
    validateRegExpFlagsGo rest (i + 1) flags validFlags st

/-- `validateRegExpFlags`. -/
def validateRegExpFlags : Eff Unit := do
  let st ← getRS
  validateRegExpFlagsGo st.flags 0 st.flags st.validFlags st.start

/-- `validateRegExpPattern` (source lines 404–420): parse, and reparse with
`+N` when a group name was seen without the `n` switch. -/
def validateRegExpPattern : Eff Unit := do
  regexp_pattern
  let st ← getRS
  let s ← getP
  if !st.switchN && s.options.ecmaVersion ≥ 9 && st.groupNames.length > 0 then do
    modRS (fun st => { st with switchN := true })
    regexp_pattern
  else pure ()

end Acorn

namespace Acorn

/-- Loop of `readInt` (source lines 3315–3373); carries `i`, `total` and
`lastCode`, returning the pair `(total, lastCode)` at loop exit. -/
def readIntGo (radix : Nat) (e : Option Nat) (allowSep isLegacyOctal : Bool) :
    Nat → Nat → Nat → Nat → Eff (Nat × Nat)
  | 0, _, _, _ => throwE .outOfFuel
  | fuel + 1, i, total, lastCode => do
    if e.all (fun ev => i < ev) then do
      let s ← getP
      let code := charCodeAt s.input s.pos
      if allowSep && code = some 95 then do
        if isLegacyOctal then
          (raiseRecoverable s.pos
            (jstr "Numeric separator is not allowed in legacy octal numeric literals") : Eff Unit)
        else pure ()
        if lastCode = 95 then
          (raiseRecoverable s.pos
            (jstr "Numeric separator must be exactly one underscore") : Eff Unit)
        else pure ()
        if i = 0 then
          (raiseRecoverable s.pos
            (jstr "Numeric separator is not allowed at the first of digits") : Eff Unit)
        else pure ()
        modifyP (fun s => { s with pos := s.pos + 1 })
        readIntGo radix e allowSep isLegacyOctal fuel (i + 1) total 95
      else do
        let val : Option Nat :=
          match code with
          | some c =>
            if c ≥ 97 then some (c - 97 + 10)
            else if c ≥ 65 then some (c - 65 + 10)
            else if 48 ≤ c && c ≤ 57 then some (c - 48)
            else none
          | none => none
        match val with
        | none => pure (total, lastCode)
        | some v =>
          if v ≥ radix then pure (total, lastCode)
          else do
            modifyP (fun s => { s with pos := s.pos + 1 })
            readIntGo radix e allowSep isLegacyOctal fuel (i + 1)
              (total * radix + v) (code.getD 0)
    else pure (total, lastCode)

/-- The `readInt` method; `none` models the `null` return. -/
def readInt (radix : Nat) (len : Option Nat := none)
    (maybeLegacyOctal : Bool := false) : Eff (Option Nat) := do
  let s ← getP
  let allowSep := s.options.ecmaVersion ≥ 12 && len.isNone
  let isLegacyOctal := maybeLegacyOctal && charCodeAt s.input s.pos = some 48
  let start := s.pos
  let r ← readIntGo radix len allowSep isLegacyOctal (s.input.length + 2) 0 0 0
  let s2 ← getP
  if allowSep && r.2 = 95 then
    (raiseRecoverable (s2.pos - 1)
      (jstr "Numeric separator is not allowed at the last of digits") : Eff Unit)
  else pure ()
  if s2.pos = start || (len.isSome && s2.pos - start ≠ len.getD 0) then pure none
  else pure (some r.1)

/-- `stringToNumber` of `tokenize.js`, modelled exactly on the literal shapes
the claims touch: plain decimal integers, and legacy octal (`parseInt(str, 8)`
over all-octal digits, which `readNumber` guarantees).  Other shapes
(fractions, exponents, separators) yield `none` and stop at an explicit
`unsupported` boundary in `readNumber`. -/
def stringToNumberM (str : JStr) (isLegacyOctal : Bool) : Option Nat :=
  if isLegacyOctal then
    if str ≠ [] && str.all (fun c => 48 ≤ c && c ≤ 55) then
      some (str.foldl (fun a c => 8 * a + (c - 48)) 0)
    else none
  else
    if str ≠ [] && str.all (fun c => 48 ≤ c && c ≤ 57) then
      some (str.foldl (fun a c => 10 * a + (c - 48)) 0)
    else none

/-- The `readRadixNumber` method (the BigInt suffix is outside the slice). -/
def readRadixNumber (radix : Nat) : Eff Unit := do
  let s ← getP
  let _start := s.pos
  modifyP (fun s => { s with pos := s.pos + 2 })
  let val ← readInt radix
  let s2 ← getP
  match val with
  | none => raise (s2.start + 2) (jstr ("Expected number in radix " ++ toString radix))
  | some val => do
    let s3 ← getP
    if s3.options.ecmaVersion ≥ 11 && charCodeAt s3.input s3.pos = some 110 then
      unsupported "BigInt literal"
    else do
      let full ← fullCharCodeAtPos
      if isIdentifierStart full then
        raise s3.pos (jstr "Identifier directly after number")
      else finishToken .num (.num val)

/-- The `readNumber` method (source lines 3394–3431); the final value is
produced by `stringToNumberM`. -/
def readNumber (startsWithDot : Bool) : Eff Unit := do
  let s ← getP
  let start := s.pos
  if !startsWithDot then do
    let r ← readInt 10 none true
    if r = none then (raise start (jstr "Invalid number") : Eff Unit) else pure ()
  else pure ()
  let s2 ← getP
  let octal := s2.pos - start ≥ 2 && charCodeAt s2.input start = some 48
  if octal && s2.strict then (raise start (jstr "Invalid number") : Eff Unit) else pure ()
  let next := charCodeAt s2.input s2.pos
  if !octal && !startsWithDot && s2.options.ecmaVersion ≥ 11 && next = some 110 then
    unsupported "BigInt literal"
  else do
    let octal := if octal && (jslice s2.input start s2.pos).any (fun c => c = 56 || c = 57)
      then false else octal
    if next = some 46 && !octal then do
      modifyP (fun s => { s with pos := s.pos + 1 })
      let _ ← readInt 10
      pure ()
    else pure ()
    let s3 ← getP
    let next := charCodeAt s3.input s3.pos
    if (next = some 69 || next = some 101) && !octal then do
      modifyP (fun s => { s with pos := s.pos + 1 })
      let s4 ← getP
      let next2 := charCodeAt s4.input s4.pos
      if next2 = some 43 || next2 = some 45 then
        modifyP (fun s => { s with pos := s.pos + 1 })
      else pure ()
      let r ← readInt 10
      if r = none then (raise start (jstr "Invalid number") : Eff Unit) else pure ()
    else pure ()
    let full ← fullCharCodeAtPos
    if isIdentifierStart full then do
      let s5 ← getP
      raise s5.pos (jstr "Identifier directly after number")
    else do
      let s5 ← getP
      match stringToNumberM (jslice s5.input start s5.pos) octal with
      | some v => finishToken .num (.num v)
      | none => unsupported "numeric literal value outside the integer slice"

/-- Loop of `readWord1`: identifier-continue characters advance the cursor;
a `\` escape is outside the slice (`containsEsc` inputs). -/
def readWord1Go : Nat → Eff Unit
  | 0 => throwE .outOfFuel
  | fuel + 1 => do
    let s ← getP
    if s.pos < s.input.length then do
      let ch ← fullCharCodeAtPos
      if isIdentifierChar ch then do
        modifyP (fun s =>
          { s with pos := s.pos + (if ch.getD 0 ≤ 0xffff then 1 else 2) })
        readWord1Go fuel
      else if ch = some 92 then
        unsupported "identifier escape sequence"
      else pure ()
    else pure ()

/-- The `readWord1` method restricted to escape-free identifiers (escapes are
an explicit slice boundary); the word is the consumed slice. -/
def readWord1 : Eff JStr := do
  modifyP (fun s => { s with containsEsc := false })
  let s ← getP
  let chunkStart := s.pos
  readWord1Go (s.input.length + 2)
  let s2 ← getP
  pure (jslice s2.input chunkStart s2.pos)

/-- The `readWord` method: a word matching the keyword set becomes its keyword
token (the parser's `keywords` set is the `ecmaVersion ≥ 6` list). -/
def readWord : Eff Unit := do
  let word ← readWord1
  let type := if wordsTest keywordList word then (keywordTypes word).getD .name else .name
  finishToken type (.str word)

/-- Loop of `readRegexp`: find the terminating `/` honouring character
classes and escapes; on exit the cursor rests on the `/`. -/
def readRegexpGo (start : Nat) : Nat → Bool → Bool → Eff Unit
  | 0, _, _ => throwE .outOfFuel
  | fuel + 1, escaped, inClass => do
    let s ← getP
    if s.pos ≥ s.input.length then
      raise start (jstr "Unterminated regular expression")
    else do
      match charCodeAt s.input s.pos with
      | none => raise start (jstr "Unterminated regular expression")
      | some ch => do
        if isNewLineCode ch then
          raise start (jstr "Unterminated regular expression")
        else if !escaped then
          if ch = 91 then do
            modifyP (fun s => { s with pos := s.pos + 1 })
            readRegexpGo start fuel false true
          else if ch = 93 && inClass then do
            modifyP (fun s => { s with pos := s.pos + 1 })
            readRegexpGo start fuel false false
          else if ch = 47 && !inClass then pure ()
          else do
            modifyP (fun s => { s with pos := s.pos + 1 })
            readRegexpGo start fuel (ch = 92) inClass
        else do
          modifyP (fun s => { s with pos := s.pos + 1 })
          readRegexpGo start fuel false inClass

/-- The `readRegexp` method (source lines 3268–3309).  The host
`new RegExp(pattern, flags)` is modelled as always compiling. -/
def readRegexp : Eff Unit := do
  let s ← getP
  let start := s.pos
  readRegexpGo start (s.input.length + 2) false false
  let s2 ← getP
  let pattern := jslice s2.input start s2.pos
  modifyP (fun s => { s with pos := s.pos + 1 })
  let s3 ← getP
  let flagsStart := s3.pos
  let flags ← readWord1
  let s4 ← getP
  if s4.containsEsc then (unexpectedAt (some flagsStart) : Eff Unit) else pure ()
  -- `this.regexpState || (this.regexpState = new RegExpValidationState(this))`
  let s5 ← getP
  if s5.regexpState.isNone then do
    let fresh : RState :=
      { validFlags := jstr ("gim" ++
          (if s5.options.ecmaVersion ≥ 6 then "uy" else "") ++
          (if s5.options.ecmaVersion ≥ 9 then "s" else "")) }
    setP { s5 with regexpState := some fresh }
  else pure ()
  reg_reset start pattern flags
  validateRegExpFlags
  validateRegExpPattern
  let value := JsVal.regexObj pattern flags
  finishToken .regexp (.regexRecord pattern flags value)

/-- The `finishOp` method. -/
def finishOp (type : TokType) (size : Nat) : Eff Unit := do
  let s ← getP
  let str := jslice s.input s.pos (s.pos + size)
  modifyP (fun s => { s with pos := s.pos + size })
  finishToken type (.str str)

end Acorn

namespace Acorn

/-- Knot for the tokenizer recursion: the HTML-comment paths of
`readToken_plus_min` and `readToken_lt_gt` restart `nextToken`. -/
structure TRec where
  nextToken : Eff Unit

/-- The `readToken_dot` method. -/
def readToken_dot : Eff Unit := do
  let s ← getP
  let next := charCodeAt s.input (s.pos + 1)
  match next with
  | some n =>
    if 48 ≤ n && n ≤ 57 then readNumber true
    else do
      let next2 := charCodeAt s.input (s.pos + 2)
      if s.options.ecmaVersion ≥ 6 && n = 46 && next2 = some 46 then do
        modifyP (fun s => { s with pos := s.pos + 3 })
        finishToken .ellipsis
      else do
        modifyP (fun s => { s with pos := s.pos + 1 })
        finishToken .dot
  | none => do
    modifyP (fun s => { s with pos := s.pos + 1 })
    finishToken .dot

/-- The `readToken_slash` method (source lines 3018–3027). -/
def readToken_slash : Eff Unit := do
  let s ← getP
  let next := charCodeAt s.input (s.pos + 1)
  if s.exprAllowed then do
    modifyP (fun s => { s with pos := s.pos + 1 })
    readRegexp
  else if next = some 61 then finishOp .assign 2
  else finishOp .slash 1

/-- The `readToken_mult_modulo_exp` method. -/
def readToken_mult_modulo_exp (code : Nat) : Eff Unit := do
  let s ← getP
  let next := charCodeAt s.input (s.pos + 1)
  let size := 1
  let tokentype := if code = 42 then TokType.star else TokType.modulo
  if s.options.ecmaVersion ≥ 7 && code = 42 && next = some 42 then do
    let next2 := charCodeAt s.input (s.pos + 2)
    if next2 = some 61 then finishOp .assign 3
    else finishOp .starstar 2
  else
    if next = some 61 then finishOp .assign (size + 1)
    else finishOp tokentype size

/-- The `readToken_pipe_amp` method. -/
def readToken_pipe_amp (code : Nat) : Eff Unit := do
  let s ← getP
  let next := charCodeAt s.input (s.pos + 1)
  if next = some code then do
    if s.options.ecmaVersion ≥ 12 then do
      let next2 := charCodeAt s.input (s.pos + 2)
      if next2 = some 61 then finishOp .assign 3
      else finishOp (if code = 124 then .logicalOR else .logicalAND) 2
    else finishOp (if code = 124 then .logicalOR else .logicalAND) 2
  else if next = some 61 then finishOp .assign 2
  else finishOp (if code = 124 then .bitwiseOR else .bitwiseAND) 1

/-- The `readToken_caret` method. -/
def readToken_caret : Eff Unit := do
  let s ← getP
  let next := charCodeAt s.input (s.pos + 1)
  if next = some 61 then finishOp .assign 2
  else finishOp .bitwiseXOR 1

/-- The `readToken_plus_min` method; the `-->` line-comment path restarts the
tokenizer through the knot. -/
def readToken_plus_min (t : TRec) (code : Nat) : Eff Unit := do
  let s ← getP
  let next := charCodeAt s.input (s.pos + 1)
  if next = some code then do
    if next = some 45 && !s.inModule && charCodeAt s.input (s.pos + 2) = some 62 &&
        (s.lastTokEnd = 0 || lineBreakTest (jslice s.input s.lastTokEnd s.pos)) then do
      skipLineComment 3
      skipSpace
      t.nextToken
    else finishOp .incDec 2
  else if next = some 61 then finishOp .assign 2
  else finishOp .plusMin 1

/-- The `readToken_lt_gt` method; the `<!--` line-comment path restarts the
tokenizer through the knot. -/
def readToken_lt_gt (t : TRec) (code : Nat) : Eff Unit := do
  let s ← getP
  let next := charCodeAt s.input (s.pos + 1)
  if next = some code then do
    let size := if code = 62 && charCodeAt s.input (s.pos + 2) = some 62 then 3 else 2
    if charCodeAt s.input (s.pos + size) = some 61 then finishOp .assign (size + 1)
    else finishOp .bitShift size
  else if next = some 33 && code = 60 && !s.inModule &&
      charCodeAt s.input (s.pos + 2) = some 45 &&
      charCodeAt s.input (s.pos + 3) = some 45 then do
    skipLineComment 4
    skipSpace
    t.nextToken
  else
    let size := if next = some 61 then 2 else 1
    finishOp .relational size

/-- The `readToken_eq_excl` method. -/
def readToken_eq_excl (code : Nat) : Eff Unit := do
  let s ← getP
  let next := charCodeAt s.input (s.pos + 1)
  if next = some 61 then
    finishOp .equality (if charCodeAt s.input (s.pos + 2) = some 61 then 3 else 2)
  else if code = 61 && next = some 62 && s.options.ecmaVersion ≥ 6 then do
    modifyP (fun s => { s with pos := s.pos + 2 })
    finishToken .arrow
  else finishOp (if code = 61 then .eq else .prefixOp) 1

/-- The `readToken_question` method. -/
def readToken_question : Eff Unit := do
  let s ← getP
  let ecmaVersion := s.options.ecmaVersion
  if ecmaVersion ≥ 11 then do
    let next := charCodeAt s.input (s.pos + 1)
    if next = some 46 then do
      let next2 := charCodeAt s.input (s.pos + 2)
      let isDigit := match next2 with
        | some n2 => 48 ≤ n2 && n2 ≤ 57
        | none => false
      -- `next2 < 48 || next2 > 57` is false on NaN
      if next2.isSome && !isDigit then finishOp .questionDot 2
      else questionTail next
    else questionTail next
  else finishOp .question 1
where
  questionTail (next : Option Nat) : Eff Unit := do
    let s ← getP
    if next = some 63 then do
      if s.options.ecmaVersion ≥ 12 then do
        let next2 := charCodeAt s.input (s.pos + 2)
        if next2 = some 61 then finishOp .assign 3
        else finishOp .coalesce 2
      else finishOp .coalesce 2
    else finishOp .question 1

/-- The `getTokenFromCode` dispatch (source lines 3151–3260).  String
literals are outside the embedded slice (explicit boundary). -/
def getTokenFromCode (t : TRec) (code : Nat) : Eff Unit := do
  let s ← getP
  if code = 46 then readToken_dot
  else if code = 40 then do
    modifyP (fun s => { s with pos := s.pos + 1 }); finishToken .parenL
  else if code = 41 then do
    modifyP (fun s => { s with pos := s.pos + 1 }); finishToken .parenR
  else if code = 59 then do
    modifyP (fun s => { s with pos := s.pos + 1 }); finishToken .semi
  else if code = 44 then do
    modifyP (fun s => { s with pos := s.pos + 1 }); finishToken .comma
  else if code = 91 then do
    modifyP (fun s => { s with pos := s.pos + 1 }); finishToken .bracketL
  else if code = 93 then do
    modifyP (fun s => { s with pos := s.pos + 1 }); finishToken .bracketR
  else if code = 123 then do
    modifyP (fun s => { s with pos := s.pos + 1 }); finishToken .braceL
  else if code = 125 then do
    modifyP (fun s => { s with pos := s.pos + 1 }); finishToken .braceR
  else if code = 58 then do
    modifyP (fun s => { s with pos := s.pos + 1 }); finishToken .colon
  else if code = 96 then do
    if s.options.ecmaVersion < 6 then unexpectedChar code
    else do
      modifyP (fun s => { s with pos := s.pos + 1 }); finishToken .backQuote
  else if code = 48 then do
    let next := charCodeAt s.input (s.pos + 1)
    if next = some 120 || next = some 88 then readRadixNumber 16
    else if s.options.ecmaVersion ≥ 6 && (next = some 111 || next = some 79) then
      readRadixNumber 8
    else if s.options.ecmaVersion ≥ 6 && (next = some 98 || next = some 66) then
      readRadixNumber 2
    else readNumber false
  else if 49 ≤ code && code ≤ 57 then readNumber false
  else if code = 34 || code = 39 then unsupported "readString"
  else if code = 47 then readToken_slash
  else if code = 37 || code = 42 then readToken_mult_modulo_exp code
  else if code = 124 || code = 38 then readToken_pipe_amp code
  else if code = 94 then readToken_caret
  else if code = 43 || code = 45 then readToken_plus_min t code
  else if code = 60 || code = 62 then readToken_lt_gt t code
  else if code = 61 || code = 33 then readToken_eq_excl code
  else if code = 63 then readToken_question
  else if code = 126 then finishOp .prefixOp 1
  else unexpectedChar code
where
  unexpectedChar (code : Nat) : Eff Unit := do
    let s ← getP
    raise s.pos
      (jstr "Unexpected character '" ++ codePointToString code ++ jstr "'")

/-- The `readToken` method. -/
def readToken (t : TRec) (code : Nat) : Eff Unit := do
  let s ← getP
  if isIdentifierStart (some code) && s.options.ecmaVersion ≥ 6 then readWord
  else if isIdentifierStart (some code) then readWord
  else if code = 92 then readWord
  else getTokenFromCode t code

/-- The `nextToken` method (source lines 2857–2867), one knot level. -/
def nextTokenF (t : TRec) : Eff Unit := do
  let curCtx ← curContext
  if curCtx.isNone || !(curCtx.elim false Ctx.preserveSpace) then skipSpace
  else pure ()
  modifyP (fun s => { s with start := s.pos })
  let s ← getP
  if s.pos ≥ s.input.length then finishToken .eof
  else if curCtx.elim false Ctx.hasOverride then
    unsupported "context override scanner (templates)"
  else do
    let code ← fullCharCodeAtPos
    match code with
    | some code => readToken t code
    | none => unsupported "fullCharCodeAtPos at end"

/-- The fueled tokenizer knot. -/
def trecAt : Nat → TRec
  | 0 => ⟨throwE .outOfFuel⟩
  | n + 1 => ⟨nextTokenF (trecAt n)⟩

/-- `nextToken` with fuel derived from the input length (each knot level
consumes a whole HTML-style comment of at least three characters). -/
def nextToken : Eff Unit := fun s => (trecAt (s.input.length + 2)).nextToken s

end Acorn

namespace Acorn

/-- Modelled from the spec: length matched by the `skipWhiteSpace` regular
expression of `whitespace.js` (`(?:\s|//.*|/*…*/)*`) at index `i`; an
unterminated block comment does not match. -/
def skipWhiteSpaceEndGo : Nat → JStr → Nat → Nat
  | 0, _, i => i
  | fuel + 1, input, i =>
    match charCodeAt input i with
    | none => i
    | some c =>
      if isWsCode c then skipWhiteSpaceEndGo fuel input (i + 1)
      else if c = 47 && charCodeAt input (i + 1) = some 47 then
        let rest := (input.drop (i + 2)).takeWhile (fun c => !isNewLineCode c)
        skipWhiteSpaceEndGo fuel input (i + 2 + rest.length)
      else if c = 47 && charCodeAt input (i + 1) = some 42 then
        match indexOfStarSlash (input.drop (i + 2)) 0 with
        | some j => skipWhiteSpaceEndGo fuel input (i + 2 + j + 2)
        | none => i
      else i

/-- End index of the whitespace run starting at `i`. -/
def skipWhiteSpaceEnd (input : JStr) (i : Nat) : Nat :=
  skipWhiteSpaceEndGo (input.length + 2) input i

/-- The `literal` regular expression of `parseutil.js`
(`^(?:'((?:\\.|[^'\\])*?)'|"((?:\\.|[^"\\])*?)")`): match a quoted string
literal, returning its body and the total matched length. -/
def literalMatchGo (quote : Nat) : Nat → JStr → Option (JStr × Nat)
  | 0, _ => none
  | _, [] => none
  | fuel + 1, c :: rest =>
    if c = quote then some ([], 1)
    else if c = 92 then
      match rest with
      | [] => none
      | e :: rest2 =>
        match literalMatchGo quote fuel rest2 with
        | some (body, n) => some (c :: e :: body, n + 2)
        | none => none
    else
      match literalMatchGo quote fuel rest with
      | some (body, n) => some (c :: body, n + 1)
      | none => none

/-- Match the `literal` regular expression at the start of `s`. -/
def literalMatch (s : JStr) : Option (JStr × Nat) :=
  match s with
  | 39 :: rest =>
    (literalMatchGo 39 (rest.length + 1) rest).map (fun (b, n) => (b, n + 1))
  | 34 :: rest =>
    (literalMatchGo 34 (rest.length + 1) rest).map (fun (b, n) => (b, n + 1))
  | _ => none

/-- The `strictDirective` method (source lines 4084–4113), as a pure scan of
the input. -/
def strictDirectiveGo : Nat → JStr → Nat → Bool
  | 0, _, _ => false
  | fuel + 1, input, start =>
    let start := skipWhiteSpaceEnd input start
    match literalMatch (input.drop start) with
    | none => false
    | some (body, mlen) =>
      if body = jstr "use strict" then
        let wsEnd := skipWhiteSpaceEnd input (start + mlen)
        let spaceAfter := jslice input (start + mlen) wsEnd
        let next := charCodeAt input wsEnd
        (next = some 59 || next = some 125 ||
          (lineBreakTest spaceAfter &&
            !((match next with
               | some n => [40, 96, 46, 91, 43, 45, 47, 42, 37, 60, 62, 61, 44, 63, 94, 38].contains n
               | none => false) ||
              (next = some 33 && charCodeAt input (wsEnd + 1) = some 61))))
      else
        let start := start + mlen
        let start := skipWhiteSpaceEnd input start
        let start := if charCodeAt input start = some 59 then start + 1 else start
        strictDirectiveGo fuel input start

/-- The `strictDirective` method. -/
def strictDirective (input : JStr) (start : Nat) : Bool :=
  strictDirectiveGo (input.length + 2) input start

/-- The `Parser` constructor (source lines 250–347).  The modelled options
have `allowHashBang = false`, so the hashbang branch vanishes; the keyword
and reserved-word sets are fixed by `ecmaVersion = 12`, `sourceType` script
and `allowReserved = false` (see `keywordList` and friends). -/
def mkParser (options : Options) (input : JStr) (startPos : Nat := 0) : P :=
  let lineStart :=
    if startPos ≠ 0 then
      match ((jslice input 0 startPos).reverse.findIdx? (fun c => c = 10)) with
      | some k => startPos - k
      | none => 0
    else 0
  let curLine :=
    if startPos ≠ 0 then (getLineInfo input lineStart).1 else 1
  let inModule := options.sourceType = "module"
  { options := options
    input := input
    containsEsc := false
    pos := startPos
    lineStart := lineStart
    curLine := curLine
    type := .eof
    value := .null
    start := startPos
    endPos := startPos
    lastTokStart := startPos
    lastTokEnd := startPos
    context := [.b_stat]
    exprAllowed := true
    inModule := inModule
    strict := inModule || strictDirective input startPos
    potentialArrowAt := -1
    yieldPos := 0, awaitPos := 0, awaitIdentPos := 0
    labels := []
    undefinedExports := []
    scopeStack := [{ flags := SCOPE_TOP }]
    regexpState := none
    deHeap := []
    clashHeap := [] }

/-- The `next` method (source lines 2827–2840). -/
def next (ignoreEscapeSequenceInKeyword : Bool := false) : Eff Unit := do
  let s ← getP
  if !ignoreEscapeSequenceInKeyword && (tprops s.type).keyword.isSome && s.containsEsc then
    (raiseRecoverable s.start
      (jstr "Escape sequence in keyword " ++ jstr ((tprops s.type).keyword.getD "")) : Eff Unit)
  else pure ()
  modifyP (fun s => { s with lastTokEnd := s.endPos, lastTokStart := s.start })
  nextToken

/-- The `getToken` method (source lines 2842–2845): advance, then return a
`Token` snapshot of the parser. -/
def getToken : Eff TokenR := do
  next
  let s ← getP
  pure (TokenR.ofP s)

/-- The `eat` method. -/
def eat (type : TokType) : Eff Bool := do
  let s ← getP
  if s.type = type then do
    next
    pure true
  else pure false

/-- The `isContextual` method. -/
def isContextual (name : String) : Eff Bool := do
  let s ← getP
  pure (s.type = .name && s.value = .str (jstr name) && !s.containsEsc)

/-- The `eatContextual` method. -/
def eatContextual (name : String) : Eff Bool := do
  if ← isContextual name then do
    next
    pure true
  else pure false

/-- The `expectContextual` method. -/
def expectContextual (name : String) : Eff Unit := do
  if ← eatContextual name then pure () else unexpectedAt none

/-- The `canInsertSemicolon` method (source lines 4149–4155). -/
def canInsertSemicolon : Eff Bool := do
  let s ← getP
  pure (s.type = .eof || s.type = .braceR ||
    lineBreakTest (jslice s.input s.lastTokEnd s.start))

/-- The `insertSemicolon` method (`onInsertedSemicolon` is not provided). -/
def insertSemicolon : Eff Bool := do
  if ← canInsertSemicolon then pure true else pure false

/-- The `semicolon` method. -/
def semicolon : Eff Unit := do
  let e ← eat .semi
  if !e then do
    let i ← insertSemicolon
    if !i then unexpectedAt none else pure ()
  else pure ()

/-- The `afterTrailingComma` method (`onTrailingComma` is not provided). -/
def afterTrailingComma (tokType : TokType) (notNext : Bool := false) : Eff Bool := do
  let s ← getP
  if s.type = tokType then do
    if !notNext then next else pure ()
    pure true
  else pure false

/-- The `expect` method. -/
def expect (type : TokType) : Eff Unit := do
  let e ← eat type
  if e then pure () else unexpectedAt none

/-- The `enterScope` method. -/
def enterScope (flags : Nat) : Eff Unit :=
  modifyP (fun s => { s with scopeStack := { flags := flags } :: s.scopeStack })

/-- The `exitScope` method. -/
def exitScope : Eff Unit :=
  modifyP (fun s => { s with scopeStack := s.scopeStack.tail })

/-- The `currentScope` method (the scope stack is never empty). -/
def currentScope : Eff ScopeR := fun s =>
  match s.scopeStack.head? with
  | some sc => .ok sc s
  | none => .err (.unsupported "empty scopeStack") s

/-- Update the current scope in place. -/
def modifyCurrentScope (f : ScopeR → ScopeR) : Eff Unit :=
  modifyP (fun s =>
    { s with scopeStack :=
        match s.scopeStack with
        | sc :: rest => f sc :: rest
        | [] => [] })

/-- The `treatFunctionsAsVarInScope` method. -/
def treatFunctionsAsVarInScope (inModule : Bool) (scope : ScopeR) : Bool :=
  flagTest scope.flags SCOPE_FUNCTION || (!inModule && flagTest scope.flags SCOPE_TOP)

/-- The `treatFunctionsAsVar` getter. -/
def treatFunctionsAsVar : Eff Bool := do
  let s ← getP
  let sc ← currentScope
  pure (treatFunctionsAsVarInScope s.inModule sc)

/-- The `currentVarScope` method: innermost scope with the VAR bit. -/
def currentVarScope : Eff ScopeR := fun s =>
  match s.scopeStack.find? (fun sc => flagTest sc.flags SCOPE_VAR) with
  | some sc => .ok sc s
  | none => .err (.unsupported "no var scope") s

/-- The `currentThisScope` method. -/
def currentThisScope : Eff ScopeR := fun s =>
  match s.scopeStack.find? (fun sc =>
      flagTest sc.flags SCOPE_VAR && !flagTest sc.flags SCOPE_ARROW) with
  | some sc => .ok sc s
  | none => .err (.unsupported "no this scope") s

/-- The `inFunction` getter. -/
def inFunction : Eff Bool := do
  let sc ← currentVarScope
  pure (flagTest sc.flags SCOPE_FUNCTION)

/-- The `inGenerator` getter. -/
def inGenerator : Eff Bool := do
  let sc ← currentVarScope
  pure (flagTest sc.flags SCOPE_GENERATOR)

/-- The `inAsync` getter. -/
def inAsync : Eff Bool := do
  let sc ← currentVarScope
  pure (flagTest sc.flags SCOPE_ASYNC)

/-- The `allowSuper` getter. -/
def allowSuper : Eff Bool := do
  let sc ← currentThisScope
  pure (flagTest sc.flags SCOPE_SUPER)

/-- The `allowDirectSuper` getter. -/
def allowDirectSuper : Eff Bool := do
  let sc ← currentThisScope
  pure (flagTest sc.flags SCOPE_DIRECT_SUPER)

/-- The `inNonArrowFunction` getter. -/
def inNonArrowFunction : Eff Bool := do
  let sc ← currentThisScope
  pure (flagTest sc.flags SCOPE_FUNCTION)

/-- The var-binding walk of `declareName` (the final `else` branch): walk the
scope stack from the innermost scope outward, stopping at a clash or after a
VAR scope; returns whether a redeclaration was found, the updated stack, and
whether `undefinedExports[name]` must be deleted. -/
def declareVarGo (inModule : Bool) (name : JStr) : List ScopeR → Bool × List ScopeR × Bool
  | [] => (false, [], false)
  | scope :: rest =>
    if (scope.lexical.contains name &&
          !(flagTest scope.flags SCOPE_SIMPLE_CATCH && scope.lexical.head? = some name)) ||
        (!treatFunctionsAsVarInScope inModule scope && scope.functions.contains name) then
      (true, scope :: rest, false)
    else
      let scope' := { scope with var := scope.var ++ [name] }
      let del := inModule && flagTest scope.flags SCOPE_TOP
      if flagTest scope.flags SCOPE_VAR then (false, scope' :: rest, del)
      else
        match declareVarGo inModule name rest with
        | (re2, rest2, del2) => (re2, scope' :: rest2, del || del2)

/-- The `declareName` method (source lines 2715–2760); note that the name is
pushed on the scope's list before the redeclaration error is raised. -/
def declareName (name : JStr) (bindingType : Nat) (pos : Nat) : Eff Unit := do
  let redeclared ← (do
    if bindingType = BIND_LEXICAL then do
      let scope ← currentScope
      let re := scope.lexical.contains name || scope.functions.contains name ||
        scope.var.contains name
      modifyCurrentScope (fun sc => { sc with lexical := sc.lexical ++ [name] })
      let s ← getP
      if s.inModule && flagTest scope.flags SCOPE_TOP then
        modifyP (fun s =>
          { s with undefinedExports := s.undefinedExports.filter (fun e => e.1 ≠ name) })
      else pure ()
      pure re
    else if bindingType = BIND_SIMPLE_CATCH then do
      modifyCurrentScope (fun sc => { sc with lexical := sc.lexical ++ [name] })
      pure false
    else if bindingType = BIND_FUNCTION then do
      let scope ← currentScope
      let tfv ← treatFunctionsAsVar
      let re :=
        if tfv then scope.lexical.contains name
        else scope.lexical.contains name || scope.var.contains name
      modifyCurrentScope (fun sc => { sc with functions := sc.functions ++ [name] })
      pure re
    else do
      let s ← getP
      let (re2, scopes2, del2) := declareVarGo s.inModule name s.scopeStack
      setP { s with
          scopeStack := scopes2,
          undefinedExports :=
            if del2 then s.undefinedExports.filter (fun e => e.1 ≠ name)
            else s.undefinedExports }
      pure re2)
  if redeclared then
    raiseRecoverable pos
      (jstr "Identifier '" ++ name ++ jstr "' has already been declared")
  else pure ()

/-- The `checkLocalExport` method (`scopeStack[0]` is the outermost scope). -/
def checkLocalExport (idName : JStr) (idStart : Nat) : Eff Unit := do
  let s ← getP
  match s.scopeStack.getLast? with
  | some sc0 =>
    if !sc0.lexical.contains idName && !sc0.var.contains idName then
      modifyP (fun s =>
        { s with undefinedExports :=
            if s.undefinedExports.any (fun e => e.1 = idName) then s.undefinedExports
            else s.undefinedExports ++ [(idName, idStart)] })
    else pure ()
  | none => pure ()

/-- The `startNode` method. -/
def startNode : Eff Node := do
  let s ← getP
  pure (newNode s.start)

/-- The `startNodeAt` method. -/
def startNodeAt (pos : Nat) : Eff Node := pure (newNode pos)

/-- The `finishNodeAt` helper of `node.js`: set `type` and `end`. -/
def finishNodeAtP (node : Node) (ty : String) (pos : Nat) : Node :=
  node.upd (fun f => { f with ty := ty, endPos := pos })

/-- The `finishNode` method: finish at the previous token's end. -/
def finishNode (node : Node) (ty : String) : Eff Node := do
  let s ← getP
  pure (finishNodeAtP node ty s.lastTokEnd)

end Acorn

namespace Acorn

/-- Extract the string payload of a token value (`this.value` at sites where
the code knows it is a string). -/
def jsValStr : JsVal → JStr
  | .str w => w
  | _ => []

/-- Allocate a fresh `DestructuringErrors` object (`new DestructuringErrors()`). -/
def newDE : Eff DERef := fun s => .ok s.deHeap.length { s with deHeap := s.deHeap ++ [{}] }

/-- Read a `DestructuringErrors` object through its reference. -/
def readDE (i : DERef) : Eff DE := fun s =>
  match s.deHeap.get? i with
  | some d => .ok d s
  | none => .err (.unsupported "dangling DestructuringErrors reference") s

/-- Mutate a `DestructuringErrors` object through its reference. -/
def modifyDE (i : DERef) (f : DE → DE) : Eff Unit := fun s =>
  match s.deHeap.get? i with
  | some d => .ok () { s with deHeap := s.deHeap.set i (f d) }
  | none => .err (.unsupported "dangling DestructuringErrors reference") s

/-- Allocate a fresh name-clash hash (`Object.create(null)` in `checkParams`). -/
def newClash : Eff Nat := fun s => .ok s.clashHeap.length { s with clashHeap := s.clashHeap ++ [[]] }

/-- Read a name-clash hash. -/
def readClash (i : Nat) : Eff (List JStr) := fun s =>
  match s.clashHeap.get? i with
  | some l => .ok l s
  | none => .err (.unsupported "dangling clash reference") s

/-- Record a name in a name-clash hash. -/
def addClash (i : Nat) (name : JStr) : Eff Unit := fun s =>
  match s.clashHeap.get? i with
  | some l => .ok () { s with clashHeap := s.clashHeap.set i (l ++ [name]) }
  | none => .err (.unsupported "dangling clash reference") s

/-- The `checkExpressionErrors` method (source lines 4207–4218). -/
def checkExpressionErrors (ref : Option DERef) (andThrow : Bool := false) : Eff Bool := do
  match ref with
  | none => pure false
  | some dref => do
    let de ← readDE dref
    if !andThrow then pure (de.shorthandAssign ≥ 0 || de.doubleProto ≥ 0)
    else do
      if de.shorthandAssign ≥ 0 then
        (raise de.shorthandAssign.toNat
          (jstr "Shorthand property assignments are valid only in destructuring patterns") : Eff Unit)
      else pure ()
      if de.doubleProto ≥ 0 then
        (raiseRecoverable de.doubleProto.toNat
          (jstr "Redefinition of __proto__ property") : Eff Unit)
      else pure ()
      pure false

/-- The `checkPatternErrors` method (source lines 4194–4205). -/
def checkPatternErrors (ref : Option DERef) (isAssign : Bool) : Eff Unit := do
  match ref with
  | none => pure ()
  | some dref => do
    let de ← readDE dref
    if de.trailingComma > -1 then
      (raiseRecoverable de.trailingComma.toNat
        (jstr "Comma is not permitted after the rest element") : Eff Unit)
    else pure ()
    let parens := if isAssign then de.parenthesizedAssign else de.parenthesizedBind
    if parens > -1 then
      raiseRecoverable parens.toNat (jstr "Parenthesized pattern")
    else pure ()

/-- The `checkYieldAwaitInDefaultParams` method (source lines 4220–4225). -/
def checkYieldAwaitInDefaultParams : Eff Unit := do
  let s ← getP
  if s.yieldPos ≠ 0 && (s.awaitPos = 0 || s.yieldPos < s.awaitPos) then
    (raise s.yieldPos (jstr "Yield expression cannot be a default value") : Eff Unit)
  else pure ()
  let s2 ← getP
  if s2.awaitPos ≠ 0 then
    raise s2.awaitPos (jstr "Await expression cannot be a default value")
  else pure ()

/-- The `isSimpleAssignTarget` method, recursing through parentheses. -/
def isSimpleAssignTarget : Nat → Node → Bool
  | 0, _ => false
  | fuel + 1, expr =>
    if expr.f.ty = "ParenthesizedExpression" then
      match expr.f.expression with
      | some e => isSimpleAssignTarget fuel e
      | none => false
    else expr.f.ty = "Identifier" || expr.f.ty = "MemberExpression"

/-- The `checkUnreserved` method (source lines 2581–2608), with the
version-12 reserved-word sets fixed by the modelled options. -/
def checkUnreserved (start _endPos : Nat) (name : JStr) : Eff Unit := do
  let gen ← inGenerator
  if gen && name = jstr "yield" then
    (raiseRecoverable start
      (jstr "Cannot use 'yield' as identifier inside a generator") : Eff Unit)
  else pure ()
  let asy ← inAsync
  if asy && name = jstr "await" then
    (raiseRecoverable start
      (jstr "Cannot use 'await' as identifier inside an async function") : Eff Unit)
  else pure ()
  if wordsTest keywordList name then
    (raise start (jstr "Unexpected keyword '" ++ name ++ jstr "'") : Eff Unit)
  else pure ()
  let s ← getP
  let re := if s.strict then reservedWordsStrictList else reservedWords6
  if wordsTest re name then do
    if !asy && name = jstr "await" then
      (raiseRecoverable start
        (jstr "Cannot use keyword 'await' outside an async function") : Eff Unit)
    else pure ()
    raiseRecoverable start (jstr "The keyword '" ++ name ++ jstr "' is reserved")
  else pure ()

/-- The `isLet` method (source lines 4257–4278). -/
def isLet (context : Option String) : Eff Bool := do
  let s ← getP
  let ctx ← isContextual "let"
  if s.options.ecmaVersion < 6 || !ctx then pure false
  else do
    let nextI := skipWhiteSpaceEnd s.input s.pos
    let nextCh := charCodeAt s.input nextI
    if nextCh = some 91 then pure true
    else if context.isSome then pure false
    else if nextCh = some 123 then pure true
    else if isIdentifierStart nextCh then do
      let after := (s.input.drop (nextI + 1)).takeWhile (fun c => isIdentifierChar (some c))
      let ident := jslice s.input nextI (nextI + 1 + after.length)
      pure (!(ident = jstr "in" || ident = jstr "instanceof"))
    else pure false

/-- The `isAsyncFunction` method (source lines 4283–4296). -/
def isAsyncFunction : Eff Bool := do
  let s ← getP
  let ctx ← isContextual "async"
  if s.options.ecmaVersion < 8 || !ctx then pure false
  else do
    let nextI := skipWhiteSpaceEnd s.input s.pos
    pure (!lineBreakTest (jslice s.input s.pos nextI) &&
      jslice s.input nextI (nextI + 8) = jstr "function" &&
      (nextI + 8 = s.input.length ||
        !isIdentifierChar (charCodeAt s.input (nextI + 8))))

/-- The `isDirectiveCandidate` method. -/
def isDirectiveCandidate (input : JStr) (statement : Node) : Bool :=
  statement.f.ty = "ExpressionStatement" &&
  (match statement.f.expression with
   | some e =>
     e.f.ty = "Literal" &&
     (match e.f.value with | .str _ => true | _ => false) &&
     (charCodeAt input statement.f.start = some 34 ||
      charCodeAt input statement.f.start = some 39)
   | none => false)

/-- The `adaptDirectivePrologue` method: attach `directive` to the leading
directive candidates. -/
def adaptDirectivePrologue (input : JStr) : List Node → List Node
  | [] => []
  | stmt :: rest =>
    if isDirectiveCandidate input stmt then
      let raw := (stmt.f.expression.map (fun e => e.f.raw)).getD []
      let stmt := stmt.upd (fun f =>
        { f with directive := some (jslice raw 1 (raw.length - 1)) })
      stmt :: adaptDirectivePrologue input rest
    else stmt :: rest

/-- The `initFunction` method (source lines 2413–2417). -/
def initFunction (node : Node) : Eff Node := do
  let s ← getP
  let node := node.upd (fun f => { f with id := none })
  let node := if s.options.ecmaVersion ≥ 6 then
    node.upd (fun f => { f with generator := false, expressionB := false }) else node
  let node := if s.options.ecmaVersion ≥ 8 then
    node.upd (fun f => { f with async := false }) else node
  pure node

/-- The `isSimpleParamList` method (`null` entries cannot occur in function
parameter lists). -/
def isSimpleParamList (params : List (Option Node)) : Bool :=
  params.all (fun p => match p with
    | some p => p.f.ty = "Identifier"
    | none => false)

/-- The `FUNC_STATEMENT` constants of `statement.js`. -/
def FUNC_STATEMENT : Nat := 1
def FUNC_HANGING_STATEMENT : Nat := 2
def FUNC_NULLABLE_ID : Nat := 4

/-- Knot for the mutually recursive parser functions.  Where the original
takes an optional `refDestructuringErrors` object, the model takes an
`Option DERef` heap reference; the `afterLeftParse` callback of
`parseMaybeAssign` is only ever `parseParenItem` (the identity), modelled by
a boolean. -/
structure PRec where
  parseTopLevel : Node → Eff Node
  parseStatement : Option String → Bool → Eff Node
  parseBlock : Bool → Option Node → Bool → Eff Node
  parseReturnStatement : Node → Eff Node
  parseVarStatement : Node → JStr → Eff Node
  parseVar : Node → Bool → JStr → Eff Node
  parseVarId : Node → JStr → Eff Node
  parseFunctionStatement : Node → Bool → Bool → Eff Node
  parseFunction : Node → Nat → Bool → Bool → Eff Node
  parseFunctionParams : Node → Eff Node
  parseFunctionBody : Node → Bool → Bool → Eff Node
  parseExpressionStatement : Node → Node → Eff Node
  parseExpression : Bool → Option DERef → Eff Node
  parseMaybeAssign : Bool → Option DERef → Bool → Eff Node
  parseMaybeConditional : Bool → Option DERef → Eff Node
  parseExprOps : Bool → Option DERef → Eff Node
  parseExprOp : Node → Nat → Int → Bool → Eff Node
  parseMaybeUnary : Option DERef → Bool → Eff Node
  parseExprSubscripts : Option DERef → Eff Node
  parseSubscripts : Node → Nat → Bool → Eff Node
  parseSubscript : Node → Nat → Bool → Bool → Bool → Eff (Node × Bool)
  parseExprAtom : Option DERef → Eff Node
  parseParenAndDistinguishExpression : Bool → Eff Node
  parseParenExpression : Eff Node
  parseLiteral : JsVal → Eff Node
  parseIdent : Bool → Eff Node
  parseBindingAtom : Eff Node
  parseBindingList : TokType → Bool → Bool → Eff (List (Option Node))
  parseMaybeDefault : Nat → Option Node → Eff Node
  parseRestBinding : Eff Node
  parseSpread : Option DERef → Eff Node
  parseExprList : TokType → Bool → Bool → Option DERef → Eff (List (Option Node))
  toAssignable : Option Node → Bool → Option DERef → Eff (Option Node)
  toAssignableList : List (Option Node) → Bool → Eff (List (Option Node))
  checkLValSimple : Node → Nat → Option Nat → Eff Unit
  checkLValPattern : Node → Nat → Option Nat → Eff Unit
  checkLValInnerPattern : Node → Nat → Option Nat → Eff Unit

end Acorn

namespace Acorn

/-- The `buildBinary` method (source lines 1530–1539). -/
def buildBinary (startPos : Nat) (left right : Node) (op : JStr) (logical : Bool) : Eff Node := do
  let node ← startNodeAt startPos
  let node := node.upd (fun f =>
    { f with left := some left, operator := op, right := some right })
  finishNode node (if logical then "LogicalExpression" else "BinaryExpression")

/-- Comma loop of `parseExpression`. -/
def parseExpressionGo (r : PRec) (noIn : Bool) (ref : Option DERef) :
    Nat → List Node → Eff (List Node)
  | 0, _ => throwE .outOfFuel
  | fuel + 1, acc => do
    if ← eat .comma then do
      let e ← r.parseMaybeAssign noIn ref false
      parseExpressionGo r noIn ref fuel (acc ++ [e])
    else pure acc

/-- The `parseExpression` method (source lines 1369–1383). -/
def parseExpressionF (r : PRec) (noIn : Bool) (ref : Option DERef) : Eff Node := do
  let s ← getP
  let startPos := s.start
  let expr ← r.parseMaybeAssign noIn ref false
  let s2 ← getP
  if s2.type = .comma then do
    let node ← startNodeAt startPos
    let exprs ← parseExpressionGo r noIn ref (s2.input.length + 2) [expr]
    let node := node.upd (fun f => { f with expressions := exprs })
    finishNode node "SequenceExpression"
  else pure expr

/-- The `parseMaybeAssign` method (source lines 1388–1440). -/
def parseMaybeAssignF (r : PRec) (noIn : Bool) (ref : Option DERef)
    (afterLeftParse : Bool) : Eff Node := do
  if ← isContextual "yield" then do
    if ← inGenerator then unsupported "parseYield"
    else modifyP (fun s => { s with exprAllowed := false })
  else pure ()
  let (ownDestructuringErrors, refR, oldParenAssign, oldTrailingComma) ← (do
    match ref with
    | some dref => do
      let de ← readDE dref
      modifyDE dref (fun de => { de with parenthesizedAssign := -1, trailingComma := -1 })
      pure (false, dref, de.parenthesizedAssign, de.trailingComma)
    | none => do
      let dref ← newDE
      pure (true, dref, (-1 : Int), (-1 : Int)))
  let s ← getP
  let startPos := s.start
  if s.type = .parenL || s.type = .name then
    modifyP (fun s => { s with potentialArrowAt := (s.start : Int) })
  else pure ()
  let left ← r.parseMaybeConditional noIn (some refR)
  -- `afterLeftParse` is `parseParenItem`, the identity
  let s2 ← getP
  if (tprops s2.type).isAssign then do
    let node ← startNodeAt startPos
    let node := node.upd (fun f => { f with operator := jsValStr s2.value })
    let left ← (do
      if s2.type = .eq then do
        let lo ← r.toAssignable (some left) false (some refR)
        pure (lo.getD left)
      else pure left)
    if !ownDestructuringErrors then
      modifyDE refR (fun de =>
        { de with parenthesizedAssign := -1, trailingComma := -1, doubleProto := -1 })
    else pure ()
    let de ← readDE refR
    if de.shorthandAssign ≥ (left.f.start : Int) then
      modifyDE refR (fun de => { de with shorthandAssign := -1 })
    else pure ()
    if s2.type = .eq then r.checkLValPattern left BIND_NONE none
    else r.checkLValSimple left BIND_NONE none
    let node := node.upd (fun f => { f with left := some left })
    next
    let right ← r.parseMaybeAssign noIn none false
    let node := node.upd (fun f => { f with right := some right })
    finishNode node "AssignmentExpression"
  else do
    if ownDestructuringErrors then do
      let _ ← checkExpressionErrors (some refR) true
      pure ()
    else pure ()
    if oldParenAssign > -1 then
      modifyDE refR (fun de => { de with parenthesizedAssign := oldParenAssign })
    else pure ()
    if oldTrailingComma > -1 then
      modifyDE refR (fun de => { de with trailingComma := oldTrailingComma })
    else pure ()
    pure left

/-- The `parseMaybeConditional` method (source lines 1444–1458). -/
def parseMaybeConditionalF (r : PRec) (noIn : Bool) (ref : Option DERef) : Eff Node := do
  let s ← getP
  let startPos := s.start
  let expr ← r.parseExprOps noIn ref
  if ← checkExpressionErrors ref then pure expr
  else do
    if ← eat .question then do
      let node ← startNodeAt startPos
      let node := node.upd (fun f => { f with test := some expr })
      let cons ← r.parseMaybeAssign false none false
      let node := node.upd (fun f => { f with consequent := some cons })
      expect .colon
      let alt ← r.parseMaybeAssign noIn none false
      let node := node.upd (fun f => { f with alternate := some alt })
      finishNode node "ConditionalExpression"
    else pure expr

/-- The `parseExprOps` method (source lines 1462–1470). -/
def parseExprOpsF (r : PRec) (noIn : Bool) (ref : Option DERef) : Eff Node := do
  let s ← getP
  let startPos := s.start
  let expr ← r.parseMaybeUnary ref false
  if ← checkExpressionErrors ref then pure expr
  else if expr.f.start = startPos && expr.f.ty = "ArrowFunctionExpression" then pure expr
  else r.parseExprOp expr startPos (-1) noIn

/-- The `parseExprOp` method (source lines 1478–1528): precedence climbing. -/
def parseExprOpF (r : PRec) (left : Node) (leftStartPos : Nat) (minPrec : Int)
    (noIn : Bool) : Eff Node := do
  let s ← getP
  let prec := (tprops s.type).binop
  if prec.isSome && (!noIn || s.type ≠ ._in) then do
    let p := prec.getD 0
    if (p : Int) > minPrec then do
      let logical := s.type = .logicalOR || s.type = .logicalAND
      let coalesce := s.type = .coalesce
      let p := if coalesce then (tprops TokType.logicalAND).binop.getD 0 else p
      let op := jsValStr s.value
      next
      let s2 ← getP
      let startPos := s2.start
      let un ← r.parseMaybeUnary none false
      let right ← r.parseExprOp un startPos (p : Int) noIn
      let node ← buildBinary leftStartPos left right op (logical || coalesce)
      let s3 ← getP
      if (logical && s3.type = .coalesce) ||
          (coalesce && (s3.type = .logicalOR || s3.type = .logicalAND)) then
        (raiseRecoverable s3.start
          (jstr "Logical expressions and coalesce expressions cannot be mixed. Wrap either by parentheses") : Eff Unit)
      else pure ()
      r.parseExprOp node leftStartPos minPrec noIn
    else pure left
  else pure left

/-- Postfix loop of `parseMaybeUnary`. -/
def parseMaybeUnaryPostfixGo (r : PRec) (startPos : Nat) : Nat → Node → Eff Node
  | 0, _ => throwE .outOfFuel
  | fuel + 1, expr => do
    let s ← getP
    let ci ← canInsertSemicolon
    if (tprops s.type).postOp && !ci then do
      let node ← startNodeAt startPos
      let node := node.upd (fun f =>
        { f with operator := jsValStr s.value, preOpB := false, argument := some expr })
      r.checkLValSimple expr BIND_NONE none
      next
      let expr2 ← finishNode node "UpdateExpression"
      parseMaybeUnaryPostfixGo r startPos fuel expr2
    else pure expr

/-- The `parseMaybeUnary` method (source lines 1543–1601). -/
def parseMaybeUnaryF (r : PRec) (ref : Option DERef) (sawUnary : Bool) : Eff Node := do
  let s ← getP
  let startPos := s.start
  let ctxAwait ← isContextual "await"
  let inA ← inAsync
  let inF ← inFunction
  let (expr, sawUnary) ← (do
    if ctxAwait && (inA || (!inF && s.options.allowAwaitOutsideFunction)) then
      (unsupported "parseAwait" : Eff (Node × Bool))
    else if (tprops s.type).preOp then do
      let node ← startNode
      let update := s.type = .incDec
      let node := node.upd (fun f =>
        { f with operator := jsValStr s.value, preOpB := true })
      next
      let argument ← r.parseMaybeUnary none true
      let node := node.upd (fun f => { f with argument := some argument })
      let _ ← checkExpressionErrors ref true
      if update then r.checkLValSimple argument BIND_NONE none
      else do
        let s2 ← getP
        if s2.strict && node.f.operator = jstr "delete" && argument.f.ty = "Identifier" then
          raiseRecoverable node.f.start (jstr "Deleting local variable in strict mode")
        else pure ()
      let sawUnary := if update then sawUnary else true
      let expr ← finishNode node (if update then "UpdateExpression" else "UnaryExpression")
      pure (expr, sawUnary)
    else do
      let expr ← r.parseExprSubscripts ref
      if ← checkExpressionErrors ref then pure (expr, true)
      else do
        let s2 ← getP
        let expr ← parseMaybeUnaryPostfixGo r startPos (s2.input.length + 2) expr
        pure (expr, sawUnary))
  let star ← (do
    if !sawUnary then eat .starstar else pure false)
  if star then do
    let un ← r.parseMaybeUnary none false
    buildBinary startPos expr un (jstr "**") false
  else pure expr

end Acorn

namespace Acorn

/-- The `parseExprSubscripts` method (source lines 1605–1624). -/
def parseExprSubscriptsF (r : PRec) (ref : Option DERef) : Eff Node := do
  let s ← getP
  let startPos := s.start
  let expr ← r.parseExprAtom ref
  let s2 ← getP
  if expr.f.ty = "ArrowFunctionExpression" &&
      jslice s2.input s2.lastTokStart s2.lastTokEnd ≠ jstr ")" then pure expr
  else do
    let result ← r.parseSubscripts expr startPos false
    match ref with
    | some dref =>
      if result.f.ty = "MemberExpression" then do
        let de ← readDE dref
        if de.parenthesizedAssign ≥ (result.f.start : Int) then
          modifyDE dref (fun de => { de with parenthesizedAssign := -1 })
        else pure ()
        if de.parenthesizedBind ≥ (result.f.start : Int) then
          modifyDE dref (fun de => { de with parenthesizedBind := -1 })
        else pure ()
        if de.trailingComma ≥ (result.f.start : Int) then
          modifyDE dref (fun de => { de with trailingComma := -1 })
        else pure ()
        pure result
      else pure result
    | none => pure result

/-- The subscript loop of `parseSubscripts`; `parseSubscript` reports whether
it returned its base unchanged (the `element === base` identity test of the
original). -/
def parseSubscriptsGo (r : PRec) (startPos : Nat) (noCalls maybeAsyncArrow : Bool) :
    Nat → Node → Bool → Eff Node
  | 0, _, _ => throwE .outOfFuel
  | fuel + 1, base, optionalChained => do
    let (element, isBase) ← r.parseSubscript base startPos noCalls maybeAsyncArrow optionalChained
    let optionalChained := optionalChained || element.f.optional
    if isBase || element.f.ty = "ArrowFunctionExpression" then do
      if optionalChained then do
        let chainNode ← startNodeAt startPos
        let chainNode := chainNode.upd (fun f => { f with expression := some element })
        finishNode chainNode "ChainExpression"
      else pure element
    else parseSubscriptsGo r startPos noCalls maybeAsyncArrow fuel element optionalChained

/-- The `parseSubscripts` method (source lines 1626–1659). -/
def parseSubscriptsF (r : PRec) (base : Node) (startPos : Nat) (noCalls : Bool) : Eff Node := do
  let s ← getP
  let ci ← canInsertSemicolon
  let maybeAsyncArrow :=
    s.options.ecmaVersion ≥ 8 && base.f.ty = "Identifier" && base.f.name = jstr "async" &&
    s.lastTokEnd = base.f.endPos && !ci && base.f.endPos - base.f.start = 5 &&
    s.potentialArrowAt = (base.f.start : Int)
  parseSubscriptsGo r startPos noCalls maybeAsyncArrow (s.input.length + 2) base false

/-- The `parseSubscript` method (source lines 1664–1757).  The async-arrow
shorthand rewrites to `parseArrowExpression`, which is outside the slice. -/
def parseSubscriptF (r : PRec) (base : Node) (startPos : Nat)
    (noCalls maybeAsyncArrow optionalChained : Bool) : Eff (Node × Bool) := do
  let s ← getP
  let optionalSupported := s.options.ecmaVersion ≥ 11
  let optional ← if optionalSupported then eat .questionDot else pure false
  if noCalls && optional then do
    let s2 ← getP
    raise s2.lastTokStart (jstr "Optional chaining cannot appear in the callee of new expressions")
  else do
    let computed ← eat .bracketL
    let s2 ← getP
    let dotted ← (do
      if computed then pure false
      else if optional && s2.type ≠ .parenL && s2.type ≠ .backQuote then pure false
      else eat .dot)
    if computed || (optional && s2.type ≠ .parenL && s2.type ≠ .backQuote) || dotted then do
      let node ← startNodeAt startPos
      let node := node.upd (fun f => { f with object := some base })
      let prop ← (do
        if computed then r.parseExpression false none
        else r.parseIdent (decide (s.options.allowReserved = true)))
      let node := node.upd (fun f => { f with property := some prop, computed := computed })
      if computed then expect .bracketR else pure ()
      let node := if optionalSupported then
        node.upd (fun f => { f with optional := optional }) else node
      let fin ← finishNode node "MemberExpression"
      pure (fin, false)
    else do
      let calledParen ← if !noCalls then eat .parenL else pure false
      if calledParen then do
        let dref ← newDE
        let s3 ← getP
        let oldYieldPos := s3.yieldPos
        let oldAwaitPos := s3.awaitPos
        let oldAwaitIdentPos := s3.awaitIdentPos
        modifyP (fun s => { s with yieldPos := 0, awaitPos := 0, awaitIdentPos := 0 })
        let exprList ← r.parseExprList .parenR (s3.options.ecmaVersion ≥ 8) false (some dref)
        let ci ← canInsertSemicolon
        let arrow ← (do
          if maybeAsyncArrow && !optional && !ci then eat .arrow else pure false)
        if arrow then unsupported "parseArrowExpression (async arrow)"
        else do
          let _ ← checkExpressionErrors (some dref) true
          modifyP (fun s =>
            { s with
                yieldPos := if oldYieldPos ≠ 0 then oldYieldPos else s.yieldPos,
                awaitPos := if oldAwaitPos ≠ 0 then oldAwaitPos else s.awaitPos,
                awaitIdentPos := if oldAwaitIdentPos ≠ 0 then oldAwaitIdentPos else s.awaitIdentPos })
          let node ← startNodeAt startPos
          let node := node.upd (fun f =>
            { f with callee := some base, argumentsL := exprList })
          let node := if optionalSupported then
            node.upd (fun f => { f with optional := optional }) else node
          let fin ← finishNode node "CallExpression"
          pure (fin, false)
      else do
        let s4 ← getP
        if s4.type = .backQuote then do
          if optional || optionalChained then
            raise s4.start (jstr "Optional chaining cannot appear in the tag of tagged template expressions")
          else unsupported "parseTemplate (tagged)"
        else pure (base, true)

/-- The `parseLiteral` method (source lines 1987–1995). -/
def parseLiteralF (_r : PRec) (value : JsVal) : Eff Node := do
  let node ← startNode
  let s ← getP
  let raw := jslice s.input s.start s.endPos
  let node := node.upd (fun f => { f with value := value, raw := raw })
  let node :=
    if charCodeAt raw (raw.length - 1) = some 110 then
      node.upd (fun f =>
        { f with bigint := ((raw.take (raw.length - 1)).filter (fun c => c ≠ 95)) })
    else node
  next
  finishNode node "Literal"

/-- The `parseParenExpression` method (source lines 1997–2002). -/
def parseParenExpressionF (r : PRec) : Eff Node := do
  expect .parenL
  let val ← r.parseExpression false none
  expect .parenR
  pure val

/-- Item loop of `parseParenAndDistinguishExpression`; returns the collected
list, the trailing-comma flag and the spread start. -/
def parseParenItemsGo (r : PRec) (allowTrailingComma : Bool) (dref : DERef) :
    Nat → Bool → List Node → Eff (List Node × Bool × Option Nat)
  | 0, _, _ => throwE .outOfFuel
  | fuel + 1, first, acc => do
    let s ← getP
    if s.type ≠ .parenR then do
      if first then pure () else expect .comma
      let trail ← (do
        if allowTrailingComma then afterTrailingComma .parenR true else pure false)
      if trail then pure (acc, true, none)
      else do
        let s2 ← getP
        if s2.type = .ellipsis then do
          let spreadStart := s2.start
          let rest ← r.parseRestBinding
          -- `parseParenItem` is the identity
          let acc := acc ++ [rest]
          let s3 ← getP
          if s3.type = .comma then
            raise s3.start (jstr "Comma is not permitted after the rest element")
          else pure (acc, false, some spreadStart)
        else do
          let e ← r.parseMaybeAssign false (some dref) true
          parseParenItemsGo r allowTrailingComma dref fuel false (acc ++ [e])
    else pure (acc, false, none)

/-- The `parseParenAndDistinguishExpression` method (source lines 2004–2084);
the arrow rewrite (`parseParenArrowList`) is outside the slice. -/
def parseParenAndDistinguishExpressionF (r : PRec) (canBeArrow : Bool) : Eff Node := do
  let s ← getP
  let startPos := s.start
  let allowTrailingComma := s.options.ecmaVersion ≥ 8
  if s.options.ecmaVersion ≥ 6 then do
    next
    let s2 ← getP
    let innerStartPos := s2.start
    let dref ← newDE
    let oldYieldPos := s2.yieldPos
    let oldAwaitPos := s2.awaitPos
    modifyP (fun s => { s with yieldPos := 0, awaitPos := 0 })
    let (exprList, lastIsComma, spreadStart) ←
      parseParenItemsGo r allowTrailingComma dref (s2.input.length + 2) true []
    let s3 ← getP
    let innerEndPos := s3.start
    expect .parenR
    let ci ← canInsertSemicolon
    let arrow ← (do
      if canBeArrow && !ci then eat .arrow else pure false)
    if arrow then do
      checkPatternErrors (some dref) false
      checkYieldAwaitInDefaultParams
      modifyP (fun s => { s with yieldPos := oldYieldPos, awaitPos := oldAwaitPos })
      unsupported "parseParenArrowList"
    else do
      let s4 ← getP
      if exprList.isEmpty || lastIsComma then (unexpectedAt (some s4.lastTokStart) : Eff Unit)
      else pure ()
      match spreadStart with
      | some sp => (unexpectedAt (some sp) : Eff Unit)
      | none => pure ()
      let _ ← checkExpressionErrors (some dref) true
      modifyP (fun s =>
        { s with
            yieldPos := if oldYieldPos ≠ 0 then oldYieldPos else s.yieldPos,
            awaitPos := if oldAwaitPos ≠ 0 then oldAwaitPos else s.awaitPos })
      if exprList.length > 1 then do
        let val ← startNodeAt innerStartPos
        let val := val.upd (fun f => { f with expressions := exprList })
        pure (finishNodeAtP val "SequenceExpression" innerEndPos)
      else
        match exprList.head? with
        | some v => pure v
        | none => unsupported "empty paren list"
  else r.parseParenExpression

end Acorn

namespace Acorn

/-- The `parseExprAtom` method (source lines 1764–1915).  Object literals,
classes, templates, `new`, dynamic import and arrow rewrites are explicit
slice boundaries. -/
def parseExprAtomF (r : PRec) (ref : Option DERef) : Eff Node := do
  let s0 ← getP
  if s0.type = .slash then readRegexp else pure ()
  let s ← getP
  let canBeArrow := s.potentialArrowAt = (s.start : Int)
  match s.type with
  | ._super => do
    let sup ← allowSuper
    if !sup then (raise s.start (jstr "'super' keyword outside a method") : Eff Unit)
    else pure ()
    let node ← startNode
    next
    let s2 ← getP
    let dsup ← allowDirectSuper
    if s2.type = .parenL && !dsup then
      (raise node.f.start (jstr "super() call outside constructor of a subclass") : Eff Unit)
    else pure ()
    let s3 ← getP
    if s3.type ≠ .dot && s3.type ≠ .bracketL && s3.type ≠ .parenL then
      (unexpectedAt none : Eff Unit)
    else pure ()
    finishNode node "Super"
  | ._this => do
    let node ← startNode
    next
    finishNode node "ThisExpression"
  | .name => do
    let startPos := s.start
    let containsEsc := s.containsEsc
    let id ← r.parseIdent false
    let ci ← canInsertSemicolon
    let fn ← (do
      if s.options.ecmaVersion ≥ 8 && !containsEsc && id.f.name = jstr "async" && !ci then
        eat ._function
      else pure false)
    if fn then do
      let node ← startNodeAt startPos
      r.parseFunction node 0 false true
    else do
      let ci2 ← canInsertSemicolon
      if canBeArrow && !ci2 then do
        if ← eat .arrow then unsupported "parseArrowExpression"
        else do
          let s2 ← getP
          if s.options.ecmaVersion ≥ 8 && id.f.name = jstr "async" && s2.type = .name &&
              !containsEsc then do
            let id2 ← r.parseIdent false
            let ci3 ← canInsertSemicolon
            let arr ← (do if ci3 then pure false else eat .arrow)
            let _ := id2
            if !arr then (unexpectedAt none : Eff Unit) else pure ()
            unsupported "parseArrowExpression (async)"
          else pure id
      else pure id
  | .regexp => do
    let value := s.value
    match value with
    | .regexRecord pattern flags inner => do
      let node ← r.parseLiteral inner
      pure (node.upd (fun f => { f with regex := some (pattern, flags) }))
    | _ => unsupported "regexp token value shape"
  | .num => r.parseLiteral s.value
  | .string => r.parseLiteral s.value
  | ._null => do
    let node ← startNode
    let node := node.upd (fun f =>
      { f with value := .null, raw := jstr ((tprops s.type).keyword.getD "") })
    next
    finishNode node "Literal"
  | ._true => do
    let node ← startNode
    let node := node.upd (fun f =>
      { f with value := .bool true, raw := jstr ((tprops s.type).keyword.getD "") })
    next
    finishNode node "Literal"
  | ._false => do
    let node ← startNode
    let node := node.upd (fun f =>
      { f with value := .bool false, raw := jstr ((tprops s.type).keyword.getD "") })
    next
    finishNode node "Literal"
  | .parenL => do
    let start := s.start
    let expr ← r.parseParenAndDistinguishExpression canBeArrow
    match ref with
    | some dref => do
      let de ← readDE dref
      if de.parenthesizedAssign < 0 && !isSimpleAssignTarget (s.input.length + 2) expr then
        modifyDE dref (fun de => { de with parenthesizedAssign := (start : Int) })
      else pure ()
      let de2 ← readDE dref
      if de2.parenthesizedBind < 0 then
        modifyDE dref (fun de => { de with parenthesizedBind := (start : Int) })
      else pure ()
      pure expr
    | none => pure expr
  | .bracketL => do
    let node ← startNode
    next
    let elts ← r.parseExprList .bracketR true true ref
    let node := node.upd (fun f => { f with elements := elts })
    finishNode node "ArrayExpression"
  | .braceL => unsupported "parseObj"
  | ._function => do
    let node ← startNode
    next
    r.parseFunction node 0 false false
  | ._class => unsupported "parseClass"
  | ._new => unsupported "parseNew"
  | .backQuote => unsupported "parseTemplate"
  | ._import =>
    if s.options.ecmaVersion ≥ 11 then unsupported "parseExprImport"
    else unexpectedAt none
  | _ => unexpectedAt none

/-- The `parseIdent` method (source lines 2614–2643). -/
def parseIdentF (_r : PRec) (liberal : Bool) : Eff Node := do
  let node ← startNode
  let s ← getP
  let node ← (do
    if s.type = .name then
      pure (node.upd (fun f => { f with name := jsValStr s.value }))
    else
      match (tprops s.type).keyword with
      | some kw => do
        let node := node.upd (fun f => { f with name := jstr kw })
        if (kw = "class" || kw = "function") &&
            (s.lastTokEnd ≠ s.lastTokStart + 1 ||
              charCodeAt s.input s.lastTokStart ≠ some 46) then
          modifyP (fun s => { s with context := s.context.tail })
        else pure ()
        pure node
      | none => unexpectedAt none)
  next liberal
  let node ← finishNode node "Identifier"
  if !liberal then do
    checkUnreserved node.f.start node.f.endPos node.f.name
    let s2 ← getP
    if node.f.name = jstr "await" && s2.awaitIdentPos = 0 then
      modifyP (fun s => { s with awaitIdentPos := node.f.start })
    else pure ()
  else pure ()
  pure node

/-- The `parseSpread` method (source lines 3845–3850). -/
def parseSpreadF (r : PRec) (ref : Option DERef) : Eff Node := do
  let node ← startNode
  next
  let arg ← r.parseMaybeAssign false ref false
  let node := node.upd (fun f => { f with argument := some arg })
  finishNode node "SpreadElement"

/-- The `parseRestBinding` method (source lines 3852–3863). -/
def parseRestBindingF (r : PRec) : Eff Node := do
  let node ← startNode
  next
  let s ← getP
  if s.options.ecmaVersion = 6 && s.type ≠ .name then (unexpectedAt none : Eff Unit)
  else pure ()
  let arg ← r.parseBindingAtom
  let node := node.upd (fun f => { f with argument := some arg })
  finishNode node "RestElement"

/-- The `parseBindingAtom` method (source lines 3867–3881). -/
def parseBindingAtomF (r : PRec) : Eff Node := do
  let s ← getP
  if s.options.ecmaVersion ≥ 6 then do
    match s.type with
    | .bracketL => do
      let node ← startNode
      next
      let elts ← r.parseBindingList .bracketR true true
      let node := node.upd (fun f => { f with elements := elts })
      finishNode node "ArrayPattern"
    | .braceL => unsupported "parseObj (object pattern)"
    | _ => r.parseIdent false
  else r.parseIdent false

/-- Loop of `parseBindingList` (source lines 3883–3911). -/
def parseBindingListGo (r : PRec) (close : TokType) (allowEmpty allowTrailingComma : Bool) :
    Nat → Bool → List (Option Node) → Eff (List (Option Node))
  | 0, _, _ => throwE .outOfFuel
  | fuel + 1, first, acc => do
    if ← eat close then pure acc
    else do
      if first then pure () else expect .comma
      let s ← getP
      if allowEmpty && s.type = .comma then
        parseBindingListGo r close allowEmpty allowTrailingComma fuel false (acc ++ [none])
      else do
        let trail ← (do
          if allowTrailingComma then afterTrailingComma close else pure false)
        if trail then pure acc
        else do
          let s2 ← getP
          if s2.type = .ellipsis then do
            let rest ← r.parseRestBinding
            -- `parseBindingListItem` is the identity
            let acc := acc ++ [some rest]
            let s3 ← getP
            if s3.type = .comma then
              (raise s3.start (jstr "Comma is not permitted after the rest element") : Eff Unit)
            else pure ()
            expect close
            pure acc
          else do
            let s3 ← getP
            let elem ← r.parseMaybeDefault s3.start none
            parseBindingListGo r close allowEmpty allowTrailingComma fuel false
              (acc ++ [some elem])

/-- The `parseBindingList` method. -/
def parseBindingListF (r : PRec) (close : TokType) (allowEmpty allowTrailingComma : Bool) :
    Eff (List (Option Node)) := do
  let s ← getP
  parseBindingListGo r close allowEmpty allowTrailingComma (s.input.length + 2) true []

/-- The `parseMaybeDefault` method (source lines 3919–3926). -/
def parseMaybeDefaultF (r : PRec) (startPos : Nat) (left : Option Node) : Eff Node := do
  let left ← (do
    match left with
    | some l => pure l
    | none => r.parseBindingAtom)
  let s ← getP
  let eq ← if s.options.ecmaVersion < 6 then pure false else eat .eq
  if !eq then pure left
  else do
    let node ← startNodeAt startPos
    let node := node.upd (fun f => { f with left := some left })
    let right ← r.parseMaybeAssign false none false
    let node := node.upd (fun f => { f with right := some right })
    finishNode node "AssignmentPattern"

/-- Loop of `parseExprList` (source lines 2554–2579). -/
def parseExprListGo (r : PRec) (close : TokType) (allowTrailingComma allowEmpty : Bool)
    (ref : Option DERef) : Nat → Bool → List (Option Node) → Eff (List (Option Node))
  | 0, _, _ => throwE .outOfFuel
  | fuel + 1, first, acc => do
    if ← eat close then pure acc
    else do
      if !first then do
        expect .comma
        let trail ← (do
          if allowTrailingComma then afterTrailingComma close else pure false)
        if trail then pure acc
        else parseExprListItem r close allowTrailingComma allowEmpty ref fuel acc
      else parseExprListItem r close allowTrailingComma allowEmpty ref fuel acc
where
  parseExprListItem (r : PRec) (close : TokType) (allowTrailingComma allowEmpty : Bool)
      (ref : Option DERef) (fuel : Nat) (acc : List (Option Node)) :
      Eff (List (Option Node)) := do
    let s ← getP
    if allowEmpty && s.type = .comma then
      parseExprListGo r close allowTrailingComma allowEmpty ref fuel false (acc ++ [none])
    else if s.type = .ellipsis then do
      let elt ← r.parseSpread ref
      let s2 ← getP
      match ref with
      | some dref => do
        let de ← readDE dref
        if s2.type = .comma && de.trailingComma < 0 then
          modifyDE dref (fun de => { de with trailingComma := (s2.start : Int) })
        else pure ()
      | none => pure ()
      parseExprListGo r close allowTrailingComma allowEmpty ref fuel false (acc ++ [some elt])
    else do
      let elt ← r.parseMaybeAssign false ref false
      parseExprListGo r close allowTrailingComma allowEmpty ref fuel false (acc ++ [some elt])

/-- The `parseExprList` method. -/
def parseExprListF (r : PRec) (close : TokType) (allowTrailingComma allowEmpty : Bool)
    (ref : Option DERef) : Eff (List (Option Node)) := do
  let s ← getP
  parseExprListGo r close allowTrailingComma allowEmpty ref (s.input.length + 2) true []

end Acorn

namespace Acorn

/-- Property loop of the `ObjectExpression` case of `toAssignable`. -/
def toAssignablePropsGo (r : PRec) (isBinding : Bool) : List Node → Eff (List Node)
  | [] => pure []
  | prop :: rest => do
    let prop2 ← r.toAssignable (some prop) isBinding none
    let prop2 := prop2.getD prop
    if prop2.f.ty = "RestElement" &&
        ((prop2.f.argument.map (fun a => a.f.ty)).getD "" = "ArrayPattern" ||
         (prop2.f.argument.map (fun a => a.f.ty)).getD "" = "ObjectPattern") then
      (raise ((prop2.f.argument.map (fun a => a.f.start)).getD 0)
        (jstr "Unexpected token") : Eff Unit)
    else pure ()
    let rest2 ← toAssignablePropsGo r isBinding rest
    pure (prop2 :: rest2)

/-- The `toAssignable` method (source lines 3723–3819): rewrite an expression
shape into a pattern shape. -/
def toAssignableF (r : PRec) (node : Option Node) (isBinding : Bool)
    (ref : Option DERef) : Eff (Option Node) := do
  let s ← getP
  match node with
  | some node =>
    if s.options.ecmaVersion ≥ 6 then do
      let ty := node.f.ty
      if ty = "Identifier" then do
        let inA ← inAsync
        if inA && node.f.name = jstr "await" then
          (raise node.f.start
            (jstr "Cannot use 'await' as identifier inside an async function") : Eff Unit)
        else pure ()
        pure (some node)
      else if ty = "ObjectPattern" || ty = "ArrayPattern" || ty = "AssignmentPattern" ||
          ty = "RestElement" then
        pure (some node)
      else if ty = "ObjectExpression" then do
        let node := node.upd (fun f => { f with ty := "ObjectPattern" })
        if ref.isSome then checkPatternErrors ref true else pure ()
        let props ← toAssignablePropsGo r isBinding node.f.properties
        pure (some (node.upd (fun f => { f with properties := props })))
      else if ty = "Property" then do
        if node.f.kind ≠ jstr "init" then
          (raise ((node.f.valueN.map (fun _ => node.f.start)).getD node.f.start)
            (jstr "Object pattern can't contain getter or setter") : Eff Unit)
        else pure ()
        let v ← r.toAssignable node.f.valueN isBinding none
        pure (some (node.upd (fun f => { f with valueN := v })))
      else if ty = "ArrayExpression" then do
        let node := node.upd (fun f => { f with ty := "ArrayPattern" })
        if ref.isSome then checkPatternErrors ref true else pure ()
        let elts ← r.toAssignableList node.f.elements isBinding
        pure (some (node.upd (fun f => { f with elements := elts })))
      else if ty = "SpreadElement" then do
        let node := node.upd (fun f => { f with ty := "RestElement" })
        let arg ← r.toAssignable node.f.argument isBinding none
        let node := node.upd (fun f => { f with argument := arg })
        if (arg.map (fun a => a.f.ty)).getD "" = "AssignmentPattern" then
          (raise ((arg.map (fun a => a.f.start)).getD 0)
            (jstr "Rest elements cannot have a default value") : Eff Unit)
        else pure ()
        pure (some node)
      else if ty = "AssignmentExpression" then do
        if node.f.operator ≠ jstr "=" then
          (raise ((node.f.left.map (fun l => l.f.endPos)).getD 0)
            (jstr "Only '=' operator can be used for specifying default value.") : Eff Unit)
        else pure ()
        let node := node.upd (fun f => { f with ty := "AssignmentPattern", operator := [] })
        let l ← r.toAssignable node.f.left isBinding none
        pure (some (node.upd (fun f => { f with left := l })))
      else if ty = "ParenthesizedExpression" then do
        let e ← r.toAssignable node.f.expression isBinding ref
        pure (some (node.upd (fun f => { f with expression := e })))
      else if ty = "ChainExpression" then do
        (raiseRecoverable node.f.start
          (jstr "Optional chaining cannot appear in left-hand side") : Eff Unit)
        pure (some node)
      else if ty = "MemberExpression" && !isBinding then
        pure (some node)
      else do
        (raise node.f.start (jstr "Assigning to rvalue") : Eff Unit)
        pure (some node)
    else do
      if ref.isSome then checkPatternErrors ref true else pure ()
      pure (some node)
  | none => do
    if ref.isSome then checkPatternErrors ref true else pure ()
    pure none

/-- Element loop of `toAssignableList`. -/
def toAssignableListGo (r : PRec) (isBinding : Bool) :
    List (Option Node) → Eff (List (Option Node))
  | [] => pure []
  | elt :: rest => do
    let elt2 ← (do
      match elt with
      | some e => r.toAssignable (some e) isBinding none
      | none => pure none)
    let rest2 ← toAssignableListGo r isBinding rest
    pure (elt2 :: rest2)

/-- The `toAssignableList` method (source lines 3823–3841). -/
def toAssignableListF (r : PRec) (exprList : List (Option Node)) (isBinding : Bool) :
    Eff (List (Option Node)) := do
  let out ← toAssignableListGo r isBinding exprList
  let s ← getP
  match out.getLast? with
  | some (some last) =>
    if s.options.ecmaVersion = 6 && isBinding && last.f.ty = "RestElement" &&
        (last.f.argument.map (fun a => a.f.ty)).getD "" ≠ "Identifier" then do
      (unexpectedAt (some ((last.f.argument.map (fun a => a.f.start)).getD 0)) : Eff Unit)
      pure out
    else pure out
  | _ => pure out

/-- The `checkLValSimple` method (source lines 3992–4043). -/
def checkLValSimpleF (r : PRec) (expr : Node) (bindingType : Nat)
    (checkClashes : Option Nat) : Eff Unit := do
  let isBind := bindingType ≠ BIND_NONE
  let ty := expr.f.ty
  if ty = "Identifier" then do
    let s ← getP
    if s.strict && wordsTest reservedWordsStrictBindList expr.f.name then
      (raiseRecoverable expr.f.start
        ((if isBind then jstr "Binding " else jstr "Assigning to ") ++ expr.f.name ++
          jstr " in strict mode") : Eff Unit)
    else pure ()
    if isBind then do
      if bindingType = BIND_LEXICAL && expr.f.name = jstr "let" then
        (raiseRecoverable expr.f.start
          (jstr "let is disallowed as a lexically bound name") : Eff Unit)
      else pure ()
      match checkClashes with
      | some ci => do
        let cl ← readClash ci
        if cl.contains expr.f.name then
          (raiseRecoverable expr.f.start (jstr "Argument name clash") : Eff Unit)
        else pure ()
        addClash ci expr.f.name
      | none => pure ()
      if bindingType ≠ BIND_OUTSIDE then
        declareName expr.f.name bindingType expr.f.start
      else pure ()
    else pure ()
  else if ty = "ChainExpression" then
    raiseRecoverable expr.f.start (jstr "Optional chaining cannot appear in left-hand side")
  else if ty = "MemberExpression" then do
    if isBind then raiseRecoverable expr.f.start (jstr "Binding member expression")
    else pure ()
  else if ty = "ParenthesizedExpression" then do
    if isBind then
      (raiseRecoverable expr.f.start (jstr "Binding parenthesized expression") : Eff Unit)
    else pure ()
    match expr.f.expression with
    | some e => r.checkLValSimple e bindingType checkClashes
    | none => pure ()
  else
    raise expr.f.start
      ((if isBind then jstr "Binding" else jstr "Assigning to") ++ jstr " rvalue")

/-- The `checkLValPattern` method (source lines 4045–4062). -/
def checkLValPatternF (r : PRec) (expr : Node) (bindingType : Nat)
    (checkClashes : Option Nat) : Eff Unit := do
  let ty := expr.f.ty
  if ty = "ObjectPattern" then
    checkProps expr.f.properties
  else if ty = "ArrayPattern" then
    checkElems expr.f.elements
  else r.checkLValSimple expr bindingType checkClashes
where
  checkProps : List Node → Eff Unit
    | [] => pure ()
    | prop :: rest => do
      r.checkLValInnerPattern prop bindingType checkClashes
      checkProps rest
  checkElems : List (Option Node) → Eff Unit
    | [] => pure ()
    | some elem :: rest => do
      r.checkLValInnerPattern elem bindingType checkClashes
      checkElems rest
    | none :: rest => checkElems rest

/-- The `checkLValInnerPattern` method (source lines 4064–4082). -/
def checkLValInnerPatternF (r : PRec) (expr : Node) (bindingType : Nat)
    (checkClashes : Option Nat) : Eff Unit := do
  let ty := expr.f.ty
  if ty = "Property" then
    match expr.f.valueN with
    | some v => r.checkLValInnerPattern v bindingType checkClashes
    | none => pure ()
  else if ty = "AssignmentPattern" then
    match expr.f.left with
    | some l => r.checkLValPattern l bindingType checkClashes
    | none => pure ()
  else if ty = "RestElement" then
    match expr.f.argument with
    | some a => r.checkLValPattern a bindingType checkClashes
    | none => pure ()
  else r.checkLValPattern expr bindingType checkClashes

end Acorn

namespace Acorn

/-- The `parseEmptyStatement` method (source lines 4675–4678). -/
def parseEmptyStatement (node : Node) : Eff Node := do
  next
  finishNode node "EmptyStatement"

/-- The `parseExpressionStatement` method (source lines 4710–4714). -/
def parseExpressionStatementF (_r : PRec) (node : Node) (expr : Node) : Eff Node := do
  let node := node.upd (fun f => { f with expression := some expr })
  semicolon
  finishNode node "ExpressionStatement"

/-- The `parseReturnStatement` method (source lines 4550–4565). -/
def parseReturnStatementF (r : PRec) (node : Node) : Eff Node := do
  let inF ← inFunction
  let s ← getP
  if !inF && !s.options.allowReturnOutsideFunction then
    (raise s.start (jstr "'return' outside of function") : Eff Unit)
  else pure ()
  next
  let semi ← eat .semi
  let ins ← if semi then pure true else insertSemicolon
  if ins then do
    let node := node.upd (fun f => { f with argument := none })
    finishNode node "ReturnStatement"
  else do
    let arg ← r.parseExpression false none
    let node := node.upd (fun f => { f with argument := some arg })
    semicolon
    finishNode node "ReturnStatement"

/-- The `parseVarId` method (source lines 4822–4829). -/
def parseVarIdF (r : PRec) (decl : Node) (kind : JStr) : Eff Node := do
  let id ← r.parseBindingAtom
  let decl := decl.upd (fun f => { f with id := some id })
  r.checkLValPattern id (if kind = jstr "var" then BIND_VAR else BIND_LEXICAL) none
  pure decl

/-- Declarator loop of `parseVar` (source lines 4792–4818). -/
def parseVarGo (r : PRec) (isFor : Bool) (kind : JStr) :
    Nat → List Node → Eff (List Node)
  | 0, _ => throwE .outOfFuel
  | fuel + 1, acc => do
    let decl ← startNode
    let decl ← r.parseVarId decl kind
    let eq ← eat .eq
    let decl ← (do
      if eq then do
        let init ← r.parseMaybeAssign isFor none false
        pure (decl.upd (fun f => { f with init := some init }))
      else do
        let s ← getP
        let ofCtx ← isContextual "of"
        if kind = jstr "const" &&
            !(s.type = ._in || (s.options.ecmaVersion ≥ 6 && ofCtx)) then
          unexpectedAt none
        else if (decl.f.id.map (fun i => i.f.ty)).getD "" ≠ "Identifier" &&
            !(isFor && (s.type = ._in || ofCtx)) then
          raise s.lastTokEnd (jstr "Complex binding patterns require an initialization value")
        else
          pure (decl.upd (fun f => { f with init := none })))
    let fin ← finishNode decl "VariableDeclarator"
    let acc := acc ++ [fin]
    if ← eat .comma then parseVarGo r isFor kind fuel acc
    else pure acc

/-- The `parseVar` method. -/
def parseVarF (r : PRec) (node : Node) (isFor : Bool) (kind : JStr) : Eff Node := do
  let node := node.upd (fun f => { f with kind := kind })
  let s ← getP
  let decls ← parseVarGo r isFor kind (s.input.length + 2) []
  pure (node.upd (fun f => { f with declarations := decls }))

/-- The `parseVarStatement` method (source lines 4651–4656). -/
def parseVarStatementF (r : PRec) (node : Node) (kind : JStr) : Eff Node := do
  next
  let node ← r.parseVar node false kind
  semicolon
  finishNode node "VariableDeclaration"

/-- Statement loop of `parseBlock`. -/
def parseBlockGo (r : PRec) : Nat → List Node → Eff (List Node)
  | 0, _ => throwE .outOfFuel
  | fuel + 1, acc => do
    let s ← getP
    if s.type ≠ .braceR then do
      let stmt ← r.parseStatement none false
      parseBlockGo r fuel (acc ++ [stmt])
    else pure acc

/-- The `parseBlock` method (source lines 4720–4736). -/
def parseBlockF (r : PRec) (createNewLexicalScope : Bool) (nodeIn : Option Node)
    (exitStrict : Bool) : Eff Node := do
  let node ← (do
    match nodeIn with
    | some n => pure n
    | none => startNode)
  expect .braceL
  if createNewLexicalScope then enterScope 0 else pure ()
  let s ← getP
  let body ← parseBlockGo r (s.input.length + 2) []
  let node := node.upd (fun f => { f with bodyList := body })
  if exitStrict then modifyP (fun s => { s with strict := false }) else pure ()
  next
  if createNewLexicalScope then exitScope else pure ()
  finishNode node "BlockStatement"

/-- The `checkParams` method (source lines 2538–2546). -/
def checkParamsGo (r : PRec) (clash : Option Nat) : List (Option Node) → Eff Unit
  | [] => pure ()
  | some param :: rest => do
    r.checkLValInnerPattern param BIND_VAR clash
    checkParamsGo r clash rest
  | none :: rest => checkParamsGo r clash rest

/-- The `checkParams` method. -/
def checkParams (r : PRec) (node : Node) (allowDuplicates : Bool) : Eff Unit := do
  let clash ← (do
    if allowDuplicates then pure none
    else do
      let c ← newClash
      pure (some c))
  checkParamsGo r clash node.f.params

/-- The `parseFunctionBody` method (source lines 2481–2528). -/
def parseFunctionBodyF (r : PRec) (node : Node) (isArrowFunction isMethod : Bool) :
    Eff Node := do
  let s ← getP
  let isExpression := isArrowFunction && s.type ≠ .braceL
  let oldStrict := s.strict
  let node ← (do
    if isExpression then do
      let body ← r.parseMaybeAssign false none false
      let node := node.upd (fun f => { f with body := some body, expressionB := true })
      checkParams r node false
      pure node
    else do
      let nonSimple := s.options.ecmaVersion ≥ 7 && !isSimpleParamList node.f.params
      let useStrict ← (do
        if !oldStrict || nonSimple then do
          let s2 ← getP
          let u := strictDirective s2.input s2.endPos
          if u && nonSimple then
            (raiseRecoverable node.f.start
              (jstr "Illegal 'use strict' directive in function with non-simple parameter list") : Eff Unit)
          else pure ()
          pure u
        else pure false)
      let s3 ← getP
      let oldLabels := s3.labels
      modifyP (fun s => { s with labels := [] })
      if useStrict then modifyP (fun s => { s with strict := true }) else pure ()
      checkParams r node
        (!oldStrict && !useStrict && !isArrowFunction && !isMethod &&
          isSimpleParamList node.f.params)
      let s4 ← getP
      if s4.strict && node.f.id.isSome then
        match node.f.id with
        | some id => r.checkLValSimple id BIND_OUTSIDE none
        | none => pure ()
      else pure ()
      let block ← r.parseBlock false none (useStrict && !oldStrict)
      let s5 ← getP
      let block := block.upd (fun f =>
        { f with bodyList := adaptDirectivePrologue s5.input f.bodyList })
      let node := node.upd (fun f =>
        { f with body := some block, expressionB := false })
      modifyP (fun s => { s with labels := oldLabels })
      pure node)
  exitScope
  pure node

/-- The `parseFunctionParams` method (source lines 4890–4898). -/
def parseFunctionParamsF (r : PRec) (node : Node) : Eff Node := do
  expect .parenL
  let s ← getP
  let params ← r.parseBindingList .parenR false (s.options.ecmaVersion ≥ 8)
  let node := node.upd (fun f => { f with params := params })
  checkYieldAwaitInDefaultParams
  pure node

/-- The `parseFunction` method (source lines 4835–4888). -/
def parseFunctionF (r : PRec) (node : Node) (statement : Nat)
    (allowExpressionBody isAsync : Bool) : Eff Node := do
  let node ← initFunction node
  let s ← getP
  let node ← (do
    if s.options.ecmaVersion ≥ 9 || (s.options.ecmaVersion ≥ 6 && !isAsync) then do
      if s.type = .star && flagTest statement FUNC_HANGING_STATEMENT then
        (unexpectedAt none : Eff Unit)
      else pure ()
      let gen ← eat .star
      pure (node.upd (fun f => { f with generator := gen }))
    else pure node)
  let node := if s.options.ecmaVersion ≥ 8 then
    node.upd (fun f => { f with async := isAsync }) else node
  let node ← (do
    if flagTest statement FUNC_STATEMENT then do
      let s2 ← getP
      let id ← (do
        if flagTest statement FUNC_NULLABLE_ID && s2.type ≠ .name then pure none
        else do
          let i ← r.parseIdent false
          pure (some i))
      let node := node.upd (fun f => { f with id := id })
      match id with
      | some id =>
        if !flagTest statement FUNC_HANGING_STATEMENT then do
          let s3 ← getP
          let tfv ← treatFunctionsAsVar
          r.checkLValSimple id
            (if s3.strict || node.f.generator || node.f.async then
              (if tfv then BIND_VAR else BIND_LEXICAL)
            else BIND_FUNCTION) none
          pure node
        else pure node
      | none => pure node
    else pure node)
  let s4 ← getP
  let oldYieldPos := s4.yieldPos
  let oldAwaitPos := s4.awaitPos
  let oldAwaitIdentPos := s4.awaitIdentPos
  modifyP (fun s => { s with yieldPos := 0, awaitPos := 0, awaitIdentPos := 0 })
  enterScope (functionFlags node.f.async node.f.generator)
  let node ← (do
    if !flagTest statement FUNC_STATEMENT then do
      let s5 ← getP
      let id ← (do
        if s5.type = .name then do
          let i ← r.parseIdent false
          pure (some i)
        else pure none)
      pure (node.upd (fun f => { f with id := id }))
    else pure node)
  let node ← r.parseFunctionParams node
  let node ← r.parseFunctionBody node allowExpressionBody false
  modifyP (fun s =>
    { s with yieldPos := oldYieldPos, awaitPos := oldAwaitPos,
             awaitIdentPos := oldAwaitIdentPos })
  finishNode node
    (if flagTest statement FUNC_STATEMENT then "FunctionDeclaration" else "FunctionExpression")

/-- The `parseFunctionStatement` method (source lines 4531–4539). -/
def parseFunctionStatementF (r : PRec) (node : Node) (isAsync declarationPosition : Bool) :
    Eff Node := do
  next
  r.parseFunction node
    (FUNC_STATEMENT ||| (if declarationPosition then 0 else FUNC_HANGING_STATEMENT))
    false isAsync

/-- The `parseStatement` method (source lines 4305–4415).  Statement kinds
not needed by the claims are explicit slice boundaries. -/
def parseStatementF (r : PRec) (context : Option String) (topLevel : Bool) : Eff Node := do
  let s ← getP
  let node ← startNode
  let letB ← isLet context
  let starttype := if letB then TokType._var else s.type
  let kind : Option JStr := if letB then some (jstr "let") else none
  match starttype with
  | ._break | ._continue => unsupported "parseBreakContinueStatement"
  | ._debugger => unsupported "parseDebuggerStatement"
  | ._do => unsupported "parseDoStatement"
  | ._for => unsupported "parseForStatement"
  | ._function => do
    if context.isSome && (s.strict || (context ≠ some "if" && context ≠ some "label")) &&
        s.options.ecmaVersion ≥ 6 then
      (unexpectedAt none : Eff Unit)
    else pure ()
    r.parseFunctionStatement node false context.isNone
  | ._class =>
    if context.isSome then unexpectedAt none else unsupported "parseClass"
  | ._if => unsupported "parseIfStatement"
  | ._return => r.parseReturnStatement node
  | ._switch => unsupported "parseSwitchStatement"
  | ._throw => unsupported "parseThrowStatement"
  | ._try => unsupported "parseTryStatement"
  | ._const | ._var => do
    let kind := kind.getD (jsValStr s.value)
    if context.isSome && kind ≠ jstr "var" then (unexpectedAt none : Eff Unit) else pure ()
    r.parseVarStatement node kind
  | ._while => unsupported "parseWhileStatement"
  | ._with => unsupported "parseWithStatement"
  | .braceL => r.parseBlock true (some node) false
  | .semi => parseEmptyStatement node
  | ._export | ._import => do
    if s.options.ecmaVersion > 10 && starttype = ._import then do
      let nextI := skipWhiteSpaceEnd s.input s.pos
      let nextCh := charCodeAt s.input nextI
      if nextCh = some 40 || nextCh = some 46 then do
        let expr ← r.parseExpression false none
        r.parseExpressionStatement node expr
      else parseStatementImportExportTail r node starttype topLevel
    else parseStatementImportExportTail r node starttype topLevel
  | _ => do
    if ← isAsyncFunction then do
      if context.isSome then (unexpectedAt none : Eff Unit) else pure ()
      next
      r.parseFunctionStatement node true context.isNone
    else do
      let maybeName := s.value
      let expr ← r.parseExpression false none
      let colon ← (do
        if starttype = .name && expr.f.ty = "Identifier" then eat .colon else pure false)
      if colon then do
        let _ := maybeName
        unsupported "parseLabeledStatement"
      else r.parseExpressionStatement node expr
where
  parseStatementImportExportTail (r : PRec) (node : Node) (starttype : TokType)
      (topLevel : Bool) : Eff Node := do
    let s ← getP
    if !s.options.allowImportExportEverywhere then do
      if !topLevel then
        (raise s.start (jstr "'import' and 'export' may only appear at the top level") : Eff Unit)
      else pure ()
      let s2 ← getP
      if !s2.inModule then
        (raise s2.start
          (jstr "'import' and 'export' may appear only with 'sourceType: module'") : Eff Unit)
      else pure ()
    else pure ()
    let _ := node
    if starttype = ._import then unsupported "parseImport" else unsupported "parseExport"

/-- Statement loop of `parseTopLevel`. -/
def parseTopLevelGo (r : PRec) : Nat → List Node → Eff (List Node)
  | 0, _ => throwE .outOfFuel
  | fuel + 1, acc => do
    let s ← getP
    if s.type ≠ .eof then do
      let stmt ← r.parseStatement none true
      parseTopLevelGo r fuel (acc ++ [stmt])
    else pure acc

/-- The `parseTopLevel` method (source lines 4238–4255). -/
def parseTopLevelF (r : PRec) (node : Node) : Eff Node := do
  let s ← getP
  let body ← parseTopLevelGo r (s.input.length + 2) node.f.bodyList
  let s2 ← getP
  if s2.inModule then
    match s2.undefinedExports.head? with
    | some (name, pos) =>
      (raiseRecoverable pos (jstr "Export '" ++ name ++ jstr "' is not defined") : Eff Unit)
    | none => pure ()
  else pure ()
  let body := adaptDirectivePrologue s2.input body
  let node := node.upd (fun f => { f with bodyList := body })
  next
  let s3 ← getP
  let node := node.upd (fun f => { f with sourceType := s3.options.sourceType })
  finishNode node "Program"

end Acorn

namespace Acorn

/-- One level of the parser knot. -/
def mkPRec (r : PRec) : PRec :=
  { parseTopLevel := parseTopLevelF r
    parseStatement := parseStatementF r
    parseBlock := parseBlockF r
    parseReturnStatement := parseReturnStatementF r
    parseVarStatement := parseVarStatementF r
    parseVar := parseVarF r
    parseVarId := parseVarIdF r
    parseFunctionStatement := parseFunctionStatementF r
    parseFunction := parseFunctionF r
    parseFunctionParams := parseFunctionParamsF r
    parseFunctionBody := parseFunctionBodyF r
    parseExpressionStatement := parseExpressionStatementF r
    parseExpression := parseExpressionF r
    parseMaybeAssign := parseMaybeAssignF r
    parseMaybeConditional := parseMaybeConditionalF r
    parseExprOps := parseExprOpsF r
    parseExprOp := parseExprOpF r
    parseMaybeUnary := parseMaybeUnaryF r
    parseExprSubscripts := parseExprSubscriptsF r
    parseSubscripts := parseSubscriptsF r
    parseSubscript := parseSubscriptF r
    parseExprAtom := parseExprAtomF r
    parseParenAndDistinguishExpression := parseParenAndDistinguishExpressionF r
    parseParenExpression := parseParenExpressionF r
    parseLiteral := parseLiteralF r
    parseIdent := parseIdentF r
    parseBindingAtom := parseBindingAtomF r
    parseBindingList := parseBindingListF r
    parseMaybeDefault := parseMaybeDefaultF r
    parseRestBinding := parseRestBindingF r
    parseSpread := parseSpreadF r
    parseExprList := parseExprListF r
    toAssignable := toAssignableF r
    toAssignableList := toAssignableListF r
    checkLValSimple := checkLValSimpleF r
    checkLValPattern := checkLValPatternF r
    checkLValInnerPattern := checkLValInnerPatternF r }

/-- The exhausted knot: every entry reports fuel exhaustion. -/
def bottomPRec : PRec :=
  { parseTopLevel := fun _ => throwE .outOfFuel
    parseStatement := fun _ _ => throwE .outOfFuel
    parseBlock := fun _ _ _ => throwE .outOfFuel
    parseReturnStatement := fun _ => throwE .outOfFuel
    parseVarStatement := fun _ _ => throwE .outOfFuel
    parseVar := fun _ _ _ => throwE .outOfFuel
    parseVarId := fun _ _ => throwE .outOfFuel
    parseFunctionStatement := fun _ _ _ => throwE .outOfFuel
    parseFunction := fun _ _ _ _ => throwE .outOfFuel
    parseFunctionParams := fun _ => throwE .outOfFuel
    parseFunctionBody := fun _ _ _ => throwE .outOfFuel
    parseExpressionStatement := fun _ _ => throwE .outOfFuel
    parseExpression := fun _ _ => throwE .outOfFuel
    parseMaybeAssign := fun _ _ _ => throwE .outOfFuel
    parseMaybeConditional := fun _ _ => throwE .outOfFuel
    parseExprOps := fun _ _ => throwE .outOfFuel
    parseExprOp := fun _ _ _ _ => throwE .outOfFuel
    parseMaybeUnary := fun _ _ => throwE .outOfFuel
    parseExprSubscripts := fun _ => throwE .outOfFuel
    parseSubscripts := fun _ _ _ => throwE .outOfFuel
    parseSubscript := fun _ _ _ _ _ => throwE .outOfFuel
    parseExprAtom := fun _ => throwE .outOfFuel
    parseParenAndDistinguishExpression := fun _ => throwE .outOfFuel
    parseParenExpression := throwE .outOfFuel
    parseLiteral := fun _ => throwE .outOfFuel
    parseIdent := fun _ => throwE .outOfFuel
    parseBindingAtom := throwE .outOfFuel
    parseBindingList := fun _ _ _ => throwE .outOfFuel
    parseMaybeDefault := fun _ _ => throwE .outOfFuel
    parseRestBinding := throwE .outOfFuel
    parseSpread := fun _ => throwE .outOfFuel
    parseExprList := fun _ _ _ _ => throwE .outOfFuel
    toAssignable := fun _ _ _ => throwE .outOfFuel
    toAssignableList := fun _ _ => throwE .outOfFuel
    checkLValSimple := fun _ _ _ => throwE .outOfFuel
    checkLValPattern := fun _ _ _ => throwE .outOfFuel
    checkLValInnerPattern := fun _ _ _ => throwE .outOfFuel }

/-- The fueled parser knot. -/
def precAt : Nat → PRec
  | 0 => bottomPRec
  | n + 1 => mkPRec (precAt n)

/-- Knot fuel for a given input (call nesting is bounded by a small multiple
of the input length). -/
def parserFuel (input : JStr) : Nat := 8 * input.length + 64

/-- The `parse` method (source lines 349–353; `options.program` is absent). -/
def parse : Eff Node := do
  let node ← startNode
  nextToken
  let s ← getP
  (precAt (parserFuel s.input)).parseTopLevel node

/-- The static `Parser.parse(input, options)` entry point. -/
def parseProgram (src : String) (options : Options := {}) : Res Node :=
  parse (mkParser options (jstr src))

/-- The static `Parser.parseExpressionAt(input, pos, options)` entry point. -/
def parseExpressionAt (src : String) (pos : Nat) (options : Options := {}) : Res Node :=
  (do
    nextToken
    let s ← getP
    (precAt (parserFuel s.input)).parseExpression false none : Eff Node)
    (mkParser options (jstr src) pos)

end Acorn

namespace Acorn

/-- Readable summary of a literal value (specification side, for stating
theorems). -/
def valSketch : JsVal → String
  | .undef => "undefined"
  | .null => "null"
  | .bool b => toString b
  | .str s => "'" ++ uStr s ++ "'"
  | .num n => toString n
  | .regexRecord p f _ => "re:" ++ uStr p ++ ":" ++ uStr f
  | .regexObj p f => "re:" ++ uStr p ++ ":" ++ uStr f

/-- Readable S-expression summary of an AST node (specification side, for
stating theorems about parse results). -/
def sketch : Nat → Node → String
  | 0, _ => "…"
  | fuel + 1, n =>
    let f := n.f
    let c := fun (o : Option Node) =>
      match o with
      | some x => sketch fuel x
      | none => "null"
    let cs := fun (l : List Node) => String.join (l.map (fun x => " " ++ sketch fuel x))
    let cos := fun (l : List (Option Node)) => String.join (l.map (fun x => " " ++ c x))
    match f.ty with
    | "Identifier" => "(Identifier " ++ uStr f.name ++ ")"
    | "Literal" =>
      "(Literal " ++ valSketch f.value ++
        (match f.regex with
         | some (p, fl) => " regex:" ++ uStr p ++ ":" ++ uStr fl
         | none => "") ++ ")"
    | "BinaryExpression" =>
      "(BinaryExpression " ++ uStr f.operator ++ " " ++ c f.left ++ " " ++ c f.right ++ ")"
    | "LogicalExpression" =>
      "(LogicalExpression " ++ uStr f.operator ++ " " ++ c f.left ++ " " ++ c f.right ++ ")"
    | "AssignmentExpression" =>
      "(AssignmentExpression " ++ uStr f.operator ++ " " ++ c f.left ++ " " ++ c f.right ++ ")"
    | "SequenceExpression" => "(SequenceExpression" ++ cs f.expressions ++ ")"
    | "ExpressionStatement" => "(ExpressionStatement " ++ c f.expression ++ ")"
    | "Program" => "(Program" ++ cs f.bodyList ++ ")"
    | "VariableDeclaration" =>
      "(VariableDeclaration " ++ uStr f.kind ++ cs f.declarations ++ ")"
    | "VariableDeclarator" =>
      "(VariableDeclarator " ++ c f.id ++ " " ++ c f.init ++ ")"
    | "ReturnStatement" => "(ReturnStatement " ++ c f.argument ++ ")"
    | "BlockStatement" => "(BlockStatement" ++ cs f.bodyList ++ ")"
    | "FunctionDeclaration" =>
      "(FunctionDeclaration " ++ c f.id ++ " (params" ++ cos f.params ++ ") " ++ c f.body ++ ")"
    | "FunctionExpression" =>
      "(FunctionExpression " ++ c f.id ++ " (params" ++ cos f.params ++ ") " ++ c f.body ++ ")"
    | "EmptyStatement" => "(EmptyStatement)"
    | "ArrayExpression" => "(ArrayExpression" ++ cos f.elements ++ ")"
    | "MemberExpression" => "(MemberExpression " ++ c f.object ++ " " ++ c f.property ++ ")"
    | "CallExpression" => "(CallExpression " ++ c f.callee ++ cos f.argumentsL ++ ")"
    | other => "(" ++ other ++ ")"

/-- Readable summary of a whole run (specification side). -/
def sketchRes : Res Node → String
  | .ok n _ => "ok " ++ sketch 64 n
  | .err (.jsError msg pos _ _ _) _ => "err " ++ uStr msg ++ " @" ++ toString pos
  | .err (.unsupported w) _ => "unsupported " ++ w
  | .err .outOfFuel _ => "outOfFuel"

end Acorn

namespace Acorn

/-- Whether a run succeeded (specification side). -/
def isOk : Res Node → Bool
  | .ok _ _ => true
  | .err _ _ => false

/-- The raised message of a failed run, if any (specification side). -/
def errMsg {α : Type} : Res α → Option JStr
  | .err (.jsError m _ _ _ _) _ => some m
  | _ => none

/-- The raised position of a failed run, if any (specification side). -/
def errPos {α : Type} : Res α → Option Nat
  | .err (.jsError _ p _ _ _) _ => some p
  | _ => none

/-- Node type of the `right` child of a successful expression parse
(specification side, for the associativity claim). -/
def okRightTy : Res Node → String
  | .ok n _ => (n.f.right.map (fun x => x.f.ty)).getD "-"
  | .err _ _ => "-"

/-- Final context-stack and scope-stack lengths of a successful run
(specification side). -/
def okStackLens : Res Node → Option (Nat × Nat)
  | .ok _ s => some (s.context.length, s.scopeStack.length)
  | .err _ _ => none

/-- The parser state after reading the first token of `"a b"` — its current
token is the name `a` spanning offsets 0–1 (specification side, a concrete
state for the `getToken` claim). -/
def afterFirstTok : P :=
  match nextToken (mkParser {} (jstr "a b")) with
  | .ok _ s => s
  | .err _ s => s

/-- Integer value of a decimal-digit string as accumulated by
`regexp_eatDecimalDigits` (specification side). -/
def digitsVal (d : JStr) : Int := d.foldl (fun a c => 10 * a + ((c : Int) - 48)) 0

/-- Decimal digit test on a code unit (specification side). -/
def isDigitU (c : Nat) : Bool := 48 ≤ c && c ≤ 57

end Acorn

namespace Acorn

/-- The returned token of a `getToken` run, if it succeeded (specification
side). -/
def okTok : Res TokenR → Option TokenR
  | .ok t _ => some t
  | .err _ _ => none

/-- The current token type of the post-state of a tokenizer step, if the step
succeeded (specification side). -/
def okTypeOf : Res Unit → Option TokType
  | .ok _ s => some s.type
  | .err _ _ => none

/-- The innermost scope's `lexical` list in the state carried by a failed run
(specification side, for the mutate-before-raise claim). -/
def errScopeLex : Res Node → Option (List JStr)
  | .err _ s => s.scopeStack.head?.map ScopeR.lexical
  | .ok _ _ => none

/-- A parser state whose top-level scope already holds a lexical `x`
(specification side, a concrete state for the redeclaration claims). -/
def dupState : P :=
  { mkParser {} [] with scopeStack := [{ flags := SCOPE_TOP, lexical := [jstr "x"] }] }

/-- A parser state carrying a regexp-validator state over the pattern
`a\x7b3,2\x7d` (specification side, a concrete state for the braced-quantifier
claim). -/
def rsDemo : P :=
  { mkParser {} [] with
      regexpState := some { source := jstr "a\x7b3,2\x7d", pos := 1, start := 1 } }

/-- Like `rsDemo` with the in-order pattern `a\x7b2,3\x7d`. -/
def rsDemoB : P :=
  { mkParser {} [] with
      regexpState := some { source := jstr "a\x7b2,3\x7d", pos := 1, start := 1 } }

/-- Like `rsDemo` with the exact-count pattern `a\x7b3\x7d`. -/
def rsDemoC : P :=
  { mkParser {} [] with
      regexpState := some { source := jstr "a\x7b3\x7d", pos := 1, start := 1 } }

/-- Like `rsDemo` with the lower-bound-only pattern `a\x7b3,\x7d`. -/
def rsDemoD : P :=
  { mkParser {} [] with
      regexpState := some { source := jstr "a\x7b3,\x7d", pos := 1, start := 1 } }

end Acorn

namespace Acorn

/-! ### Run lemmas for the effect monad -/

theorem run_bind {α β : Type} (m : Eff α) (k : α → Eff β) (s : P) :
    (m >>= k) s =
      match m s with
      | .ok a s' => k a s'
      | .err e s' => .err e s' := rfl

theorem run_pure {α : Type} (a : α) (s : P) : (pure a : Eff α) s = .ok a s := rfl

theorem run_getP (s : P) : getP s = .ok s s := rfl

theorem run_setP (s t : P) : setP t s = .ok () t := rfl

theorem run_modifyP (f : P → P) (s : P) : modifyP f s = .ok () (f s) := rfl

theorem run_throwE {α : Type} (e : Err) (s : P) : (throwE e : Eff α) s = .err e s := rfl

/-- Inversion of a successful bind: the first computation succeeded and the
continuation ran from its post-state. -/
theorem bind_ok {α β : Type} {m : Eff α} {k : α → Eff β} {s : P} {b : β} {s2 : P}
    (h : (m >>= k) s = .ok b s2) :
    ∃ a s1, m s = .ok a s1 ∧ k a s1 = .ok b s2 := by
  rw [run_bind] at h
  cases hm : m s with
  | ok a s1 => rw [hm] at h; exact ⟨a, s1, rfl, h⟩
  | err e s1 => rw [hm] at h; cases h

/-- Claim C2, counterexample: parsing `a/b/g` as an expression yields a
BinaryExpression whose right operand is the identifier `g` itself, not the
claimed nested BinaryExpression dividing `b` by `g`. -/
theorem claim_C2_counterexample :
    okRightTy (parseExpressionAt "a/b/g" 0) = "Identifier" := by decide!

/-- Claim C2 (amended): parsing `a/b/g` as an expression produces divisions,
not a regexp — `exprAllowed` is false after `a` — but `/` is left-associative,
so the result is the left-nested shape
BinaryExpression(/, BinaryExpression(/, a, b), g), not the right-nested shape
the claim states. -/
theorem claim_C2 :
    sketchRes (parseExpressionAt "a/b/g" 0) =
      "ok (BinaryExpression / (BinaryExpression / (Identifier a) (Identifier b)) (Identifier g))" := by
  decide!

/-- Claim C8, counterexample: parsing `(a,b=1)` as a complete program
succeeds — it is not a syntax error. -/
theorem claim_C8_counterexample : isOk (parseProgram "(a,b=1)") = true := by decide!

/-- Claim C8 (amended): `(a,b=1)` alone is a valid program: a parenthesized
sequence expression whose second element is the assignment `b = 1`
(`checkExpressionErrors` only raises the shorthand-assign error when the
parenthesized expression must be reinterpreted as a pattern, e.g. as arrow
parameters, which does not happen here). -/
theorem claim_C8 :
    sketchRes (parseProgram "(a,b=1)") =
      "ok (Program (ExpressionStatement (SequenceExpression (Identifier a) (AssignmentExpression = (Identifier b) (Literal 1)))))" := by
  decide!

/-- Claim C3, counterexample: in the state reached after reading the first
token of `a b` the current token is the name `a` spanning offsets 0–1, yet
`getToken` returns a token starting at offset 2 (the `b`): the returned token
is not a copy of the token current at the moment of the call. -/
theorem claim_C3_counterexample :
    afterFirstTok.type = TokType.name ∧
    afterFirstTok.start = 0 ∧ afterFirstTok.endPos = 1 ∧
    okTok (getToken afterFirstTok) ≠ some (TokenR.ofP afterFirstTok) ∧
    (okTok (getToken afterFirstTok)).map TokenR.start = some 2 := by decide!

/-- Claim C3 (amended): `getToken` first advances (running `next`, which
moves to the following token) and only then snapshots the parser into a
`Token`: it returns a copy of the token that is current AFTER the advance,
not the token current at the moment of the call. -/
theorem claim_C3 (s : P) :
    getToken s =
      match next false s with
      | .ok _ s2 => .ok (TokenR.ofP s2) s2
      | .err e s2 => .err e s2 := by
  unfold getToken
  rw [run_bind]
  cases hn : next false s with
  | ok a s2 => rfl
  | err e s2 => rfl

/-- Claim C4: `canInsertSemicolon` is true exactly at `eof`, before `}`, or
when a line break separates the previous token's end from the current token's
start; consequently `return` followed by a newline inside a function body
yields a ReturnStatement with a null argument, and the `1` on the next line
becomes its own expression statement. -/
theorem claim_C4 :
    (∀ s : P, canInsertSemicolon s =
        .ok (s.type = TokType.eof || s.type = TokType.braceR ||
             lineBreakTest (jslice s.input s.lastTokEnd s.start)) s) ∧
    sketchRes (parseProgram "function f()\x7breturn\n1\x7d") =
      "ok (Program (FunctionDeclaration (Identifier f) (params) (BlockStatement (ReturnStatement null) (ExpressionStatement (Literal 1)))))" :=
  ⟨fun s => rfl, by decide!⟩

end Acorn

namespace Acorn

/-- Redeclaration run of `declareName` for a lexical binding: with the name
already in the innermost scope's `lexical`, `functions` or `var` list, the
run throws the formatted redeclaration error — and the post-error state has
the duplicate name appended to the scope's `lexical` list (the push happens
before the check result is acted on). -/
theorem declareName_lexical_dup (s : P) (sc : ScopeR) (rest : List ScopeR)
    (name : JStr) (pos : Nat)
    (hs : s.scopeStack = sc :: rest)
    (hre : (sc.lexical.contains name || sc.functions.contains name ||
            sc.var.contains name) = true) :
    ∃ s2 : P,
      declareName name BIND_LEXICAL pos s =
        .err (.jsError
          (jstr "Identifier '" ++ name ++ jstr "' has already been declared" ++
           jstr " (" ++ natStr (getLineInfo s.input pos).1 ++ jstr ":" ++
           natStr (getLineInfo s.input pos).2 ++ jstr ")")
          pos (getLineInfo s.input pos).1 (getLineInfo s.input pos).2 s.pos) s2 ∧
      s2.scopeStack = { sc with lexical := sc.lexical ++ [name] } :: rest := by
  by_cases hmod : (s.inModule && flagTest sc.flags SCOPE_TOP) = true
  · unfold declareName
    simp only [run_bind, run_getP, run_modifyP, run_pure, currentScope, modifyCurrentScope,
      raiseRecoverable, raise, run_throwE, hs, hre, hmod, List.head?_cons, if_true,
      eq_self_iff_true, Bool.true_eq_false, if_false]
    exact ⟨_, rfl, rfl⟩
  · unfold declareName
    simp only [run_bind, run_getP, run_modifyP, run_pure, currentScope, modifyCurrentScope,
      raiseRecoverable, raise, run_throwE, hs, hre, hmod, List.head?_cons, if_true,
      eq_self_iff_true, Bool.true_eq_false, if_false]
    exact ⟨_, rfl, rfl⟩

/-- Redeclaration run of `declareName` for a function binding: the duplicate
name is appended to the scope's `functions` list before the error is
thrown. -/
theorem declareName_function_dup (s : P) (sc : ScopeR) (rest : List ScopeR)
    (name : JStr) (pos : Nat)
    (hs : s.scopeStack = sc :: rest)
    (hre : (if treatFunctionsAsVarInScope s.inModule sc then sc.lexical.contains name
            else sc.lexical.contains name || sc.var.contains name) = true) :
    ∃ s2 : P,
      declareName name BIND_FUNCTION pos s =
        .err (.jsError
          (jstr "Identifier '" ++ name ++ jstr "' has already been declared" ++
           jstr " (" ++ natStr (getLineInfo s.input pos).1 ++ jstr ":" ++
           natStr (getLineInfo s.input pos).2 ++ jstr ")")
          pos (getLineInfo s.input pos).1 (getLineInfo s.input pos).2 s.pos) s2 ∧
      s2.scopeStack = { sc with functions := sc.functions ++ [name] } :: rest := by
  have h1 : (BIND_FUNCTION = BIND_LEXICAL) = False := by
    simp [BIND_FUNCTION, BIND_LEXICAL]
  have h2 : (BIND_FUNCTION = BIND_SIMPLE_CATCH) = False := by
    simp [BIND_FUNCTION, BIND_SIMPLE_CATCH]
  have h3 : (BIND_FUNCTION = BIND_FUNCTION) = True := by simp
  unfold declareName
  simp only [run_bind, run_getP, run_modifyP, run_pure, currentScope, modifyCurrentScope,
    treatFunctionsAsVar, raiseRecoverable, raise, run_throwE, hs, hre, h1, h2, h3,
    List.head?_cons, if_true, if_false]
  exact ⟨_, rfl, rfl⟩

/-- Claim C5: a lexical declaration of a name already present in the same
scope's `lexical`, `functions` or `var` list makes `declareName` raise
"Identifier '<name>' has already been declared" positioned at the
declaration's own offset; concretely, `let x = 1; let x = 2;` at top level
fails with that error at offset 15, the second `x`. -/
theorem claim_C5 :
    (∀ (s : P) (sc : ScopeR) (rest : List ScopeR) (name : JStr) (pos : Nat),
       s.scopeStack = sc :: rest →
       (sc.lexical.contains name || sc.functions.contains name ||
        sc.var.contains name) = true →
       errMsg (declareName name BIND_LEXICAL pos s) =
         some (jstr "Identifier '" ++ name ++ jstr "' has already been declared" ++
               jstr " (" ++ natStr (getLineInfo s.input pos).1 ++ jstr ":" ++
               natStr (getLineInfo s.input pos).2 ++ jstr ")") ∧
       errPos (declareName name BIND_LEXICAL pos s) = some pos) ∧
    sketchRes (parseProgram "let x = 1; let x = 2;") =
      "err Identifier 'x' has already been declared (1:15) @15" := by
  constructor
  · intro s sc rest name pos hs hre
    obtain ⟨s2, hrun, -⟩ := declareName_lexical_dup s sc rest name pos hs hre
    rw [hrun]
    exact ⟨rfl, rfl⟩
  · decide!

/-- Witness for claim C5 at a concrete duplicate state. -/
theorem claim_C5_witness :
    (errMsg (declareName (jstr "x") BIND_LEXICAL 5 dupState) =
       some (jstr "Identifier '" ++ jstr "x" ++ jstr "' has already been declared" ++
             jstr " (" ++ natStr (getLineInfo dupState.input 5).1 ++ jstr ":" ++
             natStr (getLineInfo dupState.input 5).2 ++ jstr ")") ∧
     errPos (declareName (jstr "x") BIND_LEXICAL 5 dupState) = some 5) :=
  claim_C5.1 dupState { flags := SCOPE_TOP, lexical := [jstr "x"] } [] (jstr "x") 5
    rfl (by decide)

/-- Claim C10: `declareName` mutates the scope before raising — on the
lexical path the duplicate name is appended to the innermost scope's
`lexical` list, and on the function path to its `functions` list, before the
redeclaration error is thrown, so the error-carrying state records the
duplicate (the operation is not atomic on error); concretely, the failed run
of `let x = 1; let x = 2;` leaves `x` twice in the top scope's lexical
list. -/
theorem claim_C10 :
    (∀ (s : P) (sc : ScopeR) (rest : List ScopeR) (name : JStr) (pos : Nat),
       s.scopeStack = sc :: rest →
       (sc.lexical.contains name || sc.functions.contains name ||
        sc.var.contains name) = true →
       ∃ e s2, declareName name BIND_LEXICAL pos s = .err e s2 ∧
         s2.scopeStack = { sc with lexical := sc.lexical ++ [name] } :: rest) ∧
    (∀ (s : P) (sc : ScopeR) (rest : List ScopeR) (name : JStr) (pos : Nat),
       s.scopeStack = sc :: rest →
       (if treatFunctionsAsVarInScope s.inModule sc then sc.lexical.contains name
        else sc.lexical.contains name || sc.var.contains name) = true →
       ∃ e s2, declareName name BIND_FUNCTION pos s = .err e s2 ∧
         s2.scopeStack = { sc with functions := sc.functions ++ [name] } :: rest) ∧
    errScopeLex (parseProgram "let x = 1; let x = 2;") = some [jstr "x", jstr "x"] := by
  refine ⟨?_, ?_, by decide!⟩
  · intro s sc rest name pos hs hre
    obtain ⟨s2, hrun, hsc⟩ := declareName_lexical_dup s sc rest name pos hs hre
    exact ⟨_, s2, hrun, hsc⟩
  · intro s sc rest name pos hs hre
    obtain ⟨s2, hrun, hsc⟩ := declareName_function_dup s sc rest name pos hs hre
    exact ⟨_, s2, hrun, hsc⟩

/-- Witness for claim C10 at a concrete duplicate state. -/
theorem claim_C10_witness :
    (∃ e s2, declareName (jstr "x") BIND_LEXICAL 5 dupState = .err e s2 ∧
       s2.scopeStack =
         ({ flags := SCOPE_TOP, lexical := [jstr "x"] ++ [jstr "x"] } : ScopeR) :: []) ∧
    (∃ e s2, declareName (jstr "x") BIND_FUNCTION 5 dupState = .err e s2 ∧
       s2.scopeStack =
         ({ flags := SCOPE_TOP, lexical := [jstr "x"],
            functions := [] ++ [jstr "x"] } : ScopeR) :: []) :=
  ⟨claim_C10.1 dupState { flags := SCOPE_TOP, lexical := [jstr "x"] } [] (jstr "x") 5
     rfl (by decide),
   claim_C10.2.1 dupState { flags := SCOPE_TOP, lexical := [jstr "x"] } [] (jstr "x") 5
     rfl (by decide)⟩

end Acorn

namespace Acorn

/-- With the cursor at or past the end of the input, one `skipSpace` loop
step returns immediately without touching the state. -/
theorem skipSpaceGo_end (n : Nat) (s : P) (h : s.input.length ≤ s.pos) :
    skipSpaceGo (n + 1) s = .ok () s := by
  unfold skipSpaceGo
  simp only [run_bind, run_getP, run_pure, if_neg (Nat.not_lt.mpr h)]

/-- `updateContext` for a token type with no keyword and no `updateContext`
function of its own only sets `exprAllowed` to the type's `beforeExpr`. -/
theorem updateContext_plain (prevType : TokType) (s : P)
    (hk : (tprops s.type).keyword.isSome = false)
    (hu : hasUpdateContext s.type = false) :
    updateContext prevType s = .ok () { s with exprAllowed := (tprops s.type).beforeExpr } := by
  unfold updateContext
  simp only [run_bind, run_getP, run_modifyP, hk, hu, Bool.false_and, Bool.false_eq_true,
    if_false]

/-- `finishToken` for a token type with no keyword and no `updateContext`
function: set `end`, the token type and value, and the `beforeExpr` flag. -/
theorem finishToken_plain (t : TokType) (v : JsVal) (s : P)
    (hk : (tprops t).keyword.isSome = false)
    (hu : hasUpdateContext t = false) :
    finishToken t v s =
      .ok () { s with endPos := s.pos, type := t, value := v,
                      exprAllowed := (tprops t).beforeExpr } := by
  unfold finishToken
  simp only [run_bind, run_getP, run_modifyP, run_setP]
  exact updateContext_plain _ _ hk hu

/-- `nextToken` with the cursor at or past the end of the input finishes an
`eof` token whose `start` and `end` both equal the cursor position, leaving
the cursor itself unchanged. -/
theorem nextToken_atEnd (s : P) (h : s.input.length ≤ s.pos) :
    nextToken s = .ok () { s with start := s.pos, endPos := s.pos,
                                  type := TokType.eof, value := JsVal.undef,
                                  exprAllowed := false } := by
  have htr : trecAt (s.input.length + 2) = ⟨nextTokenF (trecAt (s.input.length + 1))⟩ := rfl
  show (trecAt (s.input.length + 2)).nextToken s = _
  rw [htr]
  show nextTokenF (trecAt (s.input.length + 1)) s = _
  unfold nextTokenF
  by_cases hc : (s.context.head?.isNone || !(s.context.head?.elim false Ctx.preserveSpace)) = true
  · simp only [run_bind, run_getP, run_modifyP, run_pure, curContext, hc, if_true,
      skipSpace, skipSpaceGo_end _ _ h, if_pos h, ge_iff_le]
    exact finishToken_plain .eof .undef _ rfl rfl
  · simp only [run_bind, run_getP, run_modifyP, run_pure, curContext, hc, if_false,
      Bool.false_eq_true, if_pos h, ge_iff_le]
    exact finishToken_plain .eof .undef _ rfl rfl

/-- Claim C9: with the cursor at or past the end of the input, `nextToken`
finishes an `eof` token with `start = end = pos` and leaves the cursor
unchanged; the resulting state is absorbing — running `nextToken` again
returns the same state, so tokenization terminates in this `eof` state. -/
theorem claim_C9 :
    (∀ s : P, s.input.length ≤ s.pos →
       nextToken s = .ok () { s with start := s.pos, endPos := s.pos,
                                     type := TokType.eof, value := JsVal.undef,
                                     exprAllowed := false }) ∧
    (∀ s : P, s.input.length ≤ s.pos →
       ∃ s2, nextToken s = .ok () s2 ∧ s2.pos = s.pos ∧ s2.start = s.pos ∧
         s2.endPos = s.pos ∧ s2.type = TokType.eof ∧ nextToken s2 = .ok () s2) := by
  refine ⟨nextToken_atEnd, fun s h => ?_⟩
  refine ⟨_, nextToken_atEnd s h, rfl, rfl, rfl, rfl, ?_⟩
  exact nextToken_atEnd
    { s with
        start := s.pos
        endPos := s.pos
        type := TokType.eof
        value := JsVal.undef
        exprAllowed := false } h

/-- Witness for claim C9 at the empty input. -/
theorem claim_C9_witness :
    (nextToken (mkParser {} []) =
       .ok () { mkParser {} [] with
                  start := (mkParser {} [] : P).pos
                  endPos := (mkParser {} [] : P).pos
                  type := TokType.eof
                  value := JsVal.undef
                  exprAllowed := false }) ∧
    (∃ s2, nextToken (mkParser {} []) = .ok () s2 ∧ s2.pos = (mkParser {} [] : P).pos ∧
       s2.start = (mkParser {} [] : P).pos ∧ s2.endPos = (mkParser {} [] : P).pos ∧
       s2.type = TokType.eof ∧ nextToken s2 = .ok () s2) :=
  ⟨claim_C9.1 (mkParser {} []) (by decide), claim_C9.2 (mkParser {} []) (by decide)⟩

end Acorn

namespace Acorn

/-- Inversion of a run of an `if` statement. -/
theorem ite_ok {α : Type} {c : Prop} [Decidable c] {A B : Eff α} {s : P} {b : α} {s2 : P}
    (h : (if c then A else B) s = .ok b s2) :
    A s = .ok b s2 ∨ B s = .ok b s2 := by
  split at h
  · exact Or.inl h
  · exact Or.inr h

/-- Every successful `readRegexp` run leaves the current token type at
`regexp`: the scanner ends in `finishToken(tt.regexp, …)`. -/
theorem readRegexp_ok_type (s : P) (r : Unit) (s2 : P) (h : readRegexp s = .ok r s2) :
    s2.type = TokType.regexp := by
  unfold readRegexp at h
  simp only [run_bind, run_getP, run_modifyP, run_setP, run_pure] at h
  iterate 8
    all_goals try split at h
    all_goals try simp only [run_bind, run_getP, run_modifyP, run_setP, run_pure] at h
  all_goals
    first
    | (rw [finishToken_plain .regexp _ _ rfl rfl] at h; cases h; rfl)
    | (cases h)

/-- `finishOp`: advance by the operator's size and finish the token with the
consumed slice as its value. -/
theorem finishOp_run (t : TokType) (size : Nat) (s : P)
    (hk : (tprops t).keyword.isSome = false)
    (hu : hasUpdateContext t = false) :
    finishOp t size s =
      .ok () { s with pos := s.pos + size, endPos := s.pos + size, type := t,
                      value := .str (jslice s.input s.pos (s.pos + size)),
                      exprAllowed := (tprops t).beforeExpr } := by
  unfold finishOp
  simp only [run_bind, run_getP, run_modifyP]
  exact finishToken_plain t _ _ hk hu

/-- A successful `readRegexp` run emits a token of type `regexp`. -/
theorem okTypeOf_regexp {st : P} {t : TokType}
    (h : okTypeOf (readRegexp st) = some t) : t = TokType.regexp := by
  cases hr : readRegexp st with
  | ok a s2 =>
    rw [hr] at h
    cases h
    exact readRegexp_ok_type st a s2 hr
  | err e s2 => rw [hr] at h; cases h

/-- Claim C1: at a `/` in token-start position the tokenizer emits a
regular-expression literal exactly when `exprAllowed` is true — with
`exprAllowed` set, any token `readToken_slash` finishes is a `regexp` token,
and with it clear the emitted token is `/=` (division-assignment) when the
next character is `=` and `/` (division) otherwise; concretely, `"/a/g"`
parsed as an expression is a Literal whose regex has pattern `a` and flags
`g`. -/
theorem claim_C1 :
    (∀ s : P, s.exprAllowed = true → ∀ t, okTypeOf (readToken_slash s) = some t →
       t = TokType.regexp) ∧
    (∀ s : P, s.exprAllowed = false →
       okTypeOf (readToken_slash s) =
         some (if charCodeAt s.input (s.pos + 1) = some 61 then TokType.assign
               else TokType.slash)) ∧
    sketchRes (parseExpressionAt "/a/g" 0) = "ok (Literal re:a:g regex:a:g)" := by
  refine ⟨?_, ?_, by decide!⟩
  · intro s he t ht
    unfold readToken_slash at ht
    simp only [run_bind, run_getP, run_modifyP, he, if_true] at ht
    exact okTypeOf_regexp ht
  · intro s he
    unfold readToken_slash
    by_cases hn : charCodeAt s.input (s.pos + 1) = some 61
    · simp only [run_bind, run_getP, run_modifyP, he, Bool.false_eq_true, if_false,
        if_pos hn, finishOp_run .assign 2 _ rfl rfl, okTypeOf]
    · simp only [run_bind, run_getP, run_modifyP, he, Bool.false_eq_true, if_false,
        if_neg hn, finishOp_run .slash 1 _ rfl rfl, okTypeOf]

/-- Witness for claim C1: the regexp side at the start of `"/a/g"`, the
division side on `"/="` with `exprAllowed` cleared. -/
theorem claim_C1_witness :
    (TokType.regexp = TokType.regexp) ∧
    (okTypeOf (readToken_slash { mkParser {} (jstr "/=") with exprAllowed := false }) =
       some (if charCodeAt ({ mkParser {} (jstr "/=") with exprAllowed := false } : P).input
                  (({ mkParser {} (jstr "/=") with exprAllowed := false } : P).pos + 1) =
                some 61
             then TokType.assign else TokType.slash)) :=
  ⟨claim_C1.1 (mkParser {} (jstr "/a/g")) rfl TokType.regexp (by decide),
   claim_C1.2.1 { mkParser {} (jstr "/=") with exprAllowed := false } rfl⟩

end Acorn

namespace Acorn

theorem charCodeAt_of_drop {l : JStr} {n a : Nat} {t : JStr}
    (h : l.drop n = a :: t) : charCodeAt l n = some a := by
  unfold charCodeAt
  have h2 : l.get? (n + 0) = (l.drop n).get? 0 := (List.get?_drop l n 0).symm
  rw [h] at h2
  simpa using h2

theorem drop_succ_of_drop {l : JStr} {n a : Nat} {t : JStr}
    (h : l.drop n = a :: t) : l.drop (n + 1) = t := by
  rw [← List.drop_drop 1 n l, h]
  rfl

theorem drop_append_of_drop {l : JStr} :
    ∀ (d : JStr) (n : Nat) (t : JStr), l.drop n = d ++ t → l.drop (n + d.length) = t
  | [], n, t, h => by simpa using h
  | a :: d, n, t, h => by
    have h1 : l.drop (n + 1) = d ++ t := drop_succ_of_drop (by simpa using h)
    have h2 := drop_append_of_drop d (n + 1) t h1
    rw [show n + (a :: d).length = n + 1 + d.length by simp; omega]
    exact h2

theorem takeWhile_append_not (p : Nat → Bool) :
    ∀ (d : JStr) (sep : Nat) (rest : JStr), (∀ x ∈ d, p x = true) → p sep = false →
      (d ++ sep :: rest).takeWhile p = d
  | [], sep, rest, _, hsep => by simp [List.takeWhile_cons, hsep]
  | a :: d, sep, rest, hall, hsep => by
    simp only [List.cons_append, List.takeWhile_cons, hall a (by simp), if_true,
      List.cons.injEq, true_and]
    exact takeWhile_append_not p d sep rest (fun x hx => hall x (by simp [hx])) hsep

theorem digitsVal_nonneg_aux :
    ∀ (d : JStr) (a : Int), 0 ≤ a → (∀ x ∈ d, isDigitU x = true) →
      0 ≤ d.foldl (fun a c => 10 * a + ((c : Int) - 48)) a
  | [], a, ha, _ => ha
  | x :: d, a, ha, hd => by
    have hx : 48 ≤ x ∧ x ≤ 57 := by simpa [isDigitU] using hd x (by simp)
    have hx48 : (48 : Int) ≤ (x : Int) := by exact_mod_cast hx.1
    refine digitsVal_nonneg_aux d (10 * a + ((x : Int) - 48)) ?_
      (fun y hy => hd y (by simp [hy]))
    omega

theorem digitsVal_nonneg (d : JStr) (hd : ∀ x ∈ d, isDigitU x = true) :
    0 ≤ digitsVal d :=
  digitsVal_nonneg_aux d 0 le_rfl hd

theorem isPrefixOf_append (l t : JStr) : l.isPrefixOf (l ++ t) = true := by
  induction l with
  | nil => simp [List.isPrefixOf]
  | cons a l ih => simp [List.isPrefixOf, ih]

end Acorn

namespace Acorn

theorem run_getRS (s : P) (st : RState) (h : s.regexpState = some st) :
    getRS s = .ok st s := by
  unfold getRS
  rw [h]

theorem rstAt_ascii (st : RState) (i c : Nat)
    (h : charCodeAt st.source i = some c) (hc : c ≤ 0xD7FF) :
    ∀ u, rstAt st i u = (c : Int) := by
  intro u
  have hlt : ¬ i ≥ st.source.length := by
    intro hge
    rw [show charCodeAt st.source i = none from List.get?_eq_none.mpr hge] at h
    cases h
  unfold rstAt
  simp only [h, hlt, if_false, decide_eq_true hc, Bool.or_true, Bool.true_or, if_true]

theorem rstNextIndex_ascii (st : RState) (i c : Nat)
    (h : charCodeAt st.source i = some c) (hc : c ≤ 0xD7FF) :
    ∀ u, rstNextIndex st i u = i + 1 := by
  intro u
  have hlt : ¬ i ≥ st.source.length := by
    intro hge
    rw [show charCodeAt st.source i = none from List.get?_eq_none.mpr hge] at h
    cases h
  unfold rstNextIndex
  cases h2 : charCodeAt st.source (i + 1) with
  | some next =>
    simp only [h, h2, hlt, if_false, decide_eq_true hc, Bool.or_true, Bool.true_or, if_true]
  | none => simp only [h, h2, hlt, if_false]

theorem reg_eat_yes (s : P) (st : RState) (c : Nat) (ch : Int) (u : Bool)
    (hrs : s.regexpState = some st)
    (h : charCodeAt st.source st.pos = some c) (hc : c ≤ 0xD7FF)
    (hch : (c : Int) = ch) :
    reg_eat ch u s = .ok true { s with regexpState := some { st with pos := st.pos + 1 } } := by
  unfold reg_eat reg_current reg_advance modRS
  simp only [run_bind, run_getP, run_modifyP, run_pure, run_getRS s st hrs,
    rstAt_ascii st st.pos c h hc, rstNextIndex_ascii st st.pos c h hc, hch, hrs,
    Option.map_some', eq_self_iff_true, if_true]

theorem reg_eat_no (s : P) (st : RState) (ch : Int) (u : Bool)
    (hrs : s.regexpState = some st)
    (h : rstAt st st.pos u ≠ ch) :
    reg_eat ch u s = .ok false s := by
  unfold reg_eat reg_current
  simp only [run_bind, run_getP, run_pure, run_getRS s st hrs, if_neg h]

theorem eatDecimalDigits_run (s : P) (st : RState) (d : JStr) (sep : Nat) (rest : JStr)
    (hrs : s.regexpState = some st)
    (hdrop : st.source.drop st.pos = d ++ sep :: rest)
    (hd : ∀ x ∈ d, isDigitU x = true) (hsep : isDigitU sep = false) :
    regexp_eatDecimalDigits s =
      .ok (decide (d.length ≠ 0))
        { s with regexpState := some { st with lastIntValue := digitsVal d,
                                               pos := st.pos + d.length } } := by
  have htw : (st.source.drop st.pos).takeWhile (fun c => 48 ≤ c && c ≤ 57) = d := by
    rw [hdrop]
    exact takeWhile_append_not _ d sep rest
      (fun x hx => by simpa [isDigitU] using hd x hx)
      (by simpa [isDigitU] using hsep)
  unfold regexp_eatDecimalDigits modRS
  simp only [run_bind, run_getP, run_modifyP, run_pure, run_getRS s st hrs, htw, hrs,
    Option.map_some']
  rfl

theorem reg_raise_run (α : Type) (s : P) (st : RState) (msg : String)
    (hrs : s.regexpState = some st) :
    (reg_raise msg : Eff α) s =
      .err (.jsError
        (jstr "Invalid regular expression: /" ++ st.source ++ jstr "/: " ++ jstr msg ++
         jstr " (" ++ natStr (getLineInfo s.input st.start).1 ++ jstr ":" ++
         natStr (getLineInfo s.input st.start).2 ++ jstr ")")
        st.start (getLineInfo s.input st.start).1 (getLineInfo s.input st.start).2 s.pos)
      s := by
  unfold reg_raise raiseRecoverable raise
  simp only [run_bind, run_getP, run_throwE, run_getRS s st hrs]

end Acorn

namespace Acorn

theorem ebq_out_of_order (s : P) (st : RState) (d1 d2 rest : JStr)
    (hrs : s.regexpState = some st)
    (hdrop : st.source.drop st.pos = 0x7b :: (d1 ++ 0x2c :: (d2 ++ 0x7d :: rest)))
    (hd1 : ∀ x ∈ d1, isDigitU x = true) (hd2 : ∀ x ∈ d2, isDigitU x = true)
    (hne1 : d1 ≠ []) (hne2 : d2 ≠ [])
    (hlt : digitsVal d2 < digitsVal d1) :
    regexp_eatBracedQuantifier false s =
      .err (.jsError
        (jstr "Invalid regular expression: /" ++ st.source ++ jstr "/: " ++
         jstr "numbers out of order in \x7b\x7d quantifier" ++ jstr " (" ++
         natStr (getLineInfo s.input st.start).1 ++ jstr ":" ++
         natStr (getLineInfo s.input st.start).2 ++ jstr ")")
        st.start (getLineInfo s.input st.start).1 (getLineInfo s.input st.start).2 s.pos)
      { s with regexpState := some { st with
          lastIntValue := digitsVal d2
          pos := st.pos + 1 + d1.length + 1 + d2.length + 1 } } := by
  have h0 : charCodeAt st.source st.pos = some 0x7b := charCodeAt_of_drop hdrop
  have h1 : st.source.drop (st.pos + 1) = d1 ++ 0x2c :: (d2 ++ 0x7d :: rest) :=
    drop_succ_of_drop hdrop
  have h2 : st.source.drop (st.pos + 1 + d1.length) = 0x2c :: (d2 ++ 0x7d :: rest) :=
    drop_append_of_drop d1 _ _ h1
  have h3 : st.source.drop (st.pos + 1 + d1.length + 1) = d2 ++ 0x7d :: rest :=
    drop_succ_of_drop h2
  have h4 : st.source.drop (st.pos + 1 + d1.length + 1 + d2.length) = 0x7d :: rest :=
    drop_append_of_drop d2 _ _ h3
  have hc1 : charCodeAt st.source (st.pos + 1 + d1.length) = some 0x2c :=
    charCodeAt_of_drop h2
  have hc2 : charCodeAt st.source (st.pos + 1 + d1.length + 1 + d2.length) = some 0x7d :=
    charCodeAt_of_drop h4
  have hb1 : decide (d1.length ≠ 0) = true :=
    decide_eq_true (fun hh => hne1 (List.eq_nil_of_length_eq_zero hh))
  have hb2 : decide (d2.length ≠ 0) = true :=
    decide_eq_true (fun hh => hne2 (List.eq_nil_of_length_eq_zero hh))
  have hb3 : decide (digitsVal d2 ≠ -1) = true :=
    decide_eq_true (by have := digitsVal_nonneg d2 hd2; omega)
  have hb4 : decide (digitsVal d2 < digitsVal d1) = true := decide_eq_true hlt
  have e1 := reg_eat_yes s st 0x7b 0x7b false hrs h0 (by decide) rfl
  have e2 := eatDecimalDigits_run
    { s with regexpState := some { st with pos := st.pos + 1 } }
    { st with pos := st.pos + 1 }
    d1 0x2c (d2 ++ 0x7d :: rest) rfl h1 hd1 (by decide)
  have e3 := reg_eat_yes
    { s with regexpState := some { st with lastIntValue := digitsVal d1, pos := st.pos + 1 + d1.length } }
    { st with lastIntValue := digitsVal d1, pos := st.pos + 1 + d1.length }
    0x2c 0x2c false rfl hc1 (by decide) rfl
  have e4 := eatDecimalDigits_run
    { s with regexpState := some { st with lastIntValue := digitsVal d1, pos := st.pos + 1 + d1.length + 1 } }
    { st with lastIntValue := digitsVal d1, pos := st.pos + 1 + d1.length + 1 }
    d2 0x7d rest rfl h3 hd2 (by decide)
  have e5 := run_getRS
    { s with regexpState := some { st with lastIntValue := digitsVal d1, pos := st.pos + 1 + d1.length } }
    { st with lastIntValue := digitsVal d1, pos := st.pos + 1 + d1.length } rfl
  have e6 := run_getRS
    { s with regexpState := some { st with lastIntValue := digitsVal d2, pos := st.pos + 1 + d1.length + 1 + d2.length } }
    { st with lastIntValue := digitsVal d2, pos := st.pos + 1 + d1.length + 1 + d2.length } rfl
  have e7 := reg_eat_yes
    { s with regexpState := some { st with lastIntValue := digitsVal d2, pos := st.pos + 1 + d1.length + 1 + d2.length } }
    { st with lastIntValue := digitsVal d2, pos := st.pos + 1 + d1.length + 1 + d2.length }
    0x7d 0x7d false rfl hc2 (by decide) rfl
  have e8 := reg_raise_run Unit
    { s with regexpState := some { st with lastIntValue := digitsVal d2, pos := st.pos + 1 + d1.length + 1 + d2.length + 1 } }
    { st with lastIntValue := digitsVal d2, pos := st.pos + 1 + d1.length + 1 + d2.length + 1 }
    "numbers out of order in \x7b\x7d quantifier" rfl
  unfold regexp_eatBracedQuantifier
  simp only [run_bind, run_pure, run_getRS s st hrs, e1, e2, e3, e4, e5, e6, e7, e8,
    hb1, hb2, hb3, hb4, Bool.and_true, Bool.true_and, Bool.not_false,
    eq_self_iff_true, if_true]

end Acorn

namespace Acorn

theorem ebq_in_order (noErr : Bool) (s : P) (st : RState) (d1 d2 rest : JStr)
    (hrs : s.regexpState = some st)
    (hdrop : st.source.drop st.pos = 0x7b :: (d1 ++ 0x2c :: (d2 ++ 0x7d :: rest)))
    (hd1 : ∀ x ∈ d1, isDigitU x = true) (hd2 : ∀ x ∈ d2, isDigitU x = true)
    (hne1 : d1 ≠ []) (hne2 : d2 ≠ [])
    (hle : digitsVal d1 ≤ digitsVal d2) :
    regexp_eatBracedQuantifier noErr s =
      .ok true
        { s with regexpState := some { st with
            lastIntValue := digitsVal d2
            pos := st.pos + 1 + d1.length + 1 + d2.length + 1 } } := by
  have h0 : charCodeAt st.source st.pos = some 0x7b := charCodeAt_of_drop hdrop
  have h1 : st.source.drop (st.pos + 1) = d1 ++ 0x2c :: (d2 ++ 0x7d :: rest) :=
    drop_succ_of_drop hdrop
  have h2 : st.source.drop (st.pos + 1 + d1.length) = 0x2c :: (d2 ++ 0x7d :: rest) :=
    drop_append_of_drop d1 _ _ h1
  have h3 : st.source.drop (st.pos + 1 + d1.length + 1) = d2 ++ 0x7d :: rest :=
    drop_succ_of_drop h2
  have h4 : st.source.drop (st.pos + 1 + d1.length + 1 + d2.length) = 0x7d :: rest :=
    drop_append_of_drop d2 _ _ h3
  have hc1 : charCodeAt st.source (st.pos + 1 + d1.length) = some 0x2c :=
    charCodeAt_of_drop h2
  have hc2 : charCodeAt st.source (st.pos + 1 + d1.length + 1 + d2.length) = some 0x7d :=
    charCodeAt_of_drop h4
  have hb1 : decide (d1.length ≠ 0) = true :=
    decide_eq_true (fun hh => hne1 (List.eq_nil_of_length_eq_zero hh))
  have hb2 : decide (d2.length ≠ 0) = true :=
    decide_eq_true (fun hh => hne2 (List.eq_nil_of_length_eq_zero hh))
  have hb4 : decide (digitsVal d2 < digitsVal d1) = false :=
    decide_eq_false (not_lt.mpr hle)
  have e1 := reg_eat_yes s st 0x7b 0x7b false hrs h0 (by decide) rfl
  have e2 := eatDecimalDigits_run
    { s with regexpState := some { st with pos := st.pos + 1 } }
    { st with pos := st.pos + 1 }
    d1 0x2c (d2 ++ 0x7d :: rest) rfl h1 hd1 (by decide)
  have e3 := reg_eat_yes
    { s with regexpState := some { st with lastIntValue := digitsVal d1, pos := st.pos + 1 + d1.length } }
    { st with lastIntValue := digitsVal d1, pos := st.pos + 1 + d1.length }
    0x2c 0x2c false rfl hc1 (by decide) rfl
  have e4 := eatDecimalDigits_run
    { s with regexpState := some { st with lastIntValue := digitsVal d1, pos := st.pos + 1 + d1.length + 1 } }
    { st with lastIntValue := digitsVal d1, pos := st.pos + 1 + d1.length + 1 }
    d2 0x7d rest rfl h3 hd2 (by decide)
  have e5 := run_getRS
    { s with regexpState := some { st with lastIntValue := digitsVal d1, pos := st.pos + 1 + d1.length } }
    { st with lastIntValue := digitsVal d1, pos := st.pos + 1 + d1.length } rfl
  have e6 := run_getRS
    { s with regexpState := some { st with lastIntValue := digitsVal d2, pos := st.pos + 1 + d1.length + 1 + d2.length } }
    { st with lastIntValue := digitsVal d2, pos := st.pos + 1 + d1.length + 1 + d2.length } rfl
  have e7 := reg_eat_yes
    { s with regexpState := some { st with lastIntValue := digitsVal d2, pos := st.pos + 1 + d1.length + 1 + d2.length } }
    { st with lastIntValue := digitsVal d2, pos := st.pos + 1 + d1.length + 1 + d2.length }
    0x7d 0x7d false rfl hc2 (by decide) rfl
  unfold regexp_eatBracedQuantifier
  simp only [run_bind, run_pure, run_getRS s st hrs, e1, e2, e3, e4, e5, e6, e7,
    hb1, hb2, hb4, Bool.and_false, Bool.false_and, Bool.true_and, Bool.and_true,
    Bool.false_eq_true, if_false, eq_self_iff_true, if_true]

end Acorn

namespace Acorn

theorem ebq_exact (noErr : Bool) (s : P) (st : RState) (d1 rest : JStr)
    (hrs : s.regexpState = some st)
    (hdrop : st.source.drop st.pos = 0x7b :: (d1 ++ 0x7d :: rest))
    (hd1 : ∀ x ∈ d1, isDigitU x = true) (hne1 : d1 ≠ []) :
    regexp_eatBracedQuantifier noErr s =
      .ok true
        { s with regexpState := some { st with
            lastIntValue := digitsVal d1
            pos := st.pos + 1 + d1.length + 1 } } := by
  have h0 : charCodeAt st.source st.pos = some 0x7b := charCodeAt_of_drop hdrop
  have h1 : st.source.drop (st.pos + 1) = d1 ++ 0x7d :: rest := drop_succ_of_drop hdrop
  have h2 : st.source.drop (st.pos + 1 + d1.length) = 0x7d :: rest :=
    drop_append_of_drop d1 _ _ h1
  have hc1 : charCodeAt st.source (st.pos + 1 + d1.length) = some 0x7d :=
    charCodeAt_of_drop h2
  have hb1 : decide (d1.length ≠ 0) = true :=
    decide_eq_true (fun hh => hne1 (List.eq_nil_of_length_eq_zero hh))
  have hbneg : decide ((-1 : Int) ≠ -1) = false := by decide
  have e1 := reg_eat_yes s st 0x7b 0x7b false hrs h0 (by decide) rfl
  have e2 := eatDecimalDigits_run
    { s with regexpState := some { st with pos := st.pos + 1 } }
    { st with pos := st.pos + 1 }
    d1 0x7d rest rfl h1 hd1 (by decide)
  have e5 := run_getRS
    { s with regexpState := some { st with lastIntValue := digitsVal d1, pos := st.pos + 1 + d1.length } }
    { st with lastIntValue := digitsVal d1, pos := st.pos + 1 + d1.length } rfl
  have hno : rstAt
      { st with lastIntValue := digitsVal d1, pos := st.pos + 1 + d1.length }
      ({ st with lastIntValue := digitsVal d1, pos := st.pos + 1 + d1.length } : RState).pos
      false ≠ (0x2c : Int) := by
    show rstAt { st with lastIntValue := digitsVal d1, pos := st.pos + 1 + d1.length }
      (st.pos + 1 + d1.length) false ≠ (0x2c : Int)
    rw [rstAt_ascii
      { st with lastIntValue := digitsVal d1, pos := st.pos + 1 + d1.length }
      (st.pos + 1 + d1.length) 0x7d hc1 (by decide) false]
    decide
  have e3 := reg_eat_no
    { s with regexpState := some { st with lastIntValue := digitsVal d1, pos := st.pos + 1 + d1.length } }
    { st with lastIntValue := digitsVal d1, pos := st.pos + 1 + d1.length }
    0x2c false rfl hno
  have e4 := reg_eat_yes
    { s with regexpState := some { st with lastIntValue := digitsVal d1, pos := st.pos + 1 + d1.length } }
    { st with lastIntValue := digitsVal d1, pos := st.pos + 1 + d1.length }
    0x7d 0x7d false rfl hc1 (by decide) rfl
  unfold regexp_eatBracedQuantifier
  simp only [run_bind, run_pure, run_getRS s st hrs, e1, e2, e3, e4, e5,
    hb1, hbneg, Bool.and_false, Bool.false_and, Bool.true_and, Bool.and_true,
    Bool.false_eq_true, if_false, eq_self_iff_true, if_true]

theorem ebq_lower_only (noErr : Bool) (s : P) (st : RState) (d1 rest : JStr)
    (hrs : s.regexpState = some st)
    (hdrop : st.source.drop st.pos = 0x7b :: (d1 ++ 0x2c :: 0x7d :: rest))
    (hd1 : ∀ x ∈ d1, isDigitU x = true) (hne1 : d1 ≠ []) :
    regexp_eatBracedQuantifier noErr s =
      .ok true
        { s with regexpState := some { st with
            lastIntValue := 0
            pos := st.pos + 1 + d1.length + 1 + 1 } } := by
  have h0 : charCodeAt st.source st.pos = some 0x7b := charCodeAt_of_drop hdrop
  have h1 : st.source.drop (st.pos + 1) = d1 ++ 0x2c :: 0x7d :: rest :=
    drop_succ_of_drop hdrop
  have h2 : st.source.drop (st.pos + 1 + d1.length) = 0x2c :: 0x7d :: rest :=
    drop_append_of_drop d1 _ _ h1
  have h3 : st.source.drop (st.pos + 1 + d1.length + 1) = 0x7d :: rest :=
    drop_succ_of_drop h2
  have hc1 : charCodeAt st.source (st.pos + 1 + d1.length) = some 0x2c :=
    charCodeAt_of_drop h2
  have hc2 : charCodeAt st.source (st.pos + 1 + d1.length + 1) = some 0x7d :=
    charCodeAt_of_drop h3
  have hb1 : decide (d1.length ≠ 0) = true :=
    decide_eq_true (fun hh => hne1 (List.eq_nil_of_length_eq_zero hh))
  have hb0 : decide ((List.length ([] : JStr)) ≠ 0) = false := by decide
  have hb00 : decide ((0 : Nat) ≠ 0) = false := by decide
  have hdv : digitsVal ([] : JStr) = 0 := rfl
  have hbneg : decide ((-1 : Int) ≠ -1) = false := by decide
  have e1 := reg_eat_yes s st 0x7b 0x7b false hrs h0 (by decide) rfl
  have e2 := eatDecimalDigits_run
    { s with regexpState := some { st with pos := st.pos + 1 } }
    { st with pos := st.pos + 1 }
    d1 0x2c (0x7d :: rest) rfl h1 hd1 (by decide)
  have e5 := run_getRS
    { s with regexpState := some { st with lastIntValue := digitsVal d1, pos := st.pos + 1 + d1.length } }
    { st with lastIntValue := digitsVal d1, pos := st.pos + 1 + d1.length } rfl
  have e3 := reg_eat_yes
    { s with regexpState := some { st with lastIntValue := digitsVal d1, pos := st.pos + 1 + d1.length } }
    { st with lastIntValue := digitsVal d1, pos := st.pos + 1 + d1.length }
    0x2c 0x2c false rfl hc1 (by decide) rfl
  have e4 := eatDecimalDigits_run
    { s with regexpState := some { st with lastIntValue := digitsVal d1, pos := st.pos + 1 + d1.length + 1 } }
    { st with lastIntValue := digitsVal d1, pos := st.pos + 1 + d1.length + 1 }
    [] 0x7d rest rfl (by simpa using h3) (by simp) (by decide)
  have e6 := reg_eat_yes
    { s with regexpState := some { st with lastIntValue := 0, pos := st.pos + 1 + d1.length + 1 } }
    { st with lastIntValue := 0, pos := st.pos + 1 + d1.length + 1 }
    0x7d 0x7d false rfl hc2 (by decide) rfl
  unfold regexp_eatBracedQuantifier
  simp only [run_bind, run_pure, run_getRS s st hrs, e1, e2, e3, e4, e5, e6,
    hb1, hb0, hb00, hdv, hbneg, List.length_nil, Nat.add_zero,
    Bool.and_false, Bool.false_and, Bool.true_and, Bool.and_true,
    Bool.false_eq_true, if_false, eq_self_iff_true, if_true]

end Acorn

namespace Acorn

/-- Claim C6: the braced quantifier. With the validator's cursor on a
`\x7bn,m\x7d` whose decimal digit strings give m < n, `eatBracedQuantifier`
(called without `noError`, as `regexp_eatQuantifier` does) raises an error
whose reason is "numbers out of order in \x7b\x7d quantifier", positioned at
the literal's start; with m ≥ n it succeeds, as do the `\x7bn\x7d` and
`\x7bn,\x7d` forms, for either `noError` mode. Concretely, validating the
expression `/a\x7b3,2\x7d/u` fails with that reason at offset 1. -/
theorem claim_C6 :
    (∀ (s : P) (st : RState) (d1 d2 rest : JStr),
       s.regexpState = some st →
       st.source.drop st.pos = 0x7b :: (d1 ++ 0x2c :: (d2 ++ 0x7d :: rest)) →
       (∀ x ∈ d1, isDigitU x = true) → (∀ x ∈ d2, isDigitU x = true) →
       d1 ≠ [] → d2 ≠ [] →
       digitsVal d2 < digitsVal d1 →
       ∃ m, errMsg (regexp_eatBracedQuantifier false s) = some m ∧
         (jstr "Invalid regular expression: /" ++ st.source ++ jstr "/: " ++
          jstr "numbers out of order in \x7b\x7d quantifier").isPrefixOf m = true ∧
         errPos (regexp_eatBracedQuantifier false s) = some st.start) ∧
    (∀ (noErr : Bool) (s : P) (st : RState) (d1 d2 rest : JStr),
       s.regexpState = some st →
       st.source.drop st.pos = 0x7b :: (d1 ++ 0x2c :: (d2 ++ 0x7d :: rest)) →
       (∀ x ∈ d1, isDigitU x = true) → (∀ x ∈ d2, isDigitU x = true) →
       d1 ≠ [] → d2 ≠ [] →
       digitsVal d1 ≤ digitsVal d2 →
       regexp_eatBracedQuantifier noErr s =
         .ok true
           { s with regexpState := some { st with
               lastIntValue := digitsVal d2
               pos := st.pos + 1 + d1.length + 1 + d2.length + 1 } }) ∧
    (∀ (noErr : Bool) (s : P) (st : RState) (d1 rest : JStr),
       s.regexpState = some st →
       st.source.drop st.pos = 0x7b :: (d1 ++ 0x7d :: rest) →
       (∀ x ∈ d1, isDigitU x = true) → d1 ≠ [] →
       regexp_eatBracedQuantifier noErr s =
         .ok true
           { s with regexpState := some { st with
               lastIntValue := digitsVal d1
               pos := st.pos + 1 + d1.length + 1 } }) ∧
    (∀ (noErr : Bool) (s : P) (st : RState) (d1 rest : JStr),
       s.regexpState = some st →
       st.source.drop st.pos = 0x7b :: (d1 ++ 0x2c :: 0x7d :: rest) →
       (∀ x ∈ d1, isDigitU x = true) → d1 ≠ [] →
       regexp_eatBracedQuantifier noErr s =
         .ok true
           { s with regexpState := some { st with
               lastIntValue := 0
               pos := st.pos + 1 + d1.length + 1 + 1 } }) ∧
    errMsg (parseExpressionAt "/a\x7b3,2\x7d/u" 0) =
      some (jstr "Invalid regular expression: /a\x7b3,2\x7d/: numbers out of order in \x7b\x7d quantifier (1:1)") ∧
    errPos (parseExpressionAt "/a\x7b3,2\x7d/u" 0) = some 1 := by
  refine ⟨?_, ebq_in_order, ebq_exact, ebq_lower_only, by decide!, by decide!⟩
  intro s st d1 d2 rest hrs hdrop hd1 hd2 hne1 hne2 hlt
  have hrun := ebq_out_of_order s st d1 d2 rest hrs hdrop hd1 hd2 hne1 hne2 hlt
  refine ⟨jstr "Invalid regular expression: /" ++ st.source ++ jstr "/: " ++
      jstr "numbers out of order in \x7b\x7d quantifier" ++ jstr " (" ++
      natStr (getLineInfo s.input st.start).1 ++ jstr ":" ++
      natStr (getLineInfo s.input st.start).2 ++ jstr ")", ?_, ?_, ?_⟩
  · rw [hrun]
    rfl
  · have hM : (jstr "Invalid regular expression: /" ++ st.source ++ jstr "/: " ++
        jstr "numbers out of order in \x7b\x7d quantifier") ++
        (jstr " (" ++ (natStr (getLineInfo s.input st.start).1 ++ (jstr ":" ++
         (natStr (getLineInfo s.input st.start).2 ++ jstr ")")))) =
        (jstr "Invalid regular expression: /" ++ st.source ++ jstr "/: " ++
         jstr "numbers out of order in \x7b\x7d quantifier" ++ jstr " (" ++
         natStr (getLineInfo s.input st.start).1 ++ jstr ":" ++
         natStr (getLineInfo s.input st.start).2 ++ jstr ")") := by
      simp [List.append_assoc]
    rw [← hM]
    exact isPrefixOf_append _ _
  · rw [hrun]
    rfl

/-- Witness for claim C6: the four quantifier shapes on the concrete patterns
`a\x7b3,2\x7d`, `a\x7b2,3\x7d`, `a\x7b3\x7d` and `a\x7b3,\x7d`. -/
theorem claim_C6_witness :
    (∃ m, errMsg (regexp_eatBracedQuantifier false rsDemo) = some m ∧
       (jstr "Invalid regular expression: /" ++ jstr "a\x7b3,2\x7d" ++ jstr "/: " ++
        jstr "numbers out of order in \x7b\x7d quantifier").isPrefixOf m = true ∧
       errPos (regexp_eatBracedQuantifier false rsDemo) = some 1) ∧
    (regexp_eatBracedQuantifier false rsDemoB =
      .ok true { rsDemoB with
        regexpState := some { source := jstr "a\x7b2,3\x7d", start := 1, pos := 6, lastIntValue := 3 } }) ∧
    (regexp_eatBracedQuantifier false rsDemoC =
      .ok true { rsDemoC with
        regexpState := some { source := jstr "a\x7b3\x7d", start := 1, pos := 4, lastIntValue := 3 } }) ∧
    (regexp_eatBracedQuantifier false rsDemoD =
      .ok true { rsDemoD with
        regexpState := some { source := jstr "a\x7b3,\x7d", start := 1, pos := 5, lastIntValue := 0 } }) :=
  ⟨claim_C6.1 rsDemo { source := jstr "a\x7b3,2\x7d", pos := 1, start := 1 } [51] [50] []
     rfl (by decide) (by decide) (by decide) (by decide) (by decide) (by decide),
   claim_C6.2.1 false rsDemoB { source := jstr "a\x7b2,3\x7d", pos := 1, start := 1 } [50] [51] []
     rfl (by decide) (by decide) (by decide) (by decide) (by decide) (by decide),
   claim_C6.2.2.1 false rsDemoC { source := jstr "a\x7b3\x7d", pos := 1, start := 1 } [51] []
     rfl (by decide) (by decide) (by decide),
   claim_C6.2.2.2.1 false rsDemoD { source := jstr "a\x7b3,\x7d", pos := 1, start := 1 } [51] []
     rfl (by decide) (by decide) (by decide)⟩

end Acorn

namespace Acorn

/-- Concrete stack-balance instances: these successful parses end with a
context stack and a scope stack of length exactly 1 (the initial `b_stat`
context and the top-level scope). -/
theorem stack_balance_instances :
    okStackLens (parseProgram "(a,b=1)") = some (1, 1) ∧
    okStackLens (parseProgram "function f()\x7breturn\n1\x7d") = some (1, 1) :=
  ⟨by decide!, by decide!⟩

end Acorn
